import Mathlib

/-!
# Korvex motion controllers (TowerTakeover/korvex_cedar/src/main.cpp)

Shallow embedding of the chassis controllers `driveP`, `driveQ`, `turnP`,
`turnQ` and of the dispatcher `driveTo`.

Modelling conventions.

* C++ `float`/`double` values are exact rationals (`ℚ`): rounding error, NaN
  and infinities are not represented.  `abs` on a floating value is the
  absolute value, `std::pow(v, 2)` is `v ^ 2`.
* C++ `int` is the 32-bit two's-complement type of the target.  The encoder
  arithmetic of `driveP` (sums and differences of targets and readings, `abs`
  of a wheel error, the sum of the two absolute errors) is reduced to that
  range by `wrap32` after every operation.  The other `int` values (the voltage
  cap, which is bounded by `voltageMax`, and truncated floating values) are not
  reduced.  The two cycle counters, which only ever count up from zero and
  end the loop at a small threshold, are natural numbers.
* The sign idiom `v / abs(v)` is compiled without a division (the compiler
  rewrites `x / abs(x)` on `int` into `x < 0 ? -1 : 1`); `csign` is that
  compiled form, so the sign of 0 is `+1` and no iteration stops on it.
* `std::sqrt`, `std::atan2` and `std::atan` belong to the C++ standard library
  and are parameters of the model (`MathLib`).
* `while(autonomous)` tests the address of the function `autonomous`, which is
  never null: every loop is `while (true)` and is run with explicit fuel.
* The sensors are sampled once per loop iteration: `s t` is what the chassis
  odometry, the IMU and the drive encoders read during tick `t`; every
  `pros::delay` moves on to tick `t + 1`.  The readings taken at function
  entry are those of the tick on which the function is entered.
* A local variable that the source reads before its first assignment is an
  explicit argument (`i0`, `iTurn0`, ...).
* Console output (`std::cout`) is not modelled.
-/

namespace Korvex

/-! ## Environment -/

/-- The standard-library routines the controllers call.  The angle routines
are taken together with the conversion to degrees that follows every call in
the source: `atan2Deg y x` stands for `std::atan2(y, x) * 180 / M_PI` and
`atanDivDeg y x` for `std::atan(y / x) * 180 / M_PI`. -/
structure MathLib where
  sqrt : ℚ → ℚ
  atan2Deg : ℚ → ℚ → ℚ
  atanDivDeg : ℚ → ℚ → ℚ

/-- One sample of every sensor the chassis controllers read. -/
structure Sensors where
  /-- Odometry `chassis->getState().x.convert(centimeter)`. -/
  x : ℚ
  /-- Odometry `chassis->getState().y.convert(centimeter)`. -/
  y : ℚ
  /-- Heading `imu.get_rotation()` in degrees. -/
  rot : ℚ
  /-- Encoder `chassis->getModel()->getSensorVals()[0]`. -/
  encLeft : Int
  /-- Encoder `chassis->getModel()->getSensorVals()[1]`. -/
  encRight : Int
deriving DecidableEq

/-- Commands a controller sends to the chassis. -/
inductive Event where
  /-- Call `chassis->getModel()->tank(left, right)`. -/
  | tank (left right : ℚ)
  /-- Call `chassis->stop()`. -/
  | stop
deriving DecidableEq

/-- How a controller call ended within the fuel it was given. -/
inductive Outcome (σ : Type) where
  /-- The function returned on tick `tick` with local variables `final`. -/
  | returned (tick : Nat) (final : σ)
  /-- The iteration of tick `tick` had no defined result. -/
  | undefinedAt (tick : Nat)
  /-- The loop was still running when the fuel ran out. -/
  | unfinished

/-- Result of running a controller: chassis commands in order, and the outcome. -/
structure Run (σ : Type) where
  events : List Event
  outcome : Outcome σ

/-- Effect of one loop iteration: the updated locals, the two arguments of the
`tank` call, and whether the iteration ends in `return`. -/
structure Tick (σ : Type) where
  state : σ
  left : ℚ
  right : ℚ
  exit : Bool

/-- The loop `while (autonomous) { body; pros::delay(..); }` shared by the four
controllers.  `body` is one iteration (`none` when it has no defined result;
the iterations of the four controllers always have one); an exiting iteration
calls `chassis->stop()` and returns. -/
def runLoop {σ : Type} (body : σ → Sensors → Option (Tick σ)) (s : Nat → Sensors) :
    Nat → Nat → σ → Run σ
  | 0, _, _ => ⟨[], .unfinished⟩
  | fuel + 1, t, st =>
    match body st (s t) with
    | none => ⟨[], .undefinedAt t⟩
    | some k =>
      if k.exit then ⟨[.tank k.left k.right, .stop], .returned t k.state⟩
      else
        let r := runLoop body s fuel (t + 1) k.state
        ⟨.tank k.left k.right :: r.events, r.outcome⟩

/-- Rounding of `std::round`: to the nearest integer, halves away from zero. -/
def cround (v : ℚ) : Int :=
  if 0 ≤ v then ⌊v + 1 / 2⌋ else ⌈v - 1 / 2⌉

/-- Conversion of a floating value to `int`: truncation toward zero. -/
def ctrunc (v : ℚ) : Int :=
  if 0 ≤ v then ⌊v⌋ else ⌈v⌉

/-- Reduction of an integer to the range of a 32-bit two's-complement `int`. -/
def wrap32 (v : Int) : Int :=
  (v + 2147483648) % 4294967296 - 2147483648

/-- The function `abs` on `int`. -/
def cabs (v : Int) : Int :=
  wrap32 |v|

/-- The sign idiom `v / abs(v)` on `int` as compiled: `v < 0 ? -1 : 1`.  For
`v` other than 0 it is the quotient the source writes; at 0 it is `+1`. -/
def csign (v : Int) : Int :=
  if v < 0 then -1 else 1

/-- The "timeout utility" shared by the controllers: when the error repeats,
count the cycle (and count it as a zero-error cycle when `near` holds);
otherwise reset both counters.  Returns `(sameErrCycles, same0ErrCycles)`. -/
def timeoutUtility (same near : Bool) (sameErrCycles same0ErrCycles : Nat) : Nat × Nat :=
  if same then
    (sameErrCycles + 1, if near then same0ErrCycles + 1 else same0ErrCycles)
  else (0, 0)

/-! ## driveP -/

/-- Locals of `driveP` that live across iterations. -/
structure DrivePState where
  voltageCap : Int
  errorCurrent : Int
  errorLast : Int
  sameErrCycles : Nat
  same0ErrCycles : Nat
deriving DecidableEq

/-- Entry state of `driveP`. -/
def driveP.init : DrivePState :=
  { voltageCap := 0, errorCurrent := 0, errorLast := 0, sameErrCycles := 0, same0ErrCycles := 0 }

/-- A wheel error of `driveP`: `target - getSensorVals()[..]` on `int`. -/
def driveP.wheelError (target enc : Int) : Int :=
  wrap32 (target - enc)

/-- Value `errorCurrent` of `driveP`: the mean of the two absolute wheel errors
(`int` sum, integer division). -/
def driveP.errorCurrent (targetLeft targetRight : Int) (smp : Sensors) : Int :=
  let errorLeft := driveP.wheelError targetLeft smp.encLeft
  let errorRight := driveP.wheelError targetRight smp.encRight
  Int.tdiv (wrap32 (cabs errorRight + cabs errorLeft)) 2

/-- One iteration of the `driveP` loop; `targetLeft`/`targetRight` are the
absolute encoder targets computed at entry. -/
def driveP.body (targetLeft targetRight voltageMax : Int) (st : DrivePState)
    (smp : Sensors) : Option (Tick DrivePState) :=
  let kp : ℚ := 15 / 100
  let acc : ℚ := 5
  let kpTurn : ℚ := 7 / 10
  let accTurn : ℚ := 4
  let errorLeft := driveP.wheelError targetLeft smp.encLeft
  let errorRight := driveP.wheelError targetRight smp.encRight
  let errorCurrent := driveP.errorCurrent targetLeft targetRight smp
  let signLeft := csign errorLeft
  let signRight := csign errorRight
  let straight : Bool := signLeft = signRight
  let voltageLeft : ℚ := if straight then errorLeft * kp else errorLeft * kpTurn
  let voltageRight : ℚ := if straight then errorRight * kp else errorRight * kpTurn
  let voltageCap : Int :=
    if straight then ctrunc (st.voltageCap + acc) else ctrunc (st.voltageCap + accTurn)
  let voltageCap : Int := if voltageCap > voltageMax then voltageMax else voltageCap
  let voltageLeft : ℚ :=
    if |voltageLeft| > voltageCap then voltageCap * signLeft else voltageLeft
  let voltageRight : ℚ :=
    if |voltageRight| > voltageCap then voltageCap * signRight else voltageRight
  let c := timeoutUtility (st.errorLast = errorCurrent) (errorCurrent ≤ 2)
    st.sameErrCycles st.same0ErrCycles
  let exit : Bool := (st.errorLast < 5 ∧ errorCurrent < 5) ∨ c.1 ≥ 20
  some
    { state :=
        { voltageCap := voltageCap
          errorCurrent := errorCurrent
          errorLast := if exit then st.errorLast else errorCurrent
          sameErrCycles := c.1
          same0ErrCycles := c.2 }
      left := voltageLeft / 127
      right := voltageRight / 127
      exit := exit }

/-- The function `driveP(targetLeft, targetRight, voltageMax, debugLog)` entered on tick `t0`. -/
def driveP (targetLeft targetRight : Int) (voltageMax : Int) (debugLog : Bool)
    (s : Nat → Sensors) (t0 fuel : Nat) : Run DrivePState :=
  let _ := debugLog
  let targetLeft := wrap32 (targetLeft + (s t0).encLeft)
  let targetRight := wrap32 (targetRight + (s t0).encRight)
  runLoop (driveP.body targetLeft targetRight voltageMax) s fuel t0 driveP.init

/-! ## driveQ -/

/-- Locals of `driveQ` that live across iterations. -/
structure DriveQState where
  errorLast : ℚ
  errorLastTheta : ℚ
  i : ℚ
  iTurn : ℚ
  sameErrCycles : Nat
  same0ErrCycles : Nat
deriving DecidableEq

/-- The target heading that `driveQ` and `turnQ` compute at entry from the
target and the pose read at entry. -/
def targetTheta (M : MathLib) (targetX targetY : ℚ) (backwards forceFlip : Bool)
    (entry : Sensors) : ℚ :=
  let xDif := targetX - entry.x
  let yDif := targetY - entry.y
  let targetTheta := M.atan2Deg yDif xDif
  let targetTheta := if backwards then M.atanDivDeg yDif xDif else targetTheta
  if forceFlip then -targetTheta else targetTheta

/-- Value `distanceTotal` of `driveQ`: distance from the entry pose to the target. -/
def driveQ.distanceTotal (M : MathLib) (targetX targetY : ℚ) (entry : Sensors) : ℚ :=
  M.sqrt ((targetX - entry.x) ^ 2 + (targetY - entry.y) ^ 2)

/-- Value `distanceOrig` of `driveQ`: distance of the current pose from the entry pose. -/
def driveQ.distanceOrig (M : MathLib) (entry smp : Sensors) : ℚ :=
  M.sqrt ((smp.x - entry.x) ^ 2 + (smp.y - entry.y) ^ 2)

/-- Value `error` of `driveQ`: distance of the current pose from the target. -/
def driveQ.error (M : MathLib) (targetX targetY : ℚ) (smp : Sensors) : ℚ :=
  M.sqrt ((targetX - smp.x) ^ 2 + (targetY - smp.y) ^ 2)

/-- Sum `p + i + d` of the distance loop of `driveQ`, before any clamping. -/
def driveQ.pid (st : DriveQState) (error : ℚ) : ℚ :=
  let kp : ℚ := 58 / 1000
  let ki : ℚ := 0
  let kd : ℚ := 1 / 2
  let p := error * kp
  let i := if |error| ≤ 5 then (st.i + error) * ki else 0
  let d := (error - st.errorLast) * kd
  p + i + d

/-- The statement `if (voltage > voltageMax) {voltage = voltageMax;}`. -/
def driveQ.clamp (voltage voltageMax : ℚ) : ℚ :=
  if voltage > voltageMax then voltageMax else voltage

/-- Sum `pTurn + iTurn + dTurn` of the heading loop of `driveQ`. -/
def driveQ.turnTerm (st : DriveQState) (error errorTheta : ℚ) : ℚ :=
  let kpTurn : ℚ := 0
  let kiTurn : ℚ := 3 / 100
  let kdTurn : ℚ := 0
  let pTurn := error * kpTurn
  let iTurn := (st.iTurn + errorTheta) * kiTurn
  let dTurn := (errorTheta - st.errorLastTheta) * kdTurn
  pTurn + iTurn + dTurn

/-- One iteration of the `driveQ` loop.  `entry` is the sample read at entry,
`voltageMax` is already normalised (divided by 127). -/
def driveQ.body (M : MathLib) (targetX targetY : ℚ) (backwards : Bool) (voltageMax : ℚ)
    (forceFlip : Bool) (entry : Sensors) (st : DriveQState) (smp : Sensors) :
    Option (Tick DriveQState) :=
  let ki : ℚ := 0
  let kiTurn : ℚ := 3 / 100
  let distanceTotal := driveQ.distanceTotal M targetX targetY entry
  let distanceOrig := driveQ.distanceOrig M entry smp
  let error := driveQ.error M targetX targetY smp
  let i := if |error| ≤ 5 then (st.i + error) * ki else 0
  let voltage := driveQ.pid st error
  let voltage := driveQ.clamp voltage voltageMax
  let voltage := if distanceOrig > distanceTotal then -voltage else voltage
  let voltage := if backwards then -voltage else voltage
  let errorTheta := targetTheta M targetX targetY backwards forceFlip entry - smp.rot
  let iTurn := (st.iTurn + errorTheta) * kiTurn
  let turn := driveQ.turnTerm st error errorTheta
  let voltageLeft := voltage + turn
  let voltageRight := voltage + -turn
  let c := timeoutUtility (cround st.errorLast = cround error) (|error| ≤ 3)
    st.sameErrCycles st.same0ErrCycles
  let exit : Bool := c.2 > 15 ∨ c.1 ≥ 20
  some
    { state :=
        { errorLast := if exit then st.errorLast else error
          errorLastTheta := if exit then st.errorLastTheta else errorTheta
          i := i
          iTurn := iTurn
          sameErrCycles := c.1
          same0ErrCycles := c.2 }
      left := voltageLeft
      right := voltageRight
      exit := exit }

/-- Entry state of `driveQ`; `i0` and `iTurn0` are the indeterminate initial
values of the locals `i` and `iTurn`. -/
def driveQ.init (i0 iTurn0 : ℚ) : DriveQState :=
  { errorLast := 0, errorLastTheta := 0, i := i0, iTurn := iTurn0,
    sameErrCycles := 0, same0ErrCycles := 0 }

/-- The function `driveQ(targetX, targetY, backwards, voltageMax, forceFlip, debugLog)`
entered on tick `t0` (targets in centimetres). -/
def driveQ (M : MathLib) (targetX targetY : ℚ) (backwards : Bool) (voltageMax : ℚ)
    (forceFlip debugLog : Bool) (i0 iTurn0 : ℚ) (s : Nat → Sensors) (t0 fuel : Nat) :
    Run DriveQState :=
  let _ := debugLog
  runLoop (driveQ.body M targetX targetY backwards (voltageMax / 127) forceFlip (s t0)) s
    fuel t0 (driveQ.init i0 iTurn0)

/-! ## turnP -/

/-- Locals of `turnP` that live across iterations. -/
structure TurnPState where
  errorLast : ℚ
  errorLastInt : Int
  i : ℚ
  sameErrCycles : Nat
  same0ErrCycles : Nat
deriving DecidableEq

/-- The voltage `turnP` computes on one iteration, after its clamp. -/
def turnP.voltage (targetTurn voltageMax sign : Int) (st : TurnPState) (smp : Sensors) : ℚ :=
  let kp : ℚ := 16 / 10
  let ki : ℚ := 8 / 10
  let kd : ℚ := 45 / 100
  let error : ℚ := targetTurn - smp.rot
  let p : Int := ctrunc (error * kp)
  let i : ℚ := if |error| < 10 then (st.i + error) * ki else 0
  let d : Int := ctrunc ((error - st.errorLast) * kd)
  let voltage : ℚ := p + i + d
  if |voltage| > voltageMax then voltageMax * sign else voltage

/-- One iteration of the `turnP` loop. -/
def turnP.body (targetTurn voltageMax : Int) (st : TurnPState) (smp : Sensors) :
    Option (Tick TurnPState) :=
  let ki : ℚ := 8 / 10
  let error : ℚ := targetTurn - smp.rot
  let errorCurrent : ℚ := |error|
  let errorCurrentInt : Int := ctrunc errorCurrent
  let sign := csign targetTurn
  let i : ℚ := if |error| < 10 then (st.i + error) * ki else 0
  let voltage := turnP.voltage targetTurn voltageMax sign st smp
  let c := timeoutUtility (st.errorLastInt = errorCurrentInt)
    (st.errorLast ≤ 2 ∧ errorCurrent ≤ 2) st.sameErrCycles st.same0ErrCycles
  let exit : Bool := c.2 ≥ 5 ∨ c.1 ≥ 60
  some
    { state :=
        { errorLast := if exit then st.errorLast else errorCurrent
          errorLastInt := if exit then st.errorLastInt else ctrunc errorCurrent
          i := i
          sameErrCycles := c.1
          same0ErrCycles := c.2 }
      left := voltage / 127
      right := -voltage / 127
      exit := exit }

/-- The function `turnP(targetTurn, voltageMax, debugLog)` entered on tick `t0`;
`errorLast0`, `errorLastInt0` and `i0` are the indeterminate initial values of
the locals `errorLast`, `errorLastInt` and `i`. -/
def turnP (targetTurn voltageMax : Int) (debugLog : Bool) (errorLast0 : ℚ)
    (errorLastInt0 : Int) (i0 : ℚ) (s : Nat → Sensors) (t0 fuel : Nat) : Run TurnPState :=
  let _ := debugLog
  runLoop (turnP.body targetTurn voltageMax) s fuel t0
    { errorLast := errorLast0, errorLastInt := errorLastInt0, i := i0,
      sameErrCycles := 0, same0ErrCycles := 0 }

/-! ## turnQ -/

/-- Locals of `turnQ` that live across iterations. -/
structure TurnQState where
  errorLastTheta : ℚ
  i : ℚ
  sameErrCycles : Nat
  same0ErrCycles : Nat
deriving DecidableEq

/-- One iteration of the `turnQ` loop; `theta` is the target heading computed at entry. -/
def turnQ.body (theta : ℚ) (st : TurnQState) (smp : Sensors) : Option (Tick TurnQState) :=
  let kp : ℚ := 8 / 100
  let ki : ℚ := 0
  let kd : ℚ := 1 / 2
  let errorTheta := theta - smp.rot
  let p := errorTheta * kp
  let i := if |errorTheta| < 10 then (st.i + errorTheta) * ki else 0
  let d := (errorTheta - st.errorLastTheta) * kd
  let voltage := p + i + d
  let c := timeoutUtility (cround st.errorLastTheta = cround errorTheta) (|errorTheta| ≤ 4)
    st.sameErrCycles st.same0ErrCycles
  let exit : Bool := c.2 > 5 ∨ c.1 ≥ 15
  some
    { state :=
        { errorLastTheta := if exit then st.errorLastTheta else errorTheta
          i := i
          sameErrCycles := c.1
          same0ErrCycles := c.2 }
      left := voltage
      right := -voltage
      exit := exit }

/-- Entry state of `turnQ`; `i0` is the indeterminate initial value of the local `i`. -/
def turnQ.init (i0 : ℚ) : TurnQState :=
  { errorLastTheta := 0, i := i0, sameErrCycles := 0, same0ErrCycles := 0 }

/-- The function `turnQ(targetX, targetY, backwards, forceFlip, debugLog)` entered on
tick `t0` (targets in centimetres). -/
def turnQ (M : MathLib) (targetX targetY : ℚ) (backwards forceFlip debugLog : Bool) (i0 : ℚ)
    (s : Nat → Sensors) (t0 fuel : Nat) : Run TurnQState :=
  let _ := debugLog
  runLoop (turnQ.body (targetTheta M targetX targetY backwards forceFlip (s t0))) s fuel t0
    (turnQ.init i0)

/-! ## driveTo -/

/-- The heading `targetTheta` that `driveTo` computes for its pre-rotation test. -/
def driveTo.targetTheta (M : MathLib) (targetX targetY : ℚ) (backwards forceFlip : Bool)
    (entry : Sensors) : ℚ :=
  if backwards || forceFlip then M.atanDivDeg (targetY - entry.y) (targetX - entry.x)
  else M.atan2Deg (targetY - entry.y) (targetX - entry.x)

/-- The test `abs(targetTheta - imu.get_rotation()) > 20` of `driveTo`. -/
def driveTo.needsTurn (M : MathLib) (targetX targetY : ℚ) (backwards forceFlip : Bool)
    (entry : Sensors) : Bool :=
  |driveTo.targetTheta M targetX targetY backwards forceFlip entry - entry.rot| > 20

/-- Sequencing of two blocking calls: `next` is entered on the tick on which
`first` returned (no delay lies between the two calls); when `first` does not
return, `next` is never entered. -/
def Run.andThen {σ τ : Type} (first : Run σ) (next : Nat → Run τ) : Run τ :=
  match first.outcome with
  | .returned t _ => ⟨first.events ++ (next t).events, (next t).outcome⟩
  | .undefinedAt t => ⟨first.events, .undefinedAt t⟩
  | .unfinished => ⟨first.events, .unfinished⟩

/-- The function `driveTo(targetX, targetY, backwards, voltageMax, forceFlip, debugLog)`
entered on tick `t0`.  Each of the two loops gets `fuel` iterations; `turnI0`,
`i0` and `iTurn0` are the indeterminate initial values of the integrators of
`turnQ` and `driveQ`. -/
def driveTo (M : MathLib) (targetX targetY : ℚ) (backwards : Bool) (voltageMax : Int)
    (forceFlip debugLog : Bool) (turnI0 i0 iTurn0 : ℚ) (s : Nat → Sensors) (t0 fuel : Nat) :
    Run DriveQState :=
  if driveTo.needsTurn M targetX targetY backwards forceFlip (s t0) then
    (turnQ M targetX targetY backwards forceFlip debugLog turnI0 s t0 fuel).andThen fun t =>
      driveQ M targetX targetY backwards voltageMax forceFlip debugLog i0 iTurn0 s t fuel
  else
    driveQ M targetX targetY backwards voltageMax forceFlip debugLog i0 iTurn0 s t0 fuel

/-! ## Sample inputs

A concrete math library and concrete sensor streams, used to evaluate the
controllers at explicit inputs. -/

/-- Arctangent in degrees on the sample library: linear inside each octant,
exact at the multiples of 45 degrees. -/
def sampleAtanDeg (z : ℚ) : ℚ :=
  if |z| ≤ 1 then 45 * z else if 0 < z then 90 - 45 / z else -90 - 45 / z

/-- A computable stand-in for the standard library: the square root takes the
integer square roots of numerator and denominator (exact on squares of
rationals), the arctangents are exact at the multiples of 45 degrees. -/
def sampleMath : MathLib where
  sqrt v := (Nat.sqrt v.num.natAbs : ℚ) / (Nat.sqrt v.den : ℚ)
  atan2Deg y x :=
    if 0 < x then sampleAtanDeg (y / x)
    else if x < 0 then (if 0 ≤ y then sampleAtanDeg (y / x) + 180 else sampleAtanDeg (y / x) - 180)
    else if 0 < y then 90 else if y < 0 then -90 else 0
  atanDivDeg y x :=
    if x = 0 then (if 0 < y then 90 else if y < 0 then -90 else 0) else sampleAtanDeg (y / x)

/-- Robot at pose `(x, y)` cm with IMU rotation `rot` degrees, encoders at zero. -/
def poseAt (x y rot : ℚ) : Sensors :=
  { x := x, y := y, rot := rot, encLeft := 0, encRight := 0 }

/-- A robot that does not move: pose `(0, 0)`, heading 0, on every tick. -/
def atRest : Nat → Sensors := fun _ => poseAt 0 0 0

/-- A robot standing at pose `(0, 0)` whose IMU reads -10 degrees on every tick. -/
def headingOff : Nat → Sensors := fun _ => poseAt 0 0 (-10)

/-- Pose feedback with 2 mm of jitter: the robot is read at x = 19.4 cm on even
ticks and at x = 19.6 cm on odd ticks (y = 0, heading 0). -/
def oscillating : Nat → Sensors := fun t => poseAt (if t % 2 = 0 then 97 / 5 else 98 / 5) 0 0

/-- A `tank` command is a pure rotation when its two wheel voltages cancel;
`stop` commands no motion. -/
def Event.isPureRotation : Event → Bool
  | .tank left right => left + right = 0
  | .stop => true

/-- The sample `smp` with every encoder reading moved by a constant offset. -/
def Sensors.shiftEncoders (offsetLeft offsetRight : Int) (smp : Sensors) : Sensors :=
  { smp with encLeft := smp.encLeft + offsetLeft, encRight := smp.encRight + offsetRight }

/-! ## Operator control (opcontrol)

One iteration of the `while (true)` loop of `opcontrol`.  Every button and
every sensor is sampled once per iteration.  The okapi timer is outside the
repository: the value it reports at the timeout test is an input of the
iteration.  The blocking call `flipout()` contributes its motor commands; the
time it spends waiting is not modelled. -/

/-- The enumeration `trayStates`. -/
inductive trayStates where
  | returned
  | returning
  | extending
deriving DecidableEq

/-- The enumeration `cubeStates`. -/
inductive cubeStates where
  | uncovered
  | covered
  | setting
  | settingCovered
  | finished
deriving DecidableEq

/-- Devices that receive commands in `opcontrol`. -/
inductive Device where
  | lift
  | tray
  | intake
  | chassis
deriving DecidableEq

/-- The okapi brake modes used in `opcontrol`. -/
inductive BrakeMode where
  | coast
  | brake
  | hold
deriving DecidableEq

/-- Commands issued by `opcontrol`, `flipout` and `traySlew`. -/
inductive OpCmd where
  | moveVelocity (d : Device) (velocity : Int)
  | moveVoltage (d : Device) (voltage : Int)
  | moveAbsolute (d : Device) (position : ℚ) (velocity : Int)
  | moveRelative (d : Device) (position : ℚ) (velocity : Int)
  | setBrakeMode (d : Device) (mode : BrakeMode)
  | tank (left right : ℚ)
deriving DecidableEq

/-- The constant `LIFT_STACKING_HEIGHT`. -/
def LIFT_STACKING_HEIGHT : Int := 700

/-- Variables that live across iterations of the `opcontrol` loop: the globals
`trayState` and `cubeState`, the locals `cubesPositioning` and `joystickAvg`. -/
structure OpState where
  trayState : trayStates
  cubeState : cubeStates
  cubesPositioning : Bool
  joystickAvg : ℚ
deriving DecidableEq

/-- What one iteration of the `opcontrol` loop reads. -/
structure OpInput where
  /-- Button `liftUp.isPressed()`. -/
  liftUp : Bool
  /-- Button `liftDown.isPressed()`. -/
  liftDown : Bool
  /-- Edge `flipoutBtn.changedToPressed()`. -/
  flipoutBtn : Bool
  /-- Button `cubeReturn.isPressed()`. -/
  cubeReturn : Bool
  /-- Button `shift.isPressed()`. -/
  shift : Bool
  /-- Edge `shift.changedToReleased()`. -/
  shiftReleased : Bool
  /-- Button `intakeIn.isPressed()`. -/
  intakeIn : Bool
  /-- Button `intakeOut.isPressed()`. -/
  intakeOut : Bool
  /-- Button `intakeShift.isPressed()`. -/
  intakeShift : Bool
  /-- Edge `trayReturn.changedToPressed()`. -/
  trayReturn : Bool
  /-- Edge `trayReturnAlt.changedToPressed()`. -/
  trayReturnAlt : Bool
  /-- Sensor `liftMotor.getPosition()`. -/
  liftPosition : ℚ
  /-- Sensor `liftMotor.getEfficiency()`. -/
  liftEfficiency : ℚ
  /-- Value of `timer->getDtFromMark().convert(second)` at the timeout test. -/
  markAge : ℚ
  /-- Sensor `line.get_value_calibrated_HR()`. -/
  line : Int
  /-- Sensor `intakeMotors.getPositionError()`. -/
  intakePositionError : ℚ
  /-- Sensor `trayMotor.getPosition()`. -/
  trayPosition : ℚ
  /-- Sensor `trayMotor.getActualVelocity()`. -/
  trayVelocity : ℚ
  /-- Stick `masterController.getAnalog(ControllerAnalog::leftY)`. -/
  leftY : ℚ
  /-- Stick `masterController.getAnalog(ControllerAnalog::rightY)`. -/
  rightY : ℚ

/-- The function `traySlew(forward)`; `trayPosition` is `trayMotor.getPosition()`. -/
def traySlew (forward : Bool) (trayPosition : ℚ) : List OpCmd :=
  if forward then
    if trayPosition > 4500 then [.moveVelocity .tray 40] else [.moveVelocity .tray 100]
  else
    if trayPosition < 1000 then [.moveVelocity .tray (-60)] else [.moveVelocity .tray (-100)]

/-- The motor commands of the function `flipout()`, in order. -/
def flipout : List OpCmd :=
  [.moveVelocity .intake 200, .moveAbsolute .lift 400 200, .moveVelocity .intake 200,
    .moveRelative .intake 600 200, .moveRelative .intake (-600) 200,
    .moveAbsolute .lift (-10) 100]

/-- Block "basic lift control" of `opcontrol`. -/
def opcontrol.liftControl (inp : OpInput) : List OpCmd :=
  if inp.liftUp then [.moveVelocity .lift 100]
  else if inp.liftDown then [.moveVelocity .lift (-100)]
  else if inp.liftPosition < LIFT_STACKING_HEIGHT ∧
      inp.liftPosition > LIFT_STACKING_HEIGHT - 300 then [.moveVoltage .lift (-2000)]
  else if inp.liftPosition < LIFT_STACKING_HEIGHT ∧ inp.liftEfficiency > 50 then
    [.moveVoltage .lift (-2000)]
  else [.moveVoltage .lift 0]

/-- Arming and timeout of the cube positioning: `cubeReturn` arms it (and places
the timer mark), a mark older than one second disarms it.  Returns the value of
`cubesPositioning` with which the positioning block runs. -/
def opcontrol.arm (cubesPositioning : Bool) (inp : OpInput) : Bool :=
  let cubesPositioning := if inp.cubeReturn then true else cubesPositioning
  if inp.markAge > 1 then false else cubesPositioning

/-- Result of the cube positioning block. -/
structure Positioning where
  cubeState : cubeStates
  cubesPositioning : Bool
  cmds : List OpCmd

/-- Block "auto cube positioning for stacking" of `opcontrol`
(`if (cubesPositioning) { ... }`). -/
def opcontrol.cubePositioning (cubeState : cubeStates) (cubesPositioning : Bool)
    (inp : OpInput) : Positioning :=
  if cubesPositioning then
    if cubeState = .settingCovered then
      if |inp.intakePositionError| ≤ 20 then
        { cubeState := .finished, cubesPositioning := false, cmds := [] }
      else { cubeState := cubeState, cubesPositioning := cubesPositioning, cmds := [] }
    else if inp.line < 46000 then
      if cubeState = .setting then
        { cubeState := .settingCovered, cubesPositioning := cubesPositioning,
          cmds := [.moveRelative .intake (-280) 100] }
      else
        { cubeState := cubeState, cubesPositioning := cubesPositioning,
          cmds := [.moveVelocity .intake 100] }
    else
      { cubeState := .setting, cubesPositioning := cubesPositioning,
        cmds := [.moveVelocity .intake (-100)] }
  else { cubeState := cubeState, cubesPositioning := cubesPositioning, cmds := [] }

/-- The cube positioning of one iteration: arming, timeout and positioning block. -/
def opcontrol.alignment (st : OpState) (inp : OpInput) : Positioning :=
  opcontrol.cubePositioning st.cubeState (opcontrol.arm st.cubesPositioning inp) inp

/-- Block "user controlled intake only enabled while returned" of `opcontrol`;
`trayState` is the value before the tray blocks of the iteration run. -/
def opcontrol.userIntake (trayState : trayStates) (cubesPositioning : Bool) (inp : OpInput) :
    List OpCmd :=
  if trayState = .returned ∧ ¬ inp.shift then
    if inp.intakeIn ∧ ¬ inp.intakeOut ∧ inp.liftPosition > LIFT_STACKING_HEIGHT then
      [.moveVelocity .intake 100]
    else if inp.intakeIn ∧ ¬ inp.intakeOut then [.moveVelocity .intake 200]
    else if inp.intakeOut ∧ inp.liftPosition > LIFT_STACKING_HEIGHT then
      [.moveVelocity .intake (-100)]
    else if inp.intakeOut ∨ (inp.intakeShift ∧ inp.liftPosition > LIFT_STACKING_HEIGHT) then
      [.moveVelocity .intake (-200)]
    else if ¬ cubesPositioning then [.moveVoltage .intake 0]
    else []
  else []

/-- Block "manual tray toggle requests" of `opcontrol`. -/
def opcontrol.trayToggle (trayState : trayStates) (inp : OpInput) : trayStates × List OpCmd :=
  if inp.trayReturn then
    if trayState = .returned then (.extending, [.moveAbsolute .tray 6300 90])
    else (.returning, [.moveAbsolute .tray 0 100])
  else if inp.trayReturnAlt then
    if trayState = .returned then (.extending, [.moveAbsolute .tray 6600 65])
    else (.returning, [.moveAbsolute .tray 0 100])
  else (trayState, [])

/-- Block "update trayState" of `opcontrol`. -/
def opcontrol.updateTrayState (trayState : trayStates) (inp : OpInput) : trayStates :=
  if inp.trayPosition ≤ 100 ∧ |inp.trayVelocity| ≤ 5 ∧ trayState ≠ .extending then .returned
  else if inp.trayPosition ≥ 6000 then .returning
  else trayState

/-- Block "tray control using shift key" of `opcontrol`. -/
def opcontrol.trayControl (trayState : trayStates) (inp : OpInput) : List OpCmd :=
  if trayState = .returned then
    if inp.shift then
      if inp.intakeIn then traySlew true inp.trayPosition
      else if inp.intakeOut then traySlew false inp.trayPosition
      else [.moveVoltage .tray 0]
    else if inp.liftPosition > LIFT_STACKING_HEIGHT then [.moveAbsolute .tray 600 100]
    else if inp.liftPosition ≤ LIFT_STACKING_HEIGHT ∧ inp.trayPosition ≤ 600 then
      [.moveAbsolute .tray 0 100]
    else [.moveVoltage .tray 0]
  else []

/-- Block "tray stacking mods" of `opcontrol` (the `switch (trayState)`);
`joystickAvg` is the value left by the previous iteration. -/
def opcontrol.stackingMods (trayState : trayStates) (joystickAvg : ℚ) (inp : OpInput) :
    List OpCmd :=
  match trayState with
  | .returned => [.setBrakeMode .intake .hold, .setBrakeMode .chassis .coast]
  | .returning =>
    (if inp.intakeIn ∧ ¬ inp.intakeOut then [.moveVelocity .intake 200]
      else if inp.intakeOut ∨ inp.intakeShift then [.moveVelocity .intake (-200)]
      else if joystickAvg > 0 then [.moveVoltage .intake 0]
      else [.moveVelocity .intake (ctrunc (joystickAvg * 350))])
      ++ [.setBrakeMode .intake .hold, .setBrakeMode .chassis .coast]
  | .extending =>
    [.moveAbsolute .lift (-150) 100, .setBrakeMode .intake .coast,
      .setBrakeMode .chassis .hold]
      ++ (if ¬ inp.shift ∧ ¬ inp.shiftReleased then
          if inp.intakeIn then [.moveVelocity .intake 50]
          else if inp.intakeOut ∨ inp.intakeShift then [.moveVelocity .intake (-50)]
          else [.moveVoltage .intake 0]
        else [])

/-- Block "lift brake mod" of `opcontrol`. -/
def opcontrol.liftBrake (inp : OpInput) : List OpCmd :=
  if inp.liftPosition > LIFT_STACKING_HEIGHT then [.setBrakeMode .lift .brake]
  else [.setBrakeMode .lift .brake]

/-- One iteration of the main loop of `opcontrol`: the updated variables and
the commands issued, in order. -/
def opcontrol.tick (st : OpState) (inp : OpInput) : OpState × List OpCmd :=
  let lift := opcontrol.liftControl inp
  let flip := if inp.flipoutBtn then flipout else []
  let pos := opcontrol.alignment st inp
  let user := opcontrol.userIntake st.trayState pos.cubesPositioning inp
  let toggle := opcontrol.trayToggle st.trayState inp
  let trayState := opcontrol.updateTrayState toggle.1 inp
  let tray := opcontrol.trayControl trayState inp
  let mods := opcontrol.stackingMods trayState st.joystickAvg inp
  let brake := opcontrol.liftBrake inp
  let drive := [OpCmd.tank inp.leftY inp.rightY]
  ({ trayState := trayState
     cubeState := pos.cubeState
     cubesPositioning := pos.cubesPositioning
     joystickAvg := inp.leftY + inp.rightY / 2 },
    lift ++ flip ++ pos.cmds ++ user ++ toggle.2 ++ tray ++ mods ++ brake ++ drive)

/-- The states after each of a sequence of iterations of the `opcontrol` loop. -/
def opcontrol.trace (st : OpState) : List OpInput → List OpState
  | [] => []
  | inp :: rest => (opcontrol.tick st inp).1 :: opcontrol.trace (opcontrol.tick st inp).1 rest

/-- The state after a sequence of iterations of the `opcontrol` loop. -/
def opcontrol.run (st : OpState) : List OpInput → OpState
  | [] => st
  | inp :: rest => opcontrol.run (opcontrol.tick st inp).1 rest

/-- The variables as `opcontrol` first finds them: the initial values of the
globals `trayState`, `cubeState` and of the locals. -/
def opcontrol.start : OpState :=
  { trayState := .returned, cubeState := .covered, cubesPositioning := false, joystickAvg := 0 }

/-- Whether a command sets device `d` in motion. -/
def OpCmd.moves (d : Device) : OpCmd → Bool
  | .moveVelocity e _ => e = d
  | .moveVoltage e _ => e = d
  | .moveAbsolute e _ _ => e = d
  | .moveRelative e _ _ => e = d
  | .setBrakeMode _ _ => false
  | .tank _ _ => d = .chassis

/-- The last motion command for device `d` in a list of commands. -/
def lastMove (d : Device) (cmds : List OpCmd) : Option OpCmd :=
  (cmds.filter (OpCmd.moves d)).getLast?

/-- An operator who touches nothing: no button held, sensors at zero, line
sensor uncovered (reading 50000). -/
def handsOff : OpInput :=
  { liftUp := false, liftDown := false, flipoutBtn := false, cubeReturn := false,
    shift := false, shiftReleased := false, intakeIn := false, intakeOut := false,
    intakeShift := false, trayReturn := false, trayReturnAlt := false,
    liftPosition := 0, liftEfficiency := 0, markAge := 0, line := 50000,
    intakePositionError := 0, trayPosition := 0, trayVelocity := 0, leftY := 0, rightY := 0 }

/-- Nothing touched while the tray is read just above the 6000 mark. -/
def trayHigh : OpInput := { handsOff with trayPosition := 6001 }

/-- Nothing touched, lift down, tray read at position 1000. -/
def trayPartlyOut : OpInput := { handsOff with trayPosition := 1000 }

/-- Nothing touched except the intake-in button, with `cubeReturn` held and
the line sensor uncovered. -/
def intakeWhileArmed : OpInput := { handsOff with cubeReturn := true, intakeIn := true }

/-- The positioning commands of each of a sequence of iterations of the
`opcontrol` loop. -/
def opcontrol.alignmentCmds (st : OpState) : List OpInput → List (List OpCmd)
  | [] => []
  | inp :: rest =>
    (opcontrol.alignment st inp).cmds :: opcontrol.alignmentCmds (opcontrol.tick st inp).1 rest

/-- Detector readings uncovered, covered, uncovered on three successive ticks:
`cubeReturn` is pressed on the first tick, the timer reports 20 ms and 40 ms on
the next two, and the intake position error is 0 on the third. -/
def cubeSequence : List OpInput :=
  [{ handsOff with cubeReturn := true },
    { handsOff with line := 40000, markAge := 1 / 50 },
    { handsOff with markAge := 1 / 25 }]

/-- State in the last phase of the cube positioning: armed, `SettingCovered`. -/
def cubeAlmostSet : OpState :=
  { opcontrol.start with cubeState := .settingCovered, cubesPositioning := true }

/-- Nothing touched, the timer mark older than one second. -/
def markExpired : OpInput := { handsOff with markAge := 2 }

/-! ## Pose estimator (odomImuSupplement) -/

/-- The okapi `OdomState` held by the chassis: position and heading (radians). -/
structure OdomState where
  x : ℚ
  y : ℚ
  theta : ℚ
deriving DecidableEq

/-- One iteration of the loop of `odomImuSupplement`: the state passed to
`chassis->setState` and the actuator commands issued.  `mPi` is the constant
`M_PI`, `rot` the reading `imu.get_rotation()`. -/
def odomImuSupplement.tick (mPi : ℚ) (state : OdomState) (rot : ℚ) : OdomState × List OpCmd :=
  ({ x := state.x, y := state.y, theta := ((rot * mPi) / 180) * 1 }, [])

/-! ## Auxiliary definitions for the controller properties -/

/-- Whether a chassis command is a `tank` call. -/
def Event.isTank : Event → Bool
  | .tank _ _ => true
  | .stop => false

/-- The derivative term `d` of one `turnP` iteration (an `int`). -/
def turnP.d (targetTurn : Int) (st : TurnPState) (smp : Sensors) : Int :=
  let kd : ℚ := 45 / 100
  let error : ℚ := targetTurn - smp.rot
  ctrunc ((error - st.errorLast) * kd)

/-- The sum `p + i + d` of one `turnP` iteration, before the clamp. -/
def turnP.pid (targetTurn : Int) (st : TurnPState) (smp : Sensors) : ℚ :=
  let kp : ℚ := 16 / 10
  let ki : ℚ := 8 / 10
  let error : ℚ := targetTurn - smp.rot
  let p : Int := ctrunc (error * kp)
  let i : ℚ := if |error| < 10 then (st.i + error) * ki else 0
  let d : Int := turnP.d targetTurn st smp
  p + i + d

/-- The value of the constant `M_PI` as a `double`. -/
def mPiDouble : ℚ := 884279719003555 / 281474976710656

/-- Mean wheel error of `driveP` on tick `t` of a call entered on tick `t0`. -/
def driveP.errorAt (targetLeft targetRight : Int) (s : Nat → Sensors) (t0 t : Nat) : Int :=
  driveP.errorCurrent (wrap32 (targetLeft + (s t0).encLeft))
    (wrap32 (targetRight + (s t0).encRight)) (s t)

/-- The predecessor of the mean wheel error of tick `t`: the error of tick
`t - 1`, and 0 before the first tick. -/
def driveP.errorBefore (targetLeft targetRight : Int) (s : Nat → Sensors) (t0 t : Nat) : Int :=
  if t = t0 then 0 else driveP.errorAt targetLeft targetRight s t0 (t - 1)

/-- The return condition of `driveP` in terms of the error history: on tick `t`
the mean error and its predecessor are both below 5, or the mean error has
equalled its predecessor on the 20 consecutive ticks `t - 19 .. t`. -/
def driveP.returnDue (targetLeft targetRight : Int) (s : Nat → Sensors) (t0 t : Nat) : Prop :=
  (driveP.errorBefore targetLeft targetRight s t0 t < 5
      ∧ driveP.errorAt targetLeft targetRight s t0 t < 5)
    ∨ (t0 + 19 ≤ t ∧ ∀ k, t - 19 ≤ k → k ≤ t →
        driveP.errorAt targetLeft targetRight s t0 k
          = driveP.errorBefore targetLeft targetRight s t0 k)

/-- Pose feedback with 2 mm of jitter close to the target x = 30 cm: the robot
is read at x = 28.4 cm on even ticks and at x = 28.6 cm on odd ticks. -/
def nearJitter : Nat → Sensors := fun t => poseAt (if t % 2 = 0 then 142 / 5 else 143 / 5) 0 0

/-- A robot standing still with the IMU reading `rot` degrees on every tick. -/
def facing (rot : ℚ) : Nat → Sensors := fun _ => poseAt 0 0 rot

/-- Nothing touched except the left stick, pushed fully forward. -/
def stickLeftFull : OpInput := { handsOff with leftY := 1 }

/-- Locals of `turnP` with every indeterminate initial value equal to zero. -/
def turnP.zeroed : TurnPState :=
  { errorLast := 0, errorLastInt := 0, i := 0, sameErrCycles := 0, same0ErrCycles := 0 }


/-- The relation between the locals of `driveP` at the start of tick `t` and
the error history of the call: `errorLast` is the predecessor of the error of
tick `t`, `sameErrCycles` is the length (below 20) of the run of ticks just
before `t` on which the error equalled its predecessor, and no earlier tick
met the return condition. -/
def driveP.tracks (targetLeft targetRight : Int) (s : Nat → Sensors) (t0 t : Nat)
    (st : DrivePState) : Prop :=
  t0 ≤ t ∧ st.errorLast = driveP.errorBefore targetLeft targetRight s t0 t
    ∧ st.sameErrCycles < 20 ∧ st.sameErrCycles ≤ t - t0
    ∧ (∀ k, t - st.sameErrCycles ≤ k → k < t →
        driveP.errorAt targetLeft targetRight s t0 k
          = driveP.errorBefore targetLeft targetRight s t0 k)
    ∧ (st.sameErrCycles < t - t0 →
        driveP.errorAt targetLeft targetRight s t0 (t - st.sameErrCycles - 1)
          ≠ driveP.errorBefore targetLeft targetRight s t0 (t - st.sameErrCycles - 1))
    ∧ ∀ k, t0 ≤ k → k < t → ¬ driveP.returnDue targetLeft targetRight s t0 k

/-! ## Auxiliary definitions for the exit path -/

/-- What the caller of a controller gets back from a call: the return of
control, on some tick, and nothing else.  The controllers are `void` and their
counters are locals, so the final locals are not part of it; the commands go to
the chassis. -/
def Run.returnTick {σ : Type} (r : Run σ) : Option Nat :=
  match r.outcome with
  | .returned t _ => some t
  | _ => none

/-- Heading reading -10 degrees during the first 9 ticks and -2 degrees from
tick 9 on, at pose (0, 0). -/
def turnedThenNear : Nat → Sensors := fun t => poseAt 0 0 (if t < 9 then -10 else -2)

/-- Pose reading x = 90 cm during the first 4 ticks and x = 98 cm from tick 4
on, heading 0. -/
def movedThenNear : Nat → Sensors := fun t => poseAt (if t < 4 then 90 else 98) 0 0

/-- A robot standing at x = 90 cm, heading 0, on every tick. -/
def standingShort : Nat → Sensors := fun _ => poseAt 90 0 0

/-- Both encoders reading `e`, pose and heading 0. -/
def encodersAt (e : Int) : Sensors :=
  { x := 0, y := 0, rot := 0, encLeft := e, encRight := e }

/-- Both encoders reading 0 during the first 19 ticks and 96 from tick 19 on. -/
def creptThenNear : Nat → Sensors := fun t => encodersAt (if t < 19 then 0 else 96)

/-- Pose reading x = 0 cm on the tick of entry, x = 95 cm on ticks 1 and 2 and
x = 105 cm from tick 3 on, heading 0: from tick 3 the robot is read 5 cm past a
target at x = 100 cm. -/
def pastTarget : Nat → Sensors :=
  fun t => poseAt (if t = 0 then 0 else if t < 3 then 95 else 105) 0 0

/-! ## Auxiliary definitions for termination -/

/-- The rounded value of the error `e` stays unchanged over the `n` ticks that
follow tick `N`: on each of the ticks `N + 1 .. N + n` it equals the rounded
value of the tick before. -/
def steadyAfter (e : Nat → ℚ) (N n : Nat) : Prop :=
  ∀ k, N < k → k ≤ N + n → cround (e k) = cround (e (k - 1))

/-- The rounded value of the error `e` stays unchanged over the `n` ticks that
follow tick `N`, and on each of these ticks the error is within `tol`. -/
def nearAfter (e : Nat → ℚ) (tol : ℚ) (N n : Nat) : Prop :=
  ∀ k, N < k → k ≤ N + n → cround (e k) = cround (e (k - 1)) ∧ |e k| ≤ tol

/-- A robot standing at pose `(0, 0)` whose IMU reading alternates between 0.4
and 0.6 degrees. -/
def headingJitter : Nat → Sensors := fun t => poseAt 0 0 (if t % 2 = 0 then 2 / 5 else 3 / 5)

/-- The commands an iteration of `opcontrol` issues after its cube positioning
block, in order: the operator's intake mapping, the tray blocks, the stacking
block, the lift brake and the drive. -/
def opcontrol.afterAlignment (st : OpState) (inp : OpInput) : List OpCmd :=
  opcontrol.userIntake st.trayState (opcontrol.alignment st inp).cubesPositioning inp
    ++ (opcontrol.trayToggle st.trayState inp).2
    ++ opcontrol.trayControl (opcontrol.tick st inp).1.trayState inp
    ++ opcontrol.stackingMods (opcontrol.tick st inp).1.trayState st.joystickAvg inp
    ++ opcontrol.liftBrake inp ++ [OpCmd.tank inp.leftY inp.rightY]

/-- Armed by `cubeReturn` while the tray is read just above the 6000 mark:
the updated tray state is `Returning`. -/
def armedTrayHigh : OpInput := { handsOff with cubeReturn := true, trayPosition := 6001 }

/-! ## The loop runner -/

theorem runLoop_exit {σ : Type} {body : σ → Sensors → Option (Tick σ)} {s : Nat → Sensors}
    {st : σ} {t : Nat} {k : Tick σ} (fuel : Nat) (h : body st (s t) = some k)
    (hk : k.exit = true) :
    runLoop body s (fuel + 1) t st = ⟨[.tank k.left k.right, .stop], .returned t k.state⟩ := by
  simp [runLoop, h, hk]

theorem runLoop_continue {σ : Type} {body : σ → Sensors → Option (Tick σ)} {s : Nat → Sensors}
    {st : σ} {t : Nat} {k : Tick σ} (fuel : Nat) (h : body st (s t) = some k)
    (hk : k.exit = false) :
    runLoop body s (fuel + 1) t st =
      ⟨.tank k.left k.right :: (runLoop body s fuel (t + 1) k.state).events,
        (runLoop body s fuel (t + 1) k.state).outcome⟩ := by
  simp [runLoop, h, hk]

/-- Countdown argument: when every iteration from a state satisfying `G`
either exits (establishing `Q`) or keeps `G` and lowers the measure `μ`, the
loop returns within `μ` further ticks.  `G` and `μ` may depend on the tick. -/
theorem runLoop_returns {σ : Type} (body : σ → Sensors → Option (Tick σ)) (s : Nat → Sensors)
    (G : Nat → σ → Prop) (Q : σ → Prop) (μ : Nat → σ → Nat)
    (hstep : ∀ t st, G t st → ∃ k, body st (s t) = some k ∧ (k.exit = true → Q k.state) ∧
      (k.exit = false → G (t + 1) k.state ∧ μ (t + 1) k.state < μ t st)) :
    ∀ n t st fuel, G t st → μ t st ≤ n → n < fuel →
      ∃ T fin, t ≤ T ∧ T ≤ t + n ∧ Q fin ∧
        (runLoop body s fuel t st).outcome = .returned T fin := by
  intro n
  induction n with
  | zero =>
    intro t st fuel hG hμ hf
    obtain ⟨k, hk, hQ, hC⟩ := hstep t st hG
    obtain ⟨fuel, rfl⟩ : ∃ f, fuel = f + 1 := ⟨fuel - 1, by omega⟩
    cases hx : k.exit with
    | true => exact ⟨t, k.state, le_refl _, by omega, hQ hx, by rw [runLoop_exit fuel hk hx]⟩
    | false => have := (hC hx).2; omega
  | succ n ih =>
    intro t st fuel hG hμ hf
    obtain ⟨k, hk, hQ, hC⟩ := hstep t st hG
    obtain ⟨fuel, rfl⟩ : ∃ f, fuel = f + 1 := ⟨fuel - 1, by omega⟩
    cases hx : k.exit with
    | true => exact ⟨t, k.state, le_refl _, by omega, hQ hx, by rw [runLoop_exit fuel hk hx]⟩
    | false =>
      obtain ⟨hG', hlt⟩ := hC hx
      obtain ⟨T, fin, h1, h2, h3, h4⟩ := ih (t + 1) k.state fuel hG' (by omega) (by omega)
      exact ⟨T, fin, by omega, by omega, h3, by rw [runLoop_continue fuel hk hx]; exact h4⟩

/-- A loop whose iterations never exit from states satisfying `G` is still
running after any number of ticks. -/
theorem runLoop_unfinished {σ : Type} (body : σ → Sensors → Option (Tick σ))
    (s : Nat → Sensors) (G : Nat → σ → Prop)
    (hstep : ∀ t st, G t st → ∃ k, body st (s t) = some k ∧ k.exit = false ∧ G (t + 1) k.state) :
    ∀ fuel t st, G t st → (runLoop body s fuel t st).outcome = .unfinished := by
  intro fuel
  induction fuel with
  | zero => intro t st _; rfl
  | succ fuel ih =>
    intro t st hG
    obtain ⟨k, hk, hx, hG'⟩ := hstep t st hG
    rw [runLoop_continue fuel hk hx]
    exact ih (t + 1) k.state hG'

/-- Every `tank` command of a run is the output of the loop body on the sample
of its tick, from a state reachable under the invariant `G`. -/
theorem runLoop_tank {σ : Type} (body : σ → Sensors → Option (Tick σ)) (s : Nat → Sensors)
    (G : Nat → σ → Prop)
    (hstep : ∀ t st k, G t st → body st (s t) = some k → k.exit = false → G (t + 1) k.state) :
    ∀ fuel t st, G t st → ∀ j l r, (runLoop body s fuel t st).events[j]? = some (.tank l r) →
      ∃ st1 k, G (t + j) st1 ∧ body st1 (s (t + j)) = some k ∧ k.left = l ∧ k.right = r := by
  intro fuel
  induction fuel with
  | zero => intro t st _ j l r h; simp [runLoop] at h
  | succ fuel ih =>
    intro t st hG j l r h
    cases hb : body st (s t) with
    | none => simp [runLoop, hb] at h
    | some k =>
      cases hx : k.exit with
      | true =>
        rw [runLoop_exit fuel hb hx] at h
        match j, h with
        | 0, h =>
          simp at h
          exact ⟨st, k, hG, hb, h.1, h.2⟩
        | 1, h => simp at h
        | j + 2, h => simp at h
      | false =>
        rw [runLoop_continue fuel hb hx] at h
        match j, h with
        | 0, h =>
          simp at h
          exact ⟨st, k, hG, hb, h.1, h.2⟩
        | j + 1, h =>
          simp at h
          obtain ⟨st1, k1, h1, h2, h3, h4⟩ := ih (t + 1) k.state (hstep t st k hG hb hx) j l r h
          exact ⟨st1, k1, by rw [show t + (j + 1) = t + 1 + j by omega]; exact h1,
            by rw [show t + (j + 1) = t + 1 + j by omega]; exact h2, h3, h4⟩

/-- A run that returned did so on an exiting iteration of the body, from a
state reachable under the invariant `G`; the final locals are that iteration's. -/
theorem runLoop_returned {σ : Type} (body : σ → Sensors → Option (Tick σ)) (s : Nat → Sensors)
    (G : Nat → σ → Prop)
    (hstep : ∀ t st k, G t st → body st (s t) = some k → k.exit = false → G (t + 1) k.state) :
    ∀ fuel t st, G t st → ∀ T fin, (runLoop body s fuel t st).outcome = .returned T fin →
      ∃ st1 k, t ≤ T ∧ G T st1 ∧ body st1 (s T) = some k ∧ k.exit = true ∧ k.state = fin := by
  intro fuel
  induction fuel with
  | zero => intro t st _ T fin h; simp [runLoop] at h
  | succ fuel ih =>
    intro t st hG T fin h
    cases hb : body st (s t) with
    | none => simp [runLoop, hb] at h
    | some k =>
      cases hx : k.exit with
      | true =>
        rw [runLoop_exit fuel hb hx] at h
        simp at h
        obtain ⟨rfl, rfl⟩ := h
        exact ⟨st, k, le_refl _, hG, hb, hx, rfl⟩
      | false =>
        rw [runLoop_continue fuel hb hx] at h
        obtain ⟨st1, k1, h1, h2⟩ := ih (t + 1) k.state (hstep t st k hG hb hx) T fin h
        exact ⟨st1, k1, by omega, h2⟩



/-! ## driveTo -/

/-- C2: at target (100 cm, 100 cm) from pose (0, 0) with forceFlip set and
backwards clear, driveTo tests the heading 45 degrees while driveQ and turnQ
steer to the heading -45 degrees; with the IMU reading -45 degrees driveTo
therefore pre-rotates although the heading error of turnQ is 0.  With forceFlip
clear the two computations agree. -/
theorem driveTo_targetTheta_forceFlip :
    driveTo.targetTheta sampleMath 100 100 false true (poseAt 0 0 (-45)) = 45
      ∧ targetTheta sampleMath 100 100 false true (poseAt 0 0 (-45)) = -45
      ∧ driveTo.needsTurn sampleMath 100 100 false true (poseAt 0 0 (-45)) = true
      ∧ ∀ (M : MathLib) (targetX targetY : ℚ) (backwards : Bool) (entry : Sensors),
          driveTo.targetTheta M targetX targetY backwards false entry
            = targetTheta M targetX targetY backwards false entry := by
  refine ⟨?_, ?_, ?_, ?_⟩
  · norm_num [driveTo.targetTheta, sampleMath, sampleAtanDeg, poseAt]
  · norm_num [targetTheta, sampleMath, sampleAtanDeg, poseAt]
  · norm_num [driveTo.needsTurn, driveTo.targetTheta, sampleMath, sampleAtanDeg, poseAt]
  · intro M targetX targetY backwards entry
    cases backwards <;> simp [driveTo.targetTheta, targetTheta]

/-! ## driveQ: voltage commands -/

theorem sampleMath_sqrt_sq (q : ℚ) : sampleMath.sqrt (q ^ 2) = |q| := by
  simp only [sampleMath]
  rw [Rat.num_pow, Rat.den_pow, Int.natAbs_pow, Nat.sqrt_eq', Nat.sqrt_eq']
  have h : ((q.num.natAbs : ℕ) : ℚ) = |(q.num : ℚ)| := by
    rw [Nat.cast_natAbs, Int.cast_abs]
  rw [h]
  conv_rhs => rw [← Rat.num_div_den q]
  rw [abs_div, abs_of_pos (show (0 : ℚ) < q.den by exact_mod_cast q.den_pos)]

theorem sampleMath_sqrt_zero : sampleMath.sqrt 0 = 0 := by
  have h := sampleMath_sqrt_sq 0
  norm_num at h
  exact h

theorem sampleMath_sqrt_10000 : sampleMath.sqrt 10000 = 100 := by
  have h := sampleMath_sqrt_sq 100
  norm_num at h
  exact h

theorem sampleMath_atan2Deg_east (x : ℚ) (hx : 0 < x) : sampleMath.atan2Deg 0 x = 0 := by
  simp [sampleMath, sampleAtanDeg, hx]

/-- The forward voltage of one `driveQ` iteration: the clamped PID sum, negated
on overshoot and negated again when driving backwards. -/
theorem driveQ_body_eq (M : MathLib) (targetX targetY : ℚ) (backwards : Bool) (voltageMax : ℚ)
    (forceFlip : Bool) (entry : Sensors) (st : DriveQState) (smp : Sensors) :
    ∃ k, driveQ.body M targetX targetY backwards voltageMax forceFlip entry st smp = some k ∧
      k.left - driveQ.turnTerm st (driveQ.error M targetX targetY smp)
          (targetTheta M targetX targetY backwards forceFlip entry - smp.rot)
        = k.right + driveQ.turnTerm st (driveQ.error M targetX targetY smp)
          (targetTheta M targetX targetY backwards forceFlip entry - smp.rot) ∧
      (k.left + k.right) / 2 =
        (if backwards then -1 else 1) *
          ((if driveQ.distanceOrig M entry smp > driveQ.distanceTotal M targetX targetY entry
            then -1 else 1) *
            driveQ.clamp (driveQ.pid st (driveQ.error M targetX targetY smp)) voltageMax) := by
  refine ⟨_, rfl, ?_, ?_⟩
  · simp only []
    ring
  · simp only []
    cases backwards <;>
      by_cases h : driveQ.distanceOrig M entry smp > driveQ.distanceTotal M targetX targetY entry <;>
      simp [h] <;> ring

theorem driveQ_clamp_le (voltage voltageMax : ℚ) : driveQ.clamp voltage voltageMax ≤ voltageMax := by
  unfold driveQ.clamp
  split_ifs with h
  · exact le_refl _
  · exact not_lt.mp h

/-- C3 (as stated, refuted): driving to (100 cm, 0 cm) with voltageMax 115 from
pose (0, 0) while the IMU reads -10 degrees, the first tick commands
tank(115/127 + 3/10, 115/127 - 3/10); the left command exceeds 115/127. -/
theorem driveQ_command_exceeds_cap :
    (driveQ sampleMath 100 0 false 115 false false 0 0 headingOff 0 1).events
        = [Event.tank (115 / 127 + 3 / 10) (115 / 127 - 3 / 10)]
      ∧ ¬ (|(115 / 127 + 3 / 10 : ℚ)| ≤ 115 / 127) := by
  constructor
  · norm_num [driveQ, runLoop, driveQ.body, driveQ.init, driveQ.pid, driveQ.clamp,
      driveQ.turnTerm, driveQ.error, driveQ.distanceOrig, driveQ.distanceTotal, targetTheta,
      timeoutUtility, cround, headingOff, poseAt, sampleMath_sqrt_10000, sampleMath_sqrt_zero,
      sampleMath_atan2Deg_east]
  · norm_num [abs_of_pos]

/-- C3 (amended): on every tick of driveQ the PID sum is clamped from above at
the normalised maximum voltageMax/127, the left command is the forward voltage
plus the heading term and the right command is the forward voltage minus it;
the forward voltage (the mean of the two commands) is the clamped PID sum,
negated on overshoot and when driving backwards, so on a forward tick without
overshoot the mean of the two wheel commands is at most voltageMax/127. -/
theorem driveQ_forward_voltage_clamped (M : MathLib) (targetX targetY : ℚ) (backwards : Bool)
    (voltageMax : ℚ) (forceFlip : Bool) (entry : Sensors) (st : DriveQState) (smp : Sensors) :
    ∃ k, driveQ.body M targetX targetY backwards (voltageMax / 127) forceFlip entry st smp
        = some k ∧
      driveQ.clamp (driveQ.pid st (driveQ.error M targetX targetY smp)) (voltageMax / 127)
        ≤ voltageMax / 127 ∧
      k.left = (k.left + k.right) / 2 + driveQ.turnTerm st (driveQ.error M targetX targetY smp)
          (targetTheta M targetX targetY backwards forceFlip entry - smp.rot) ∧
      k.right = (k.left + k.right) / 2 - driveQ.turnTerm st (driveQ.error M targetX targetY smp)
          (targetTheta M targetX targetY backwards forceFlip entry - smp.rot) ∧
      (k.left + k.right) / 2 =
        (if backwards then -1 else 1) *
          ((if driveQ.distanceOrig M entry smp > driveQ.distanceTotal M targetX targetY entry
            then -1 else 1) *
            driveQ.clamp (driveQ.pid st (driveQ.error M targetX targetY smp))
              (voltageMax / 127)) ∧
      (if backwards = false ∧
          ¬ driveQ.distanceOrig M entry smp > driveQ.distanceTotal M targetX targetY entry
        then (k.left + k.right) / 2 ≤ voltageMax / 127 else True) := by
  obtain ⟨k, hk, h1, h2⟩ :=
    driveQ_body_eq M targetX targetY backwards (voltageMax / 127) forceFlip entry st smp
  refine ⟨k, hk, driveQ_clamp_le _ _, by linarith, by linarith, h2, ?_⟩
  split_ifs with h
  · obtain ⟨hb, ho⟩ := h
    rw [h2, hb]
    simp [ho, driveQ_clamp_le]

/-! ## Termination -/

theorem driveQ_error_congr (M : MathLib) (targetX targetY : ℚ) (a b : Sensors)
    (h : a.x = b.x ∧ a.y = b.y) : driveQ.error M targetX targetY a = driveQ.error M targetX targetY b := by
  simp [driveQ.error, h.1, h.2]

/-- Once the pose readings stay constant (from tick `N` on), the `driveQ` loop
returns within 21 further ticks, whatever state it is in. -/
theorem driveQ_loop_settles (M : MathLib) (targetX targetY : ℚ) (backwards : Bool)
    (voltageMax : ℚ) (forceFlip : Bool) (entry : Sensors) (s : Nat → Sensors) (N : Nat)
    (hs : ∀ t, N ≤ t → (s t).x = (s N).x ∧ (s t).y = (s N).y)
    (t : Nat) (st : DriveQState) (fuel : Nat) (ht : t ≤ N) (hf : N - t + 20 < fuel) :
    ∃ T fin, t ≤ T ∧ T ≤ N + 20 ∧ (fin.same0ErrCycles > 15 ∨ fin.sameErrCycles ≥ 20) ∧
      (runLoop (driveQ.body M targetX targetY backwards voltageMax forceFlip entry) s fuel t
        st).outcome = .returned T fin := by
  have key := runLoop_returns
    (driveQ.body M targetX targetY backwards voltageMax forceFlip entry) s
    (fun t st => N < t → st.errorLast = driveQ.error M targetX targetY (s N))
    (fun fin => fin.same0ErrCycles > 15 ∨ fin.sameErrCycles ≥ 20)
    (fun t st => if N < t then 19 - st.sameErrCycles else N - t + 20)
    (by
      intro t st hG
      refine ⟨_, rfl, ?_, ?_⟩
      · intro hx
        simpa using hx
      · intro hx
        simp only [decide_eq_false_iff_not, not_or, not_lt, not_le] at hx
        have he : N ≤ t → driveQ.error M targetX targetY (s t)
            = driveQ.error M targetX targetY (s N) :=
          fun h => driveQ_error_congr M targetX targetY _ _ (hs t h)
        refine ⟨?_, ?_⟩
        · intro hN
          simp only [decide_eq_true_eq]
          rw [if_neg (by simpa using hx)]
          exact he (by omega)
        · rcases Nat.lt_trichotomy t N with h | h | h
          · simp only [if_neg (show ¬ N < t + 1 by omega), if_neg (show ¬ N < t by omega)]
            omega
          · simp only [if_pos (show N < t + 1 by omega), if_neg (show ¬ N < t by omega)]
            omega
          · have h1 := hG h
            have h2 := he (by omega)
            simp only [if_pos (show N < t + 1 by omega), if_pos h]
            simp only [h1, h2, timeoutUtility, decide_True, if_true] at hx ⊢
            omega)
    (N - t + 20) t st fuel (by intro h; omega) (by simp [show ¬ N < t by omega]) hf
  obtain ⟨T, fin, h1, h2, h3, h4⟩ := key
  exact ⟨T, fin, h1, by omega, h3, h4⟩


/-- With constant pose readings and a distance error within 3 cm, a `driveQ`
loop whose two counters agree returns through the near-zero counter within 17
ticks. -/
theorem driveQ_loop_near_zero (M : MathLib) (targetX targetY : ℚ) (backwards : Bool)
    (voltageMax : ℚ) (forceFlip : Bool) (entry : Sensors) (s : Nat → Sensors) (t0 : Nat)
    (hs : ∀ t, t0 ≤ t → (s t).x = (s t0).x ∧ (s t).y = (s t0).y)
    (hnear : |driveQ.error M targetX targetY (s t0)| ≤ 3)
    (st : DriveQState) (hst : st.same0ErrCycles = st.sameErrCycles) (fuel : Nat)
    (hf : 16 < fuel) :
    ∃ T fin, t0 ≤ T ∧ T ≤ t0 + 16 ∧ fin.same0ErrCycles > 15 ∧
      (runLoop (driveQ.body M targetX targetY backwards voltageMax forceFlip entry) s fuel t0
        st).outcome = .returned T fin := by
  refine runLoop_returns
    (driveQ.body M targetX targetY backwards voltageMax forceFlip entry) s
    (fun t st => t0 ≤ t ∧ st.same0ErrCycles = st.sameErrCycles ∧
      (t0 < t → st.errorLast = driveQ.error M targetX targetY (s t0)))
    (fun fin => fin.same0ErrCycles > 15)
    (fun t st => if t0 < t then 15 - st.same0ErrCycles else 16)
    ?_ 16 t0 st fuel ⟨le_refl _, hst, by intro h; omega⟩ (by simp) hf
  intro t st ⟨ht, hc, hG⟩
  have he : driveQ.error M targetX targetY (s t) = driveQ.error M targetX targetY (s t0) :=
    driveQ_error_congr M targetX targetY _ _ (hs t ht)
  refine ⟨_, rfl, ?_, ?_⟩
  · intro hx
    simp only [decide_eq_true_eq, he, hnear, decide_True] at hx ⊢
    by_cases hr : cround st.errorLast = cround (driveQ.error M targetX targetY (s t0))
    · simp only [hr, timeoutUtility, decide_True, if_true] at hx ⊢
      omega
    · simp [hr, timeoutUtility] at hx
  · intro hx
    simp only [decide_eq_false_iff_not, not_or, not_lt, not_le, he, hnear, decide_True] at hx
    refine ⟨⟨by omega, ?_, ?_⟩, ?_⟩
    · simp only [he, hnear, decide_True]
      by_cases hr : cround st.errorLast = cround (driveQ.error M targetX targetY (s t0))
      · simp [hr, timeoutUtility, hc]
      · simp [hr, timeoutUtility]
    · intro _
      simp only [decide_eq_true_eq]
      rw [if_neg (by simpa [he, hnear] using hx)]
      exact he
    · rcases Nat.eq_or_lt_of_le ht with h | h
      · simp only [if_pos (show t0 < t + 1 by omega), if_neg (show ¬ t0 < t by omega)]
        omega
      · have h1 := hG h
        simp only [if_pos (show t0 < t + 1 by omega), if_pos h, he, hnear]
        simp only [h1, timeoutUtility, decide_True, if_true] at hx ⊢
        omega

/-- Once the heading readings stay constant (from tick `N` on), the `turnQ`
loop returns within 16 further ticks, whatever state it is in. -/
theorem turnQ_loop_settles (theta : ℚ) (s : Nat → Sensors) (N : Nat)
    (hs : ∀ t, N ≤ t → (s t).rot = (s N).rot)
    (t : Nat) (st : TurnQState) (fuel : Nat) (ht : t ≤ N) (hf : N - t + 15 < fuel) :
    ∃ T fin, t ≤ T ∧ T ≤ N + 15 ∧ (fin.same0ErrCycles > 5 ∨ fin.sameErrCycles ≥ 15) ∧
      (runLoop (turnQ.body theta) s fuel t st).outcome = .returned T fin := by
  have key := runLoop_returns (turnQ.body theta) s
    (fun t st => N < t → st.errorLastTheta = theta - (s N).rot)
    (fun fin => fin.same0ErrCycles > 5 ∨ fin.sameErrCycles ≥ 15)
    (fun t st => if N < t then 14 - st.sameErrCycles else N - t + 15)
    (by
      intro t st hG
      refine ⟨_, rfl, ?_, ?_⟩
      · intro hx
        simpa using hx
      · intro hx
        simp only [decide_eq_false_iff_not, not_or, not_lt, not_le] at hx
        refine ⟨?_, ?_⟩
        · intro hN
          simp only [decide_eq_true_eq]
          rw [if_neg (by simpa using hx), hs t (by omega)]
        · rcases Nat.lt_trichotomy t N with h | h | h
          · simp only [if_neg (show ¬ N < t + 1 by omega), if_neg (show ¬ N < t by omega)]
            omega
          · simp only [if_pos (show N < t + 1 by omega), if_neg (show ¬ N < t by omega)]
            omega
          · have h1 := hG h
            have h2 := hs t (by omega)
            simp only [if_pos (show N < t + 1 by omega), if_pos h]
            simp only [h1, h2, timeoutUtility, decide_True, if_true] at hx ⊢
            omega)
    (N - t + 15) t st fuel (by intro h; omega) (by simp [show ¬ N < t by omega]) hf
  obtain ⟨T, fin, h1, h2, h3, h4⟩ := key
  exact ⟨T, fin, h1, by omega, h3, h4⟩

/-- With a constant heading reading and a heading error within 4 degrees, a
`turnQ` loop entered with both counters at zero returns within 7 ticks, through
the near-zero counter and with the same-error counter below its threshold. -/
theorem turnQ_loop_near_zero (theta : ℚ) (s : Nat → Sensors) (t0 : Nat)
    (hs : ∀ t, t0 ≤ t → (s t).rot = (s t0).rot) (hnear : |theta - (s t0).rot| ≤ 4)
    (st : TurnQState) (hst : st.same0ErrCycles = 0 ∧ st.sameErrCycles = 0) (fuel : Nat)
    (hf : 6 < fuel) :
    ∃ T fin, t0 ≤ T ∧ T ≤ t0 + 6 ∧ (fin.same0ErrCycles > 5 ∧ fin.sameErrCycles < 15) ∧
      (runLoop (turnQ.body theta) s fuel t0 st).outcome = .returned T fin := by
  refine runLoop_returns (turnQ.body theta) s
    (fun t st => t0 ≤ t ∧ st.same0ErrCycles = st.sameErrCycles ∧ st.sameErrCycles ≤ 5 ∧
      (t0 < t → st.errorLastTheta = theta - (s t0).rot))
    (fun fin => fin.same0ErrCycles > 5 ∧ fin.sameErrCycles < 15)
    (fun t st => if t0 < t then 5 - st.same0ErrCycles else 6)
    ?_ 6 t0 st fuel ⟨le_refl _, by omega, by omega, by intro h; omega⟩ (by simp) hf
  intro t st ⟨ht, hc, hle, hG⟩
  have he : (s t).rot = (s t0).rot := hs t ht
  refine ⟨_, rfl, ?_, ?_⟩
  · intro hx
    simp only [decide_eq_true_eq, he, hnear, decide_True] at hx ⊢
    by_cases hr : cround st.errorLastTheta = cround (theta - (s t0).rot)
    · simp only [hr, timeoutUtility, decide_True, if_true] at hx ⊢
      omega
    · simp [hr, timeoutUtility] at hx
  · intro hx
    simp only [decide_eq_false_iff_not, not_or, not_lt, not_le, he, hnear, decide_True] at hx
    refine ⟨⟨by omega, ?_, ?_, ?_⟩, ?_⟩
    · simp only [he, hnear, decide_True]
      by_cases hr : cround st.errorLastTheta = cround (theta - (s t0).rot)
      · simp [hr, timeoutUtility, hc]
      · simp [hr, timeoutUtility]
    · simp only [he, hnear, decide_True]
      by_cases hr : cround st.errorLastTheta = cround (theta - (s t0).rot)
      · simp only [hr, timeoutUtility, decide_True, if_true] at hx ⊢
        omega
      · simp [hr, timeoutUtility]
    · intro _
      simp only [decide_eq_true_eq]
      rw [if_neg (by simpa [he, hnear] using hx), he]
    · rcases Nat.eq_or_lt_of_le ht with h | h
      · simp only [if_pos (show t0 < t + 1 by omega), if_neg (show ¬ t0 < t by omega)]
        omega
      · have h1 := hG h
        simp only [if_pos (show t0 < t + 1 by omega), if_pos h, he, hnear]
        simp only [h1, timeoutUtility, decide_True, if_true] at hx ⊢
        omega


theorem settled_from_later {α : Type} (f : Sensors → α) (s : Nat → Sensors) (N K : Nat)
    (hs : ∀ t, N ≤ t → f (s t) = f (s N)) (hK : N ≤ K) : ∀ t, K ≤ t → f (s t) = f (s K) := by
  intro t ht
  rw [hs t (by omega), hs K hK]

theorem driveQ_returns_once_settled (M : MathLib) (targetX targetY : ℚ) (backwards : Bool)
    (voltageMax : ℚ) (forceFlip debugLog : Bool) (i0 iTurn0 : ℚ) (s : Nat → Sensors)
    (t0 N fuel : Nat) (hs : ∀ t, N ≤ t → (s t).x = (s N).x ∧ (s t).y = (s N).y)
    (hf : N + 21 ≤ fuel) :
    ∃ T fin, t0 ≤ T ∧ T ≤ max t0 N + 20 ∧
      (fin.same0ErrCycles > 15 ∨ fin.sameErrCycles ≥ 20) ∧
      (driveQ M targetX targetY backwards voltageMax forceFlip debugLog i0 iTurn0 s t0
        fuel).outcome = .returned T fin := by
  have hx := settled_from_later (fun a => a.x) s N (max t0 N) (fun t h => (hs t h).1)
    (le_max_right _ _)
  have hy := settled_from_later (fun a => a.y) s N (max t0 N) (fun t h => (hs t h).2)
    (le_max_right _ _)
  exact driveQ_loop_settles M targetX targetY backwards (voltageMax / 127) forceFlip (s t0) s
    (max t0 N) (fun t h => ⟨hx t h, hy t h⟩) t0 (driveQ.init i0 iTurn0) fuel (le_max_left _ _)
    (by rcases le_total t0 N with h | h <;> simp [h] <;> omega)

theorem turnQ_returns_once_settled (M : MathLib) (targetX targetY : ℚ)
    (backwards forceFlip debugLog : Bool) (i0 : ℚ) (s : Nat → Sensors)
    (t0 N fuel : Nat) (hs : ∀ t, N ≤ t → (s t).rot = (s N).rot) (hf : N + 16 ≤ fuel) :
    ∃ T fin, t0 ≤ T ∧ T ≤ max t0 N + 15 ∧
      (turnQ M targetX targetY backwards forceFlip debugLog i0 s t0 fuel).outcome
        = .returned T fin := by
  have hr := settled_from_later (fun a => a.rot) s N (max t0 N) hs (le_max_right _ _)
  obtain ⟨T, fin, h1, h2, _, h4⟩ :=
    turnQ_loop_settles (targetTheta M targetX targetY backwards forceFlip (s t0)) s
      (max t0 N) hr t0 (turnQ.init i0) fuel (le_max_left _ _)
      (by rcases le_total t0 N with h | h <;> simp [h] <;> omega)
  exact ⟨T, fin, h1, h2, h4⟩

theorem cround_zero : cround 0 = 0 := by norm_num [cround]

theorem cround_oscillating : cround (52 / 5) = 10 ∧ cround (53 / 5) = 11 := by
  constructor <;> norm_num [cround]

theorem oscillating_error (t : Nat) :
    driveQ.error sampleMath 30 0 (oscillating t) = if t % 2 = 0 then 53 / 5 else 52 / 5 := by
  have h1 : sampleMath.sqrt (2809 / 25) = 53 / 5 := by
    have h := sampleMath_sqrt_sq (53 / 5)
    norm_num [abs_of_pos] at h
    exact h
  have h2 : sampleMath.sqrt (2704 / 25) = 52 / 5 := by
    have h := sampleMath_sqrt_sq (52 / 5)
    norm_num [abs_of_pos] at h
    exact h
  by_cases h : t % 2 = 0 <;> simp [driveQ.error, oscillating, poseAt, h] <;> norm_num [h1, h2]

/-- C6: if the pose readings stay constant from the tick driveQ is entered,
driveQ returns within 21 ticks (by tick t0 + 20) for every target, with its
same-error counter at 20 or its near-zero counter above 15; when the distance
error is within 3 cm it returns within 17 ticks through the near-zero counter. -/
theorem driveQ_stalled_returns (M : MathLib) (targetX targetY : ℚ) (backwards : Bool)
    (voltageMax : ℚ) (forceFlip debugLog : Bool) (i0 iTurn0 : ℚ) (s : Nat → Sensors)
    (t0 fuel : Nat) (hs : ∀ t, t0 ≤ t → (s t).x = (s t0).x ∧ (s t).y = (s t0).y)
    (hf : 21 ≤ fuel) :
    ∃ T fin, (driveQ M targetX targetY backwards voltageMax forceFlip debugLog i0 iTurn0 s t0
        fuel).outcome = .returned T fin ∧ t0 ≤ T ∧ T ≤ t0 + 20 ∧
      (fin.sameErrCycles ≥ 20 ∨ fin.same0ErrCycles > 15) ∧
      (|driveQ.error M targetX targetY (s t0)| ≤ 3 → T ≤ t0 + 16 ∧ fin.same0ErrCycles > 15) := by
  obtain ⟨T, fin, h1, h2, h3, h4⟩ := driveQ_loop_settles M targetX targetY backwards
    (voltageMax / 127) forceFlip (s t0) s t0 hs t0 (driveQ.init i0 iTurn0) fuel (le_refl _)
    (by omega)
  refine ⟨T, fin, h4, h1, h2, h3.symm, ?_⟩
  intro hnear
  obtain ⟨T2, fin2, _, h6, h7, h8⟩ := driveQ_loop_near_zero M targetX targetY backwards
    (voltageMax / 127) forceFlip (s t0) s t0 hs hnear (driveQ.init i0 iTurn0) rfl fuel (by omega)
  rw [h4] at h8
  injection h8 with hT hfin
  subst hT hfin
  exact ⟨h6, h7⟩

theorem driveQ_stalled_returns_witness :
    (∀ t, 0 ≤ t → (atRest t).x = (atRest 0).x ∧ (atRest t).y = (atRest 0).y) ∧ 21 ≤ 21 ∧
      ∃ T fin, (driveQ sampleMath 100 0 false 115 false false 0 0 atRest 0 21).outcome
          = .returned T fin ∧ 0 ≤ T ∧ T ≤ 0 + 20 ∧
        (fin.sameErrCycles ≥ 20 ∨ fin.same0ErrCycles > 15) ∧
        (|driveQ.error sampleMath 100 0 (atRest 0)| ≤ 3 → T ≤ 0 + 16 ∧ fin.same0ErrCycles > 15) :=
  ⟨fun _ _ => ⟨rfl, rfl⟩, le_refl _,
    driveQ_stalled_returns sampleMath 100 0 false 115 false false 0 0 atRest 0 21
      (fun _ _ => ⟨rfl, rfl⟩) (le_refl _)⟩

/-- C7: if the heading reading stays constant from the tick turnQ is entered
and the heading error is within 4 degrees, turnQ returns within 7 ticks (by
tick t0 + 6) with its near-zero counter above 5 and its same-error counter
below the stall threshold 15. -/
theorem turnQ_within_tolerance_returns (M : MathLib) (targetX targetY : ℚ)
    (backwards forceFlip debugLog : Bool) (i0 : ℚ) (s : Nat → Sensors) (t0 fuel : Nat)
    (hs : ∀ t, t0 ≤ t → (s t).rot = (s t0).rot)
    (hnear : |targetTheta M targetX targetY backwards forceFlip (s t0) - (s t0).rot| ≤ 4)
    (hf : 7 ≤ fuel) :
    ∃ T fin, (turnQ M targetX targetY backwards forceFlip debugLog i0 s t0 fuel).outcome
        = .returned T fin ∧ t0 ≤ T ∧ T ≤ t0 + 6 ∧
      fin.same0ErrCycles > 5 ∧ fin.sameErrCycles < 15 := by
  obtain ⟨T, fin, h1, h2, h3, h4⟩ := turnQ_loop_near_zero
    (targetTheta M targetX targetY backwards forceFlip (s t0)) s t0 hs hnear (turnQ.init i0)
    ⟨rfl, rfl⟩ fuel (by omega)
  exact ⟨T, fin, h4, h1, h2, h3.1, h3.2⟩

theorem turnQ_within_tolerance_returns_witness :
    (∀ t, 0 ≤ t → (atRest t).rot = (atRest 0).rot) ∧
      |targetTheta sampleMath 100 0 false false (atRest 0) - (atRest 0).rot| ≤ 4 ∧ 7 ≤ 7 ∧
      ∃ T fin, (turnQ sampleMath 100 0 false false false 0 atRest 0 7).outcome
          = .returned T fin ∧ 0 ≤ T ∧ T ≤ 0 + 6 ∧
        fin.same0ErrCycles > 5 ∧ fin.sameErrCycles < 15 :=
  have h : |targetTheta sampleMath 100 0 false false (atRest 0) - (atRest 0).rot| ≤ 4 := by
    norm_num [targetTheta, sampleMath, sampleAtanDeg, atRest, poseAt]
  ⟨fun _ _ => rfl, h, le_refl _,
    turnQ_within_tolerance_returns sampleMath 100 0 false false false 0 atRest 0 7
      (fun _ _ => rfl) h (le_refl _)⟩



/-! ## Rotation controllers -/

/-- A property of commands that holds of `stop` and of every `tank` command the
body can produce holds of every command of a run. -/
theorem runLoop_all {σ : Type} (body : σ → Sensors → Option (Tick σ)) (s : Nat → Sensors)
    (P : Event → Bool) (hstop : P .stop = true)
    (hbody : ∀ st smp k, body st smp = some k → P (.tank k.left k.right) = true) :
    ∀ fuel t st, (runLoop body s fuel t st).events.all P = true := by
  intro fuel
  induction fuel with
  | zero => intro t st; simp [runLoop]
  | succ fuel ih =>
    intro t st
    cases hb : body st (s t) with
    | none => simp [runLoop, hb]
    | some k =>
      cases hx : k.exit with
      | true =>
        rw [runLoop_exit fuel hb hx]
        simp [hstop, hbody st (s t) k hb]
      | false =>
        rw [runLoop_continue fuel hb hx]
        simp [hbody st (s t) k hb, ih (t + 1) k.state]

/-! ## driveP -/

theorem csign_abs (v : Int) : |(csign v : ℚ)| = 1 := by
  unfold csign
  split_ifs <;> simp

theorem csign_eq_iff (a b : Int) : csign a = csign b ↔ (a < 0 ↔ b < 0) := by
  unfold csign
  split_ifs with ha hb hb <;> simp [ha, hb]

/-- A value in the range of `int` is left alone by `wrap32`. -/
theorem wrap32_of_range {v : Int} (h1 : -2147483648 ≤ v) (h2 : v < 2147483648) :
    wrap32 v = v := by
  unfold wrap32
  omega

theorem ctrunc_intCast (n : Int) : ctrunc (n : ℚ) = n := by
  unfold ctrunc
  split_ifs <;> simp

theorem ctrunc_add_five (n : Int) : ctrunc ((n : ℚ) + 5) = n + 5 := by
  have h := ctrunc_intCast (n + 5)
  push_cast at h
  exact h

theorem ctrunc_add_four (n : Int) : ctrunc ((n : ℚ) + 4) = n + 4 := by
  have h := ctrunc_intCast (n + 4)
  push_cast at h
  exact h

/-- The statement `if (abs(v) > cap) v = cap * sign;` leaves a value of
magnitude at most `cap`. -/
theorem limit_voltage_abs_le (v : ℚ) (cap sg : Int) (hcap : 0 ≤ cap) (hsg : |(sg : ℚ)| = 1) :
    |(if |v| > (cap : ℚ) then (cap : ℚ) * sg else v)| ≤ (cap : ℚ) := by
  have hc : (0 : ℚ) ≤ cap := by exact_mod_cast hcap
  split_ifs with h
  · rw [abs_mul, hsg, mul_one, abs_of_nonneg hc]
  · exact not_lt.mp h

/-- What one `driveP` iteration does to the voltage cap and how it bounds the
two commands. -/
theorem driveP_body_cap {targetLeft targetRight voltageMax : Int} {st : DrivePState}
    {smp : Sensors} {k : Tick DrivePState}
    (hk : driveP.body targetLeft targetRight voltageMax st smp = some k) :
    k.state.voltageCap = min (st.voltageCap +
        (if (wrap32 (targetLeft - smp.encLeft) < 0 ↔ wrap32 (targetRight - smp.encRight) < 0)
          then 5 else 4)) voltageMax ∧
      (0 ≤ k.state.voltageCap →
        |k.left * 127| ≤ (k.state.voltageCap : ℚ) ∧ |k.right * 127| ≤ (k.state.voltageCap : ℚ)) := by
  simp only [driveP.body, driveP.wheelError, Option.some.injEq] at hk
  subst hk
  have hcap : (if (decide (csign (wrap32 (targetLeft - smp.encLeft))
          = csign (wrap32 (targetRight - smp.encRight)))) = true
        then ctrunc ((st.voltageCap : ℚ) + 5) else ctrunc ((st.voltageCap : ℚ) + 4))
      = st.voltageCap + (if (wrap32 (targetLeft - smp.encLeft) < 0
          ↔ wrap32 (targetRight - smp.encRight) < 0) then 5 else 4) := by
    by_cases h : csign (wrap32 (targetLeft - smp.encLeft))
        = csign (wrap32 (targetRight - smp.encRight))
    · rw [if_pos (by simpa using h), if_pos ((csign_eq_iff _ _).mp h), ctrunc_add_five]
    · rw [if_neg (by simpa using h), if_neg (fun h2 => h ((csign_eq_iff _ _).mpr h2)),
        ctrunc_add_four]
  refine ⟨?_, ?_⟩
  · simp only []
    rw [hcap]
    rw [min_def]
    split_ifs <;> omega
  · intro h0
    simp only [] at h0 ⊢
    constructor
    · rw [div_mul_cancel₀ _ (by norm_num : (127 : ℚ) ≠ 0)]
      exact limit_voltage_abs_le _ _ _ h0 (csign_abs _)
    · rw [div_mul_cancel₀ _ (by norm_num : (127 : ℚ) ≠ 0)]
      exact limit_voltage_abs_le _ _ _ h0 (csign_abs _)



theorem runLoop_first_event {σ : Type} (body : σ → Sensors → Option (Tick σ))
    (s : Nat → Sensors) (fuel t : Nat) (st : σ) :
    (runLoop body s (fuel + 1) t st).events[0]?
      = (body st (s t)).map fun k => Event.tank k.left k.right := by
  cases hb : body st (s t) with
  | none => simp [runLoop, hb]
  | some k =>
    cases hx : k.exit with
    | true => simp [runLoop_exit fuel hb hx]
    | false => simp [runLoop_continue fuel hb hx]

/-- C9: in driveP with voltageMax >= 0, the command of the k-th tick (index
j = k - 1 in the run) has voltage magnitude at most min(voltageMax, 5 k) on
each wheel (the tank argument is that voltage divided by 127); the voltage cap
is 0 at entry and each iteration replaces it by min(cap + 5, voltageMax) when
the two wheel errors have the same sign (both negative or neither) and by
min(cap + 4, voltageMax) when they differ.  The bound also holds on iterations
on which a wheel error is 0. -/
theorem driveP_slew_bound (targetLeft targetRight voltageMax : Int) (debugLog : Bool)
    (s : Nat → Sensors) (t0 fuel j : Nat) (l r : ℚ) (hv : 0 ≤ voltageMax)
    (h : (driveP targetLeft targetRight voltageMax debugLog s t0 fuel).events[j]?
      = some (.tank l r)) :
    |l * 127| ≤ min (voltageMax : ℚ) (5 * ((j : ℚ) + 1))
      ∧ |r * 127| ≤ min (voltageMax : ℚ) (5 * ((j : ℚ) + 1))
      ∧ driveP.init.voltageCap = 0
      ∧ ∀ (tl tr : Int) (st : DrivePState) (smp : Sensors) (k : Tick DrivePState),
          driveP.body tl tr voltageMax st smp = some k →
            k.state.voltageCap = min (st.voltageCap +
              (if (wrap32 (tl - smp.encLeft) < 0 ↔ wrap32 (tr - smp.encRight) < 0)
                then 5 else 4))
              voltageMax := by
  unfold driveP at h
  obtain ⟨st1, k, ⟨hG1, hG2, hG3⟩, hk, rfl, rfl⟩ := runLoop_tank _ s
    (fun t st => 0 ≤ st.voltageCap ∧ st.voltageCap ≤ 5 * ((t : Int) - t0) ∧
      st.voltageCap ≤ voltageMax)
    (by
      intro t st k ⟨h1, h2, h3⟩ hk _
      have hc := (driveP_body_cap hk).1
      rw [hc, min_def]
      refine ⟨?_, ?_, ?_⟩ <;> split_ifs <;> push_cast <;> omega)
    fuel t0 driveP.init ⟨le_refl _, by simp [driveP.init], by simpa [driveP.init] using hv⟩
    j l r h
  obtain ⟨hc, hb⟩ := driveP_body_cap hk
  have h0 : 0 ≤ k.state.voltageCap := by
    rw [hc, min_def]
    split_ifs <;> omega
  have h5 : k.state.voltageCap ≤ 5 * ((j : Int) + 1) := by
    rw [hc, min_def]
    push_cast at hG2
    split_ifs <;> omega
  have hm : k.state.voltageCap ≤ voltageMax := by
    rw [hc]
    exact min_le_right _ _
  have hq : (k.state.voltageCap : ℚ) ≤ min (voltageMax : ℚ) (5 * ((j : ℚ) + 1)) := by
    refine le_min ?_ ?_
    · exact_mod_cast hm
    · exact_mod_cast h5
  exact ⟨(hb h0).1.trans hq, (hb h0).2.trans hq, rfl,
    fun tl tr st smp k hk => (driveP_body_cap hk).1⟩

theorem driveP_slew_bound_witness :
    (0 : Int) ≤ 115
      ∧ (driveP 100 100 115 false atRest 0 1).events[0]? = some (.tank (5 / 127) (5 / 127))
      ∧ |(5 / 127 : ℚ) * 127| ≤ min ((115 : Int) : ℚ) (5 * (((0 : Nat) : ℚ) + 1)) :=
  have h : (driveP 100 100 115 false atRest 0 1).events[0]?
      = some (.tank (5 / 127) (5 / 127)) := by
    unfold driveP
    rw [runLoop_first_event]
    norm_num [driveP.body, driveP.init, driveP.wheelError, wrap32, csign, ctrunc, atRest,
      poseAt]
  ⟨by decide, h,
    (driveP_slew_bound 100 100 115 false atRest 0 1 0 (5 / 127) (5 / 127) (by decide) h).1⟩

/-- What decides whether a `driveP` iteration returns. -/
theorem driveP_body_exit {targetLeft targetRight voltageMax : Int} {st : DrivePState}
    {smp : Sensors} {k : Tick DrivePState}
    (hk : driveP.body targetLeft targetRight voltageMax st smp = some k) :
    k.state.errorCurrent = driveP.errorCurrent targetLeft targetRight smp ∧
      (k.exit = true → k.state.errorLast = st.errorLast ∧
        ((st.errorLast < 5 ∧ k.state.errorCurrent < 5) ∨ k.state.sameErrCycles ≥ 20)) ∧
      (k.exit = false → k.state.errorLast = driveP.errorCurrent targetLeft targetRight smp) := by
  simp only [driveP.body, Option.some.injEq] at hk
  subst hk
  refine ⟨rfl, ?_, ?_⟩
  · intro hx
    simp only [] at hx ⊢
    rw [if_pos hx]
    exact ⟨rfl, by simpa using hx⟩
  · intro hx
    simp only [] at hx ⊢
    rw [if_neg (by simp [hx])]

theorem driveP_small_target_tick :
    driveP.body 2 2 115 driveP.init (atRest 0) = some
      { state := { voltageCap := 5, errorCurrent := 2, errorLast := 0, sameErrCycles := 0,
                   same0ErrCycles := 0 }
        left := 3 / 10 / 127
        right := 3 / 10 / 127
        exit := true } := by
  have he : driveP.errorCurrent 2 2
      { x := 0, y := 0, rot := 0, encLeft := 0, encRight := 0 } = 2 := by decide
  norm_num [driveP.body, driveP.init, driveP.wheelError, wrap32, csign, atRest, poseAt,
    timeoutUtility, he, ctrunc, abs_of_pos]

/-- C10 (as stated, refuted): driveP(2, 2) with encoders at rest returns on its
first tick (previous error 0 and current error 2, both below 5) while its
same-error counter and its near-zero-error counter are both 0. -/
theorem driveP_returns_with_zero_counters :
    ∃ fin, (driveP 2 2 115 false atRest 0 1).outcome = .returned 0 fin ∧
      fin.sameErrCycles = 0 ∧ fin.same0ErrCycles = 0 := by
  refine ⟨DrivePState.mk 5 2 0 0 0, ?_, rfl, rfl⟩
  exact congrArg Run.outcome (runLoop_exit 0 driveP_small_target_tick rfl)

/-- The mean wheel error of `driveP` when nothing overflows: if the two entry
targets and the sum of the two absolute wheel errors fit in an `int`, the value
the code computes is the integer mean of the absolute wheel errors. -/
theorem driveP_errorAt_of_range (targetLeft targetRight : Int) (s : Nat → Sensors) (t0 t : Nat)
    (hl : |targetLeft + (s t0).encLeft| < 2147483648)
    (hr : |targetRight + (s t0).encRight| < 2147483648)
    (hsum : |targetRight + (s t0).encRight - (s t).encRight|
      + |targetLeft + (s t0).encLeft - (s t).encLeft| < 2147483648) :
    driveP.errorAt targetLeft targetRight s t0 t
      = Int.tdiv (|targetRight + (s t0).encRight - (s t).encRight|
          + |targetLeft + (s t0).encLeft - (s t).encLeft|) 2 := by
  have h1 := abs_nonneg (targetRight + (s t0).encRight - (s t).encRight)
  have h2 := abs_nonneg (targetLeft + (s t0).encLeft - (s t).encLeft)
  have hl2 := abs_lt.mp hl
  have hr2 := abs_lt.mp hr
  have ha : |targetLeft + (s t0).encLeft - (s t).encLeft| < 2147483648 := by omega
  have hb : |targetRight + (s t0).encRight - (s t).encRight| < 2147483648 := by omega
  have ha2 := abs_lt.mp ha
  have hb2 := abs_lt.mp hb
  unfold driveP.errorAt driveP.errorCurrent driveP.wheelError cabs
  simp only []
  rw [wrap32_of_range (v := targetLeft + (s t0).encLeft) (by omega) (by omega),
    wrap32_of_range (v := targetRight + (s t0).encRight) (by omega) (by omega),
    wrap32_of_range (v := targetLeft + (s t0).encLeft - (s t).encLeft) (by omega) (by omega),
    wrap32_of_range (v := targetRight + (s t0).encRight - (s t).encRight) (by omega) (by omega),
    wrap32_of_range (v := |targetLeft + (s t0).encLeft - (s t).encLeft|) (by omega) (by omega),
    wrap32_of_range (v := |targetRight + (s t0).encRight - (s t).encRight|) (by omega)
      (by omega),
    wrap32_of_range (by omega) (by omega)]

/-- C10 (amended): driveP returns on a tick only when the mean wheel error of
that tick and the one of the previous tick (0 before the first tick), as the
code computes them in int arithmetic, are both below 5, or its same-error
counter has reached 20; the near-zero-error counter has no threshold and takes
no part in the return condition: changing its value changes no iteration's
decision to return.  When the encoder arithmetic does not overflow the mean
wheel error is (|errorRight| + |errorLeft|) / 2; when it does, the value the
code computes can be negative: with both wheel errors at 2000000000 it is
-147483648. -/
theorem driveP_return_condition (targetLeft targetRight voltageMax : Int) (debugLog : Bool)
    (s : Nat → Sensors) (t0 fuel T : Nat) (fin : DrivePState)
    (h : (driveP targetLeft targetRight voltageMax debugLog s t0 fuel).outcome
      = .returned T fin) :
    t0 ≤ T
      ∧ fin.errorCurrent = driveP.errorAt targetLeft targetRight s t0 T
      ∧ fin.errorLast = driveP.errorBefore targetLeft targetRight s t0 T
      ∧ ((fin.errorLast < 5 ∧ fin.errorCurrent < 5) ∨ fin.sameErrCycles ≥ 20)
      ∧ (∀ (tl tr : Int) (st : DrivePState) (n : Nat) (smp : Sensors),
          (driveP.body tl tr voltageMax { st with same0ErrCycles := n } smp).map
              (fun k => k.exit)
            = (driveP.body tl tr voltageMax st smp).map (fun k => k.exit))
      ∧ (∀ t, |targetLeft + (s t0).encLeft| < 2147483648 →
          |targetRight + (s t0).encRight| < 2147483648 →
          |targetRight + (s t0).encRight - (s t).encRight|
            + |targetLeft + (s t0).encLeft - (s t).encLeft| < 2147483648 →
          driveP.errorAt targetLeft targetRight s t0 t
            = Int.tdiv (|targetRight + (s t0).encRight - (s t).encRight|
                + |targetLeft + (s t0).encLeft - (s t).encLeft|) 2)
      ∧ driveP.errorAt 2000000000 2000000000 atRest 0 0 = -147483648 := by
  unfold driveP at h
  obtain ⟨st1, k, hT, ⟨_, hG⟩, hk, hx, rfl⟩ := runLoop_returned _ s
    (fun t st => t0 ≤ t ∧ st.errorLast = driveP.errorBefore targetLeft targetRight s t0 t)
    (by
      intro t st k ⟨h1, _⟩ hk hx
      refine ⟨by omega, ?_⟩
      rw [((driveP_body_exit hk).2.2 hx)]
      unfold driveP.errorBefore
      rw [if_neg (by omega)]
      rfl)
    fuel t0 driveP.init ⟨le_refl _, by simp [driveP.init, driveP.errorBefore]⟩ T fin h
  obtain ⟨h1, h2, _⟩ := driveP_body_exit hk
  obtain ⟨h3, h4⟩ := h2 hx
  refine ⟨hT, h1, by rw [h3, hG], ?_, ?_, ?_, by decide⟩
  · rw [h3]
    exact h4
  · intro tl tr st n smp
    simp only [driveP.body, Option.map_some', timeoutUtility]
    split_ifs <;> rfl
  · intro t hl hr hsum
    exact driveP_errorAt_of_range targetLeft targetRight s t0 t hl hr hsum

theorem driveP_return_condition_witness :
    (driveP 2 2 115 false atRest 0 1).outcome = .returned 0
        { voltageCap := 5, errorCurrent := 2, errorLast := 0, sameErrCycles := 0,
          same0ErrCycles := 0 }
      ∧ ((0 : Int) < 5 ∧ (2 : Int) < 5) :=
  have h : (driveP 2 2 115 false atRest 0 1).outcome = .returned 0
      { voltageCap := 5, errorCurrent := 2, errorLast := 0, sameErrCycles := 0,
        same0ErrCycles := 0 } :=
    congrArg Run.outcome (runLoop_exit 0 driveP_small_target_tick rfl)
  ⟨h, ((driveP_return_condition 2 2 115 false atRest 0 1 0 _ h).2.2.2.1).resolve_right
    (by decide)⟩

/-- Two loops whose bodies agree on the samples they are fed run alike. -/
theorem runLoop_congr {σ : Type} (body1 body2 : σ → Sensors → Option (Tick σ))
    (s1 s2 : Nat → Sensors) (h : ∀ st t, body1 st (s1 t) = body2 st (s2 t)) :
    ∀ fuel t st, runLoop body1 s1 fuel t st = runLoop body2 s2 fuel t st := by
  intro fuel
  induction fuel with
  | zero => intro t st; rfl
  | succ fuel ih =>
    intro t st
    simp only [runLoop, h st t]
    cases body2 st (s2 t) with
    | none => rfl
    | some k => simp only [ih (t + 1) k.state]

theorem wheelError_shift (target entry enc offset : Int) :
    driveP.wheelError (wrap32 (target + (entry + offset))) (enc + offset)
      = driveP.wheelError (wrap32 (target + entry)) enc := by
  unfold driveP.wheelError wrap32
  omega

theorem driveP_body_shift (targetLeft targetRight voltageMax entryLeft entryRight offsetLeft
    offsetRight : Int) (st : DrivePState) (smp : Sensors) :
    driveP.body (wrap32 (targetLeft + (entryLeft + offsetLeft)))
        (wrap32 (targetRight + (entryRight + offsetRight))) voltageMax st
        (smp.shiftEncoders offsetLeft offsetRight)
      = driveP.body (wrap32 (targetLeft + entryLeft)) (wrap32 (targetRight + entryRight))
        voltageMax st smp := by
  simp only [driveP.body, driveP.errorCurrent, Sensors.shiftEncoders, wheelError_shift]

/-- C11: the targets of driveP are relative to the encoder readings at call
time: adding one constant offset to every left-encoder reading and another to
every right-encoder reading (entry readings included) leaves the whole run
unchanged: the same tank commands in the same order, the same outcome, the same
tick of return and the same final locals.  This covers every tick of the run,
those with a zero wheel error included, and it holds with the 32-bit
wrap-around of the encoder arithmetic. -/
theorem driveP_encoder_offset_invariant (targetLeft targetRight voltageMax : Int)
    (debugLog : Bool) (s : Nat → Sensors) (t0 fuel : Nat) (offsetLeft offsetRight : Int) :
    driveP targetLeft targetRight voltageMax debugLog
        (fun t => (s t).shiftEncoders offsetLeft offsetRight) t0 fuel
      = driveP targetLeft targetRight voltageMax debugLog s t0 fuel := by
  unfold driveP
  refine runLoop_congr _ _ _ s ?_ fuel t0 driveP.init
  intro st t
  exact driveP_body_shift targetLeft targetRight voltageMax (s t0).encLeft (s t0).encRight
    offsetLeft offsetRight st (s t)

/-! ## opcontrol: tray state machine -/

theorem tick_trayState (st : OpState) (inp : OpInput) :
    (opcontrol.tick st inp).1.trayState
      = opcontrol.updateTrayState (opcontrol.trayToggle st.trayState inp).1 inp := rfl

theorem tick_cmds (st : OpState) (inp : OpInput) :
    (opcontrol.tick st inp).2
      = opcontrol.liftControl inp ++ (if inp.flipoutBtn then flipout else [])
        ++ (opcontrol.alignment st inp).cmds
        ++ opcontrol.userIntake st.trayState (opcontrol.alignment st inp).cubesPositioning inp
        ++ (opcontrol.trayToggle st.trayState inp).2
        ++ opcontrol.trayControl (opcontrol.tick st inp).1.trayState inp
        ++ opcontrol.stackingMods (opcontrol.tick st inp).1.trayState st.joystickAvg inp
        ++ opcontrol.liftBrake inp ++ [OpCmd.tank inp.leftY inp.rightY] := rfl

/-- C12 (as stated, refuted): from the start state (tray Returned), a tick that
reads the tray at position 6001 with nothing pressed ends in tray state
Returning, not Extending. -/
theorem tray_high_ends_returning :
    opcontrol.start.trayState = trayStates.returned ∧ trayHigh.trayPosition > 6000
      ∧ (opcontrol.tick opcontrol.start trayHigh).1.trayState = trayStates.returning
      ∧ (opcontrol.tick opcontrol.start trayHigh).1.trayState ≠ trayStates.extending := by
  have h : (opcontrol.tick opcontrol.start trayHigh).1.trayState = trayStates.returning := by
    rw [tick_trayState]
    norm_num [opcontrol.updateTrayState, opcontrol.trayToggle, opcontrol.start, trayHigh,
      handsOff]
  refine ⟨rfl, by norm_num [trayHigh, handsOff], h, ?_⟩
  rw [h]
  decide

/-- C12 (amended): for every operator-control tick that starts with tray state
Returned and a measured tray position above the high watermark 6000, the tray
state at the end of that tick is Returning, whatever the button inputs. -/
theorem tray_watermark_returning (st : OpState) (inp : OpInput)
    (_hst : st.trayState = trayStates.returned) (hpos : inp.trayPosition > 6000) :
    (opcontrol.tick st inp).1.trayState = trayStates.returning := by
  rw [tick_trayState]
  unfold opcontrol.updateTrayState
  have h1 : ¬ inp.trayPosition ≤ 100 := by
    intro h
    linarith
  have h2 : inp.trayPosition ≥ 6000 := le_of_lt hpos
  simp [h1, h2]

theorem tray_watermark_returning_witness :
    opcontrol.start.trayState = trayStates.returned ∧ trayHigh.trayPosition > 6000
      ∧ (opcontrol.tick opcontrol.start trayHigh).1.trayState = trayStates.returning :=
  have h : trayHigh.trayPosition > 6000 := by norm_num [trayHigh, handsOff]
  ⟨rfl, h, tray_watermark_returning opcontrol.start trayHigh rfl h⟩

/-- C13: a tick that starts in tray state Extending and sees no
changed-to-pressed event of trayReturn or trayReturnAlt does not end in
Returned, for every tray position and velocity: it ends in Returning when the
position is at least 6000 and stays Extending otherwise. -/
theorem tray_extending_not_returned (st : OpState) (inp : OpInput)
    (hst : st.trayState = trayStates.extending) (h1 : inp.trayReturn = false)
    (h2 : inp.trayReturnAlt = false) :
    (opcontrol.tick st inp).1.trayState ≠ trayStates.returned
      ∧ (opcontrol.tick st inp).1.trayState
        = (if inp.trayPosition ≥ 6000 then trayStates.returning else trayStates.extending) := by
  have h : (opcontrol.tick st inp).1.trayState
      = (if inp.trayPosition ≥ 6000 then trayStates.returning else trayStates.extending) := by
    rw [tick_trayState]
    simp [opcontrol.updateTrayState, opcontrol.trayToggle, hst, h1, h2]
  refine ⟨?_, h⟩
  rw [h]
  split_ifs <;> decide

theorem tray_extending_not_returned_witness :
    (opcontrol.tick { opcontrol.start with trayState := trayStates.extending } handsOff).1.trayState
        ≠ trayStates.returned :=
  (tray_extending_not_returned { opcontrol.start with trayState := trayStates.extending }
    handsOff rfl rfl rfl).1

/-- C14: a tick that starts in tray state Returning ends in Returned exactly
when the measured tray position is at most 100 and the absolute measured
velocity is at most 5, and ends in Returning otherwise, whatever the buttons. -/
theorem tray_returning_settles (st : OpState) (inp : OpInput)
    (hst : st.trayState = trayStates.returning) :
    ((opcontrol.tick st inp).1.trayState = trayStates.returned
        ↔ inp.trayPosition ≤ 100 ∧ |inp.trayVelocity| ≤ 5)
      ∧ (opcontrol.tick st inp).1.trayState
        = (if inp.trayPosition ≤ 100 ∧ |inp.trayVelocity| ≤ 5 then trayStates.returned
          else trayStates.returning) := by
  have ht : (opcontrol.trayToggle st.trayState inp).1 = trayStates.returning := by
    unfold opcontrol.trayToggle
    rw [hst]
    split_ifs <;> simp_all
  have h : (opcontrol.tick st inp).1.trayState
      = (if inp.trayPosition ≤ 100 ∧ |inp.trayVelocity| ≤ 5 then trayStates.returned
        else trayStates.returning) := by
    rw [tick_trayState, ht]
    unfold opcontrol.updateTrayState
    by_cases hc : inp.trayPosition ≤ 100 ∧ |inp.trayVelocity| ≤ 5
    · simp [hc]
    · rw [if_neg hc, if_neg (fun h => hc ⟨h.1, h.2.1⟩)]
      split_ifs <;> rfl
  refine ⟨?_, h⟩
  rw [h]
  split_ifs with hc
  · simp [hc]
  · simp [hc]

theorem tray_returning_settles_witness :
    (opcontrol.tick { opcontrol.start with trayState := trayStates.returning } handsOff).1.trayState
        = trayStates.returned
      ↔ handsOff.trayPosition ≤ 100 ∧ |handsOff.trayVelocity| ≤ 5 :=
  (tray_returning_settles { opcontrol.start with trayState := trayStates.returning }
    handsOff rfl).1

/-! ## opcontrol: command order -/

theorem lastMove_append (d : Device) (a b : List OpCmd) :
    lastMove d (a ++ b) = (lastMove d b).or (lastMove d a) := by
  simp [lastMove, List.filter_append]

theorem lastMove_liftBrake (d : Device) (inp : OpInput) :
    lastMove d (opcontrol.liftBrake inp) = none := by
  unfold opcontrol.liftBrake
  split_ifs <;> simp [lastMove, OpCmd.moves]

theorem lastMove_stackingMods_tray (trayState : trayStates) (joystickAvg : ℚ) (inp : OpInput) :
    lastMove .tray (opcontrol.stackingMods trayState joystickAvg inp) = none := by
  unfold opcontrol.stackingMods
  cases trayState <;> simp only [] <;> (try split_ifs) <;> simp [lastMove, OpCmd.moves]

theorem lastMove_stackingMods_returned (d : Device) (joystickAvg : ℚ) (inp : OpInput) :
    lastMove d (opcontrol.stackingMods .returned joystickAvg inp) = none := by
  simp [opcontrol.stackingMods, lastMove, OpCmd.moves]

theorem lastMove_trayControl_intake (trayState : trayStates) (inp : OpInput) :
    lastMove .intake (opcontrol.trayControl trayState inp) = none := by
  unfold opcontrol.trayControl traySlew
  split_ifs <;> simp [lastMove, OpCmd.moves]

theorem lastMove_trayToggle_intake (trayState : trayStates) (inp : OpInput) :
    lastMove .intake (opcontrol.trayToggle trayState inp).2 = none := by
  unfold opcontrol.trayToggle
  split_ifs <;> simp [lastMove, OpCmd.moves]

theorem trayControl_returned (inp : OpInput) :
    opcontrol.trayControl .returned inp
      = (if inp.shift then
          (if inp.intakeIn then traySlew true inp.trayPosition
            else if inp.intakeOut then traySlew false inp.trayPosition
            else [.moveVoltage .tray 0])
        else
          [if inp.liftPosition > 700 then .moveAbsolute .tray 600 100
            else if inp.trayPosition ≤ 600 then .moveAbsolute .tray 0 100
            else .moveVoltage .tray 0]) := by
  unfold opcontrol.trayControl LIFT_STACKING_HEIGHT
  by_cases hs : inp.shift = true
  · simp [hs]
  · by_cases hl : inp.liftPosition > 700
    · simp [hs, hl]
    · have hl2 : inp.liftPosition ≤ 700 := not_lt.mp hl
      by_cases ht : inp.trayPosition ≤ 600 <;> simp [hs, hl, hl2, ht]

theorem lastMove_trayControl_returned (inp : OpInput) :
    lastMove .tray (opcontrol.trayControl .returned inp)
        = (opcontrol.trayControl .returned inp).getLast?
      ∧ (lastMove .tray (opcontrol.trayControl .returned inp)).isSome = true := by
  unfold opcontrol.trayControl traySlew
  constructor <;> simp only [if_true] <;> split_ifs <;> simp [lastMove, OpCmd.moves]

/-- C15 (as stated, refuted): from the start state with nothing pressed, the
lift down (position 0) and the tray read at position 1000, the tray state stays
Returned and the only tray command of the tick is moveVoltage(0); the tray is
not commanded to position 0. -/
theorem tray_assist_zero_voltage :
    (opcontrol.tick opcontrol.start trayPartlyOut).1.trayState = trayStates.returned
      ∧ trayPartlyOut.shift = false ∧ ¬ trayPartlyOut.liftPosition > 700
      ∧ lastMove .tray (opcontrol.tick opcontrol.start trayPartlyOut).2
        = some (.moveVoltage .tray 0)
      ∧ OpCmd.moveAbsolute .tray 0 100 ∉ (opcontrol.tick opcontrol.start trayPartlyOut).2 := by
  have h : (opcontrol.tick opcontrol.start trayPartlyOut).2
      = [.moveVoltage .lift 0, .moveVoltage .intake 0, .moveVoltage .tray 0,
          .setBrakeMode .intake .hold, .setBrakeMode .chassis .coast,
          .setBrakeMode .lift .brake, .tank 0 0] := by
    norm_num [opcontrol.tick, opcontrol.liftControl, opcontrol.alignment, opcontrol.arm,
      opcontrol.cubePositioning, opcontrol.userIntake, opcontrol.trayToggle,
      opcontrol.updateTrayState, opcontrol.trayControl, opcontrol.stackingMods,
      opcontrol.liftBrake, opcontrol.start, trayPartlyOut, handsOff, LIFT_STACKING_HEIGHT]
  refine ⟨?_, rfl, by norm_num [trayPartlyOut, handsOff], ?_, ?_⟩
  · rw [tick_trayState]
    norm_num [opcontrol.updateTrayState, opcontrol.trayToggle, opcontrol.start, trayPartlyOut,
      handsOff]
  · rw [h]
    simp [lastMove, OpCmd.moves]
  · rw [h]
    simp

/-- C15 (amended): on every tick whose updated tray state is Returned, the last
tray command of the tick is the one of the block "tray control using shift
key".  With shift not held that command is moveAbsolute(600, 100) when the lift
position is above 700, moveAbsolute(0, 100) when the lift position is at most
700 and the tray position is at most 600, and moveVoltage(0) when the lift
position is at most 700 and the tray position is above 600.  With shift held
the block issues the traySlew velocity or moveVoltage(0) and no moveAbsolute. -/
theorem tray_assist (st : OpState) (inp : OpInput)
    (h : (opcontrol.tick st inp).1.trayState = trayStates.returned) :
    lastMove .tray (opcontrol.tick st inp).2 = (opcontrol.trayControl .returned inp).getLast?
      ∧ opcontrol.trayControl .returned inp
        = (if inp.shift then
            (if inp.intakeIn then traySlew true inp.trayPosition
              else if inp.intakeOut then traySlew false inp.trayPosition
              else [.moveVoltage .tray 0])
          else
            [if inp.liftPosition > 700 then .moveAbsolute .tray 600 100
              else if inp.trayPosition ≤ 600 then .moveAbsolute .tray 0 100
              else .moveVoltage .tray 0])
      ∧ (if inp.shift then
          ∀ position velocity,
            OpCmd.moveAbsolute .tray position velocity ∉ opcontrol.trayControl .returned inp
        else True) := by
  refine ⟨?_, trayControl_returned inp, ?_⟩
  · rw [tick_cmds, h]
    simp only [lastMove_append, lastMove_liftBrake, lastMove_stackingMods_tray]
    obtain ⟨h1, h2⟩ := lastMove_trayControl_returned inp
    rw [← h1]
    cases hx : lastMove .tray (opcontrol.trayControl .returned inp) with
    | none => simp [hx] at h2
    | some c => simp [lastMove, OpCmd.moves]
  · split_ifs with hs
    · intro position velocity
      rw [trayControl_returned, if_pos hs]
      unfold traySlew
      split_ifs <;> simp

theorem tray_assist_witness :
    (opcontrol.tick opcontrol.start trayPartlyOut).1.trayState = trayStates.returned
      ∧ lastMove .tray (opcontrol.tick opcontrol.start trayPartlyOut).2
        = (opcontrol.trayControl .returned trayPartlyOut).getLast? :=
  have h : (opcontrol.tick opcontrol.start trayPartlyOut).1.trayState
      = trayStates.returned := by
    rw [tick_trayState]
    norm_num [opcontrol.updateTrayState, opcontrol.trayToggle, opcontrol.start, trayPartlyOut,
      handsOff]
  ⟨h, (tray_assist opcontrol.start trayPartlyOut h).1⟩

/-! ## opcontrol: cube positioning -/

theorem tick_cubeState (st : OpState) (inp : OpInput) :
    (opcontrol.tick st inp).1.cubeState = (opcontrol.alignment st inp).cubeState := rfl

theorem tick_cubesPositioning (st : OpState) (inp : OpInput) :
    (opcontrol.tick st inp).1.cubesPositioning
      = (opcontrol.alignment st inp).cubesPositioning := rfl

/-- The positioning block of a disarmed iteration does nothing. -/
theorem alignment_disarmed (st : OpState) (inp : OpInput)
    (h : opcontrol.arm st.cubesPositioning inp = false) :
    (opcontrol.alignment st inp).cmds = []
      ∧ (opcontrol.alignment st inp).cubeState = st.cubeState
      ∧ (opcontrol.alignment st inp).cubesPositioning = false := by
  simp [opcontrol.alignment, opcontrol.cubePositioning, h]

/-- The positioning block assigns only `Setting`, `SettingCovered` and
`Finished`, and it disarms whenever it assigns `Finished`. -/
theorem alignment_assigns (st : OpState) (inp : OpInput) :
    ((opcontrol.alignment st inp).cubeState = st.cubeState
        ∨ (opcontrol.alignment st inp).cubeState = .setting
        ∨ (opcontrol.alignment st inp).cubeState = .settingCovered
        ∨ ((opcontrol.alignment st inp).cubeState = .finished
          ∧ (opcontrol.alignment st inp).cubesPositioning = false)) := by
  unfold opcontrol.alignment opcontrol.cubePositioning
  split_ifs <;> simp

/-- A command of the positioning block is an intake motion command, and the
block stays armed when it issues one. -/
theorem alignment_cmd (st : OpState) (inp : OpInput) (c : OpCmd)
    (h : (opcontrol.alignment st inp).cmds = [c]) :
    (opcontrol.alignment st inp).cubesPositioning = true ∧ OpCmd.moves .intake c = true := by
  unfold opcontrol.alignment opcontrol.cubePositioning at h ⊢
  split_ifs at h ⊢ <;> simp at h <;> subst h <;> simp_all [OpCmd.moves]

/-- C18: on every tick at which the timer reports more than 1 second since the
mark placed by cubeReturn, the positioning is disarmed before its block runs:
the block issues no command, cubeState is unchanged and cubesPositioning is
false after the tick, whatever the line sensor reads. -/
theorem cube_timeout_disarms (st : OpState) (inp : OpInput) (h : inp.markAge > 1) :
    opcontrol.arm st.cubesPositioning inp = false
      ∧ (opcontrol.alignment st inp).cmds = []
      ∧ (opcontrol.tick st inp).1.cubeState = st.cubeState
      ∧ (opcontrol.tick st inp).1.cubesPositioning = false := by
  have ha : opcontrol.arm st.cubesPositioning inp = false := by
    simp [opcontrol.arm, h]
  obtain ⟨h1, h2, h3⟩ := alignment_disarmed st inp ha
  exact ⟨ha, h1, by rw [tick_cubeState, h2], by rw [tick_cubesPositioning, h3]⟩

theorem cube_timeout_disarms_witness :
    markExpired.markAge > 1
      ∧ (opcontrol.alignment cubeAlmostSet markExpired).cmds = []
      ∧ (opcontrol.tick cubeAlmostSet markExpired).1.cubeState = cubeAlmostSet.cubeState :=
  have h : markExpired.markAge > 1 := by norm_num [markExpired, handsOff]
  ⟨h, (cube_timeout_disarms cubeAlmostSet markExpired h).2.1,
    (cube_timeout_disarms cubeAlmostSet markExpired h).2.2.1⟩

theorem arm_quiet (inp : OpInput) (h : inp.cubeReturn = false) :
    opcontrol.arm false inp = false := by
  simp [opcontrol.arm, h]

/-- Once `Finished` and disarmed, the positioning stays so and issues nothing
as long as `cubeReturn` is not pressed. -/
theorem finished_stays (inputs : List OpInput) :
    ∀ st : OpState, st.cubeState = .finished → st.cubesPositioning = false →
      (∀ i ∈ inputs, i.cubeReturn = false) →
      (∀ st1 ∈ opcontrol.trace st inputs,
          st1.cubeState = .finished ∧ st1.cubesPositioning = false)
        ∧ (∀ c ∈ opcontrol.alignmentCmds st inputs, c = [])
        ∧ (opcontrol.run st inputs).cubeState = .finished
        ∧ (opcontrol.run st inputs).cubesPositioning = false := by
  induction inputs with
  | nil => intro st h1 h2 _; simp [opcontrol.trace, opcontrol.alignmentCmds, opcontrol.run, h1, h2]
  | cons inp rest ih =>
    intro st h1 h2 hq
    have ha : opcontrol.arm st.cubesPositioning inp = false := by
      rw [h2]
      exact arm_quiet inp (hq inp (List.mem_cons_self _ _))
    obtain ⟨a1, a2, a3⟩ := alignment_disarmed st inp ha
    have n1 : (opcontrol.tick st inp).1.cubeState = .finished := by
      rw [tick_cubeState, a2, h1]
    have n2 : (opcontrol.tick st inp).1.cubesPositioning = false := by
      rw [tick_cubesPositioning, a3]
    obtain ⟨r1, r2, r3, r4⟩ := ih (opcontrol.tick st inp).1 n1 n2
      (fun i hi => hq i (List.mem_cons_of_mem _ hi))
    refine ⟨?_, ?_, r3, r4⟩
    · intro st1 hst1
      simp only [opcontrol.trace, List.mem_cons] at hst1
      rcases hst1 with rfl | hst1
      · exact ⟨n1, n2⟩
      · exact r1 st1 hst1
    · intro c hc
      simp only [opcontrol.alignmentCmds, List.mem_cons] at hc
      rcases hc with rfl | hc
      · exact a1
      · exact r2 c hc

/-- C17: the tick on which cubeState becomes Finished leaves cubesPositioning
false, and on every later tick, as long as cubeReturn is not pressed, the
positioning block issues no command and cubeState stays Finished (and the
positioning stays disarmed). -/
theorem cube_finished_stays (st : OpState) (inp : OpInput) (later : List OpInput)
    (hnew : st.cubeState ≠ cubeStates.finished)
    (hfin : (opcontrol.tick st inp).1.cubeState = cubeStates.finished)
    (hquiet : ∀ i ∈ later, i.cubeReturn = false) :
    (opcontrol.tick st inp).1.cubesPositioning = false
      ∧ (∀ st1 ∈ opcontrol.trace (opcontrol.tick st inp).1 later,
          st1.cubeState = cubeStates.finished ∧ st1.cubesPositioning = false)
      ∧ (∀ c ∈ opcontrol.alignmentCmds (opcontrol.tick st inp).1 later, c = []) := by
  have hd : (opcontrol.tick st inp).1.cubesPositioning = false := by
    rw [tick_cubeState] at hfin
    rw [tick_cubesPositioning]
    rcases alignment_assigns st inp with h | h | h | h
    · rw [hfin] at h
      exact absurd h.symm hnew
    · rw [hfin] at h
      cases h
    · rw [hfin] at h
      cases h
    · exact h.2
  obtain ⟨r1, r2, _, _⟩ := finished_stays later (opcontrol.tick st inp).1 hfin hd hquiet
  exact ⟨hd, r1, r2⟩

theorem cubeAlmostSet_finishes :
    (opcontrol.tick cubeAlmostSet handsOff).1.cubeState = cubeStates.finished := by
  rw [tick_cubeState]
  norm_num [opcontrol.alignment, opcontrol.cubePositioning, opcontrol.arm, cubeAlmostSet,
    opcontrol.start, handsOff]

theorem cube_finished_stays_witness :
    cubeAlmostSet.cubeState ≠ cubeStates.finished
      ∧ (opcontrol.tick cubeAlmostSet handsOff).1.cubeState = cubeStates.finished
      ∧ (∀ i ∈ [handsOff, handsOff], i.cubeReturn = false)
      ∧ (opcontrol.tick cubeAlmostSet handsOff).1.cubesPositioning = false
      ∧ (∀ c ∈ opcontrol.alignmentCmds (opcontrol.tick cubeAlmostSet handsOff).1
          [handsOff, handsOff], c = []) :=
  have h1 : cubeAlmostSet.cubeState ≠ cubeStates.finished := by
    simp [cubeAlmostSet]
  have h3 : ∀ i ∈ [handsOff, handsOff], i.cubeReturn = false := by
    intro i hi
    simp only [List.mem_cons, List.mem_singleton, List.not_mem_nil, or_false, or_self] at hi
    rw [hi]
    rfl
  ⟨h1, cubeAlmostSet_finishes, h3,
    (cube_finished_stays cubeAlmostSet handsOff [handsOff, handsOff] h1
      cubeAlmostSet_finishes h3).1,
    (cube_finished_stays cubeAlmostSet handsOff [handsOff, handsOff] h1
      cubeAlmostSet_finishes h3).2.2⟩

theorem arm_armed (cubesPositioning : Bool) (inp : OpInput)
    (h : cubesPositioning = true ∨ inp.cubeReturn = true) (hm : inp.markAge ≤ 1) :
    opcontrol.arm cubesPositioning inp = true := by
  unfold opcontrol.arm
  rw [if_neg (not_lt.mpr hm)]
  rcases h with h | h <;> simp [h]

/-- The three steps of the cube positioning: an uncovered reading starts
`Setting`, a covered reading in `Setting` starts `SettingCovered`, and a small
position error in `SettingCovered` finishes and disarms. -/
theorem pipeline_steps (st : OpState) (i1 i2 i3 : OpInput)
    (h0 : st.cubeState ≠ cubeStates.settingCovered)
    (harm : st.cubesPositioning = true ∨ i1.cubeReturn = true)
    (hm1 : i1.markAge ≤ 1) (hm2 : i2.markAge ≤ 1) (hm3 : i3.markAge ≤ 1)
    (hl1 : 46000 ≤ i1.line) (hl2 : i2.line < 46000) (he : |i3.intakePositionError| ≤ 20) :
    (opcontrol.trace st [i1, i2, i3]).map (fun s => s.cubeState)
        = [cubeStates.setting, cubeStates.settingCovered, cubeStates.finished]
      ∧ opcontrol.alignmentCmds st [i1, i2, i3]
        = [[.moveVelocity .intake (-100)], [.moveRelative .intake (-280) 100], []]
      ∧ (opcontrol.run st [i1, i2, i3]).cubeState = cubeStates.finished
      ∧ (opcontrol.run st [i1, i2, i3]).cubesPositioning = false := by
  have a1 := arm_armed st.cubesPositioning i1 harm hm1
  have c1 : (opcontrol.tick st i1).1.cubeState = cubeStates.setting := by
    rw [tick_cubeState]
    simp [opcontrol.alignment, opcontrol.cubePositioning, a1, h0, not_lt.mpr hl1]
  have p1 : (opcontrol.tick st i1).1.cubesPositioning = true := by
    rw [tick_cubesPositioning]
    simp [opcontrol.alignment, opcontrol.cubePositioning, a1, h0, not_lt.mpr hl1]
  have k1 : (opcontrol.alignment st i1).cmds = [.moveVelocity .intake (-100)] := by
    simp [opcontrol.alignment, opcontrol.cubePositioning, a1, h0, not_lt.mpr hl1]
  have a2 := arm_armed (opcontrol.tick st i1).1.cubesPositioning i2 (Or.inl p1) hm2
  have c2 : (opcontrol.tick (opcontrol.tick st i1).1 i2).1.cubeState
      = cubeStates.settingCovered := by
    rw [tick_cubeState]
    simp [opcontrol.alignment, opcontrol.cubePositioning, a2, c1, hl2]
  have p2 : (opcontrol.tick (opcontrol.tick st i1).1 i2).1.cubesPositioning = true := by
    rw [tick_cubesPositioning]
    simp [opcontrol.alignment, opcontrol.cubePositioning, a2, c1, hl2]
  have k2 : (opcontrol.alignment (opcontrol.tick st i1).1 i2).cmds
      = [.moveRelative .intake (-280) 100] := by
    simp [opcontrol.alignment, opcontrol.cubePositioning, a2, c1, hl2]
  have a3 := arm_armed (opcontrol.tick (opcontrol.tick st i1).1 i2).1.cubesPositioning i3
    (Or.inl p2) hm3
  have c3 : (opcontrol.tick (opcontrol.tick (opcontrol.tick st i1).1 i2).1 i3).1.cubeState
      = cubeStates.finished := by
    rw [tick_cubeState]
    simp [opcontrol.alignment, opcontrol.cubePositioning, a3, c2, he]
  have p3 : (opcontrol.tick (opcontrol.tick (opcontrol.tick st i1).1 i2).1 i3).1.cubesPositioning
      = false := by
    rw [tick_cubesPositioning]
    simp [opcontrol.alignment, opcontrol.cubePositioning, a3, c2, he]
  have k3 : (opcontrol.alignment (opcontrol.tick (opcontrol.tick st i1).1 i2).1 i3).cmds
      = [] := by
    simp [opcontrol.alignment, opcontrol.cubePositioning, a3, c2, he]
  refine ⟨?_, ?_, ?_, ?_⟩
  · simp only [opcontrol.trace, List.map, c1, c2, c3]
  · simp only [opcontrol.alignmentCmds, k1, k2, k3]
  · simp only [opcontrol.run, c3]
  · simp only [opcontrol.run, p3]

theorem cubeSequence_steps :
    (opcontrol.trace opcontrol.start cubeSequence).map (fun s => s.cubeState)
        = [cubeStates.setting, cubeStates.settingCovered, cubeStates.finished] :=
  (pipeline_steps opcontrol.start _ _ _ (by simp [opcontrol.start]) (Or.inr rfl)
    (by norm_num [handsOff]) (by norm_num) (by norm_num) (by norm_num [handsOff])
    (by norm_num) (by norm_num [handsOff])).1

/-- C16 (as stated, refuted): from the start state (cubeState Covered), armed by
cubeReturn and fed the readings uncovered, covered, uncovered, cubeState takes
the values Covered, Setting, SettingCovered, Finished: Uncovered is never
visited. -/
theorem cube_pipeline_skips_uncovered :
    (opcontrol.start.cubeState
        :: (opcontrol.trace opcontrol.start cubeSequence).map (fun s => s.cubeState))
        = [cubeStates.covered, cubeStates.setting, cubeStates.settingCovered,
            cubeStates.finished]
      ∧ cubeStates.uncovered ∉ (opcontrol.start.cubeState
        :: (opcontrol.trace opcontrol.start cubeSequence).map (fun s => s.cubeState)) := by
  rw [cubeSequence_steps]
  exact ⟨rfl, by decide⟩

/-- C16 (amended): with the positioning armed (cubeReturn pressed or
cubesPositioning already set, timer mark at most 1 s old) and cubeState not
SettingCovered, detector readings uncovered, covered, uncovered on successive
ticks, with the intake position error within 20 on the third, make cubeState
Setting after the first tick, SettingCovered after the second and Finished
after the third; the positioning block issues moveVelocity(-100), then
moveRelative(-280, 100), then nothing, and it issues nothing on later ticks as
long as cubeReturn is not pressed.  No tick assigns Uncovered or Covered. -/
theorem cube_pipeline (st : OpState) (i1 i2 i3 : OpInput) (later : List OpInput)
    (h0 : st.cubeState ≠ cubeStates.settingCovered)
    (harm : st.cubesPositioning = true ∨ i1.cubeReturn = true)
    (hm1 : i1.markAge ≤ 1) (hm2 : i2.markAge ≤ 1) (hm3 : i3.markAge ≤ 1)
    (hl1 : 46000 ≤ i1.line) (hl2 : i2.line < 46000) (_hl3 : 46000 ≤ i3.line)
    (he : |i3.intakePositionError| ≤ 20) (hquiet : ∀ i ∈ later, i.cubeReturn = false) :
    (opcontrol.trace st [i1, i2, i3]).map (fun s => s.cubeState)
        = [cubeStates.setting, cubeStates.settingCovered, cubeStates.finished]
      ∧ opcontrol.alignmentCmds st [i1, i2, i3]
        = [[.moveVelocity .intake (-100)], [.moveRelative .intake (-280) 100], []]
      ∧ (∀ c ∈ opcontrol.alignmentCmds (opcontrol.run st [i1, i2, i3]) later, c = [])
      ∧ (∀ (s : OpState) (inp : OpInput),
          (opcontrol.tick s inp).1.cubeState = s.cubeState
            ∨ (opcontrol.tick s inp).1.cubeState = cubeStates.setting
            ∨ (opcontrol.tick s inp).1.cubeState = cubeStates.settingCovered
            ∨ (opcontrol.tick s inp).1.cubeState = cubeStates.finished) := by
  obtain ⟨h1, h2, h3, h4⟩ := pipeline_steps st i1 i2 i3 h0 harm hm1 hm2 hm3 hl1 hl2 he
  refine ⟨h1, h2, (finished_stays later _ h3 h4 hquiet).2.1, ?_⟩
  intro s inp
  rw [tick_cubeState]
  rcases alignment_assigns s inp with h | h | h | h
  · exact Or.inl h
  · exact Or.inr (Or.inl h)
  · exact Or.inr (Or.inr (Or.inl h))
  · exact Or.inr (Or.inr (Or.inr h.1))

theorem cube_pipeline_witness :
    opcontrol.alignmentCmds opcontrol.start
        [{ handsOff with cubeReturn := true }, { handsOff with line := 40000 }, handsOff]
      = [[.moveVelocity .intake (-100)], [.moveRelative .intake (-280) 100], []] :=
  (cube_pipeline opcontrol.start { handsOff with cubeReturn := true }
    { handsOff with line := 40000 } handsOff [handsOff] (by simp [opcontrol.start])
    (Or.inr rfl) (by norm_num [handsOff]) (by norm_num [handsOff]) (by norm_num [handsOff])
    (by norm_num [handsOff]) (by norm_num) (by norm_num [handsOff])
    (by norm_num [handsOff])
    (by
      intro i hi
      simp only [List.mem_singleton] at hi
      rw [hi]
      rfl)).2.1

/-! ## opcontrol: intake precedence -/

theorem userIntake_idle (trayState : trayStates) (inp : OpInput) (hin : inp.intakeIn = false)
    (hout : inp.intakeOut = false)
    (hsh : inp.intakeShift = false ∨ ¬ inp.liftPosition > 700) :
    opcontrol.userIntake trayState true inp = [] := by
  unfold opcontrol.userIntake LIFT_STACKING_HEIGHT
  rcases hsh with h | h <;> simp [hin, hout, h]

theorem covered_ne_settingCovered : ¬ (cubeStates.covered = cubeStates.settingCovered) := by
  decide

/-- C19 (as stated, refuted): from the start state with cubeReturn and intakeIn
held and the line sensor uncovered, the positioning block issues
moveVelocity(-100) to the intake, and the operator mapping then issues
moveVelocity(200): the last intake command of the tick is the operator's. -/
theorem intake_button_overrides_alignment :
    (opcontrol.alignment opcontrol.start intakeWhileArmed).cmds
        = [.moveVelocity .intake (-100)]
      ∧ lastMove .intake (opcontrol.tick opcontrol.start intakeWhileArmed).2
        = some (.moveVelocity .intake 200) := by
  have h : (opcontrol.tick opcontrol.start intakeWhileArmed).2
      = [.moveVoltage .lift 0, .moveVelocity .intake (-100), .moveVelocity .intake 200,
          .moveAbsolute .tray 0 100, .setBrakeMode .intake .hold,
          .setBrakeMode .chassis .coast, .setBrakeMode .lift .brake, .tank 0 0] := by
    norm_num [opcontrol.tick, opcontrol.liftControl, opcontrol.alignment, opcontrol.arm,
      opcontrol.cubePositioning, opcontrol.userIntake, opcontrol.trayToggle,
      opcontrol.updateTrayState, opcontrol.trayControl, opcontrol.stackingMods,
      opcontrol.liftBrake, opcontrol.start, intakeWhileArmed, handsOff, LIFT_STACKING_HEIGHT,
      covered_ne_settingCovered]
  constructor
  · norm_num [opcontrol.alignment, opcontrol.arm, opcontrol.cubePositioning, opcontrol.start,
      intakeWhileArmed, handsOff, covered_ne_settingCovered]
  · rw [h]
    simp [lastMove, OpCmd.moves]

/-! ## Pose estimator -/

/-- C20: one tick of odomImuSupplement passes to setState the unchanged x and
y and the heading rot * (M_PI / 180) radians, rot being the IMU rotation in
degrees, and issues no actuator command. -/
theorem odomImuSupplement_tick (mPi : ℚ) (state : OdomState) (rot : ℚ) :
    (odomImuSupplement.tick mPi state rot).1.x = state.x
      ∧ (odomImuSupplement.tick mPi state rot).1.y = state.y
      ∧ (odomImuSupplement.tick mPi state rot).1.theta = rot * (mPi / 180)
      ∧ (odomImuSupplement.tick mPi state rot).2 = [] := by
  refine ⟨rfl, rfl, ?_, rfl⟩
  simp only [odomImuSupplement.tick]
  ring

/-! ## driveQ: heading correction -/

/-- The heading term of one `driveQ` iteration is the new integrator value. -/
theorem driveQ_turnTerm_eq (st : DriveQState) (error errorTheta : ℚ) :
    driveQ.turnTerm st error errorTheta = (st.iTurn + errorTheta) * (3 / 100) := by
  simp only [driveQ.turnTerm]
  ring

theorem turn_integrator_bound (iTurn errorTheta bound : ℚ) (hi : |iTurn| ≤ 3 / 97 * bound)
    (he : |errorTheta| ≤ bound) : |(iTurn + errorTheta) * (3 / 100)| ≤ 3 / 97 * bound := by
  rw [abs_mul, abs_of_pos (by norm_num : (0 : ℚ) < 3 / 100)]
  have h := abs_add iTurn errorTheta
  nlinarith

/-- C30: in driveQ with the heading accumulator iTurn starting at 0, if every
heading error of the call satisfies |errorTheta| <= M, then for every tank
command of the run the left argument exceeds the common forward voltage (the
mean of the two arguments) by a term of magnitude at most (3/97) M and the
right argument falls short of it by the same term. -/
theorem driveQ_heading_term_bounded (M : MathLib) (targetX targetY : ℚ) (backwards : Bool)
    (voltageMax : ℚ) (forceFlip debugLog : Bool) (i0 : ℚ) (s : Nat → Sensors)
    (t0 fuel j : Nat) (l r bound : ℚ)
    (hb : ∀ t, t0 ≤ t →
      |targetTheta M targetX targetY backwards forceFlip (s t0) - (s t).rot| ≤ bound)
    (h : (driveQ M targetX targetY backwards voltageMax forceFlip debugLog i0 0 s t0
      fuel).events[j]? = some (.tank l r)) :
    |l - (l + r) / 2| ≤ 3 / 97 * bound
      ∧ r - (l + r) / 2 = -(l - (l + r) / 2) := by
  unfold driveQ at h
  obtain ⟨st1, k, ⟨hG1, hG2⟩, hk, rfl, rfl⟩ := runLoop_tank _ s
    (fun t st => t0 ≤ t ∧ |st.iTurn| ≤ 3 / 97 * bound)
    (by
      intro t st k ⟨h1, h2⟩ hk _
      simp only [driveQ.body, Option.some.injEq] at hk
      subst hk
      exact ⟨by omega, turn_integrator_bound _ _ _ h2 (hb t h1)⟩)
    fuel t0 (driveQ.init i0 0)
    ⟨le_refl _, by
      have h0 := abs_nonneg (targetTheta M targetX targetY backwards forceFlip (s t0)
        - (s t0).rot)
      have h1 := hb t0 (le_refl _)
      simp only [driveQ.init, abs_zero]
      linarith⟩
    j l r h
  obtain ⟨k2, hk2, h1, _⟩ := driveQ_body_eq M targetX targetY backwards (voltageMax / 127)
    forceFlip (s t0) st1 (s (t0 + j))
  rw [hk] at hk2
  simp only [Option.some.injEq] at hk2
  subst hk2
  have hterm := turn_integrator_bound st1.iTurn _ bound hG2 (hb (t0 + j) (by omega))
  rw [← driveQ_turnTerm_eq st1 (driveQ.error M targetX targetY (s (t0 + j)))] at hterm
  constructor
  · have e : k.left - (k.left + k.right) / 2
        = driveQ.turnTerm st1 (driveQ.error M targetX targetY (s (t0 + j)))
          (targetTheta M targetX targetY backwards forceFlip (s t0) - (s (t0 + j)).rot) := by
      linarith
    rw [e]
    exact hterm
  · ring

theorem headingOff_first_command :
    (driveQ sampleMath 100 0 false 115 false false 0 0 headingOff 0 1).events[0]?
      = some (.tank (115 / 127 + 3 / 10) (115 / 127 - 3 / 10)) := by
  have h : (driveQ sampleMath 100 0 false 115 false false 0 0 headingOff 0 1).events
      = [Event.tank (115 / 127 + 3 / 10) (115 / 127 - 3 / 10)] := by
    norm_num [driveQ, runLoop, driveQ.body, driveQ.init, driveQ.pid, driveQ.clamp,
      driveQ.turnTerm, driveQ.error, driveQ.distanceOrig, driveQ.distanceTotal, targetTheta,
      timeoutUtility, cround, headingOff, poseAt, sampleMath_sqrt_10000, sampleMath_sqrt_zero,
      sampleMath_atan2Deg_east]
  rw [h]
  rfl

theorem driveQ_heading_term_bounded_witness :
    |(115 / 127 + 3 / 10 : ℚ) - ((115 / 127 + 3 / 10) + (115 / 127 - 3 / 10)) / 2|
      ≤ 3 / 97 * 10 :=
  (driveQ_heading_term_bounded sampleMath 100 0 false 115 false false 0 headingOff 0 1 0
    (115 / 127 + 3 / 10) (115 / 127 - 3 / 10) 10
    (by
      intro t _
      norm_num [targetTheta, headingOff, poseAt, sampleMath_atan2Deg_east])
    headingOff_first_command).1
/-! ## Exit path -/

/-- A run that returned issued one `tank` command per tick and then `stop`. -/
theorem runLoop_returned_events {σ : Type} (body : σ → Sensors → Option (Tick σ))
    (s : Nat → Sensors) :
    ∀ fuel t st T fin, (runLoop body s fuel t st).outcome = .returned T fin →
      (runLoop body s fuel t st).events.getLast? = some .stop
        ∧ (runLoop body s fuel t st).events.dropLast.all Event.isTank = true
        ∧ (runLoop body s fuel t st).events.length = T - t + 2 ∧ t ≤ T := by
  intro fuel
  induction fuel with
  | zero => intro t st T fin h; simp [runLoop] at h
  | succ fuel ih =>
    intro t st T fin h
    cases hb : body st (s t) with
    | none => simp [runLoop, hb] at h
    | some k =>
      cases hx : k.exit with
      | true =>
        rw [runLoop_exit fuel hb hx] at h ⊢
        simp only [Outcome.returned.injEq] at h
        obtain ⟨rfl, _⟩ := h
        simp [Event.isTank]
      | false =>
        rw [runLoop_continue fuel hb hx] at h ⊢
        obtain ⟨h1, h2, h3, h4⟩ := ih (t + 1) k.state T fin h
        have hne : (runLoop body s fuel (t + 1) k.state).events ≠ [] := by
          intro h0
          rw [h0] at h1
          simp at h1
        obtain ⟨e, rest, hr⟩ := List.exists_cons_of_ne_nil hne
        rw [hr] at h1 h2 h3 ⊢
        refine ⟨?_, ?_, ?_, by omega⟩
        · simpa using h1
        · simp only [List.dropLast_cons₂, List.all_cons, Event.isTank, Bool.true_and]
          exact h2
        · simp only [List.length_cons] at h3 ⊢
          omega

/-! ## driveQ: the near-zero counter -/

theorem cround_nearJitter : cround (7 / 5) = 1 ∧ cround (8 / 5) = 2 := by
  constructor <;> norm_num [cround]

theorem nearJitter_error (t : Nat) :
    driveQ.error sampleMath 30 0 (nearJitter t) = if t % 2 = 0 then 8 / 5 else 7 / 5 := by
  have h1 : sampleMath.sqrt (64 / 25) = 8 / 5 := by
    have h := sampleMath_sqrt_sq (8 / 5)
    norm_num [abs_of_pos] at h
    exact h
  have h2 : sampleMath.sqrt (49 / 25) = 7 / 5 := by
    have h := sampleMath_sqrt_sq (7 / 5)
    norm_num [abs_of_pos] at h
    exact h
  by_cases h : t % 2 = 0 <;> simp [driveQ.error, nearJitter, poseAt, h] <;> norm_num [h1, h2]

/-- C24 (as stated, refuted): with target (30 cm, 0 cm) and a pose reading that
alternates between x = 28.4 cm and x = 28.6 cm, the distance error (1.6, 1.4,
1.6, ...) is within 3 cm on every tick, but its rounding changes on every tick,
both counters are reset on every tick and driveQ never returns. -/
theorem driveQ_near_zero_never_returns :
    (∀ t, |driveQ.error sampleMath 30 0 (nearJitter t)| ≤ 3)
      ∧ ¬ ∃ fuel T fin, (driveQ sampleMath 30 0 false 115 false false 0 0 nearJitter 0
        fuel).outcome = .returned T fin := by
  constructor
  · intro t
    rw [nearJitter_error]
    split_ifs <;> norm_num [abs_of_pos]
  · rintro ⟨fuel, T, fin, h⟩
    have hu : (driveQ sampleMath 30 0 false 115 false false 0 0 nearJitter 0
        fuel).outcome = .unfinished := by
      unfold driveQ
      refine runLoop_unfinished _ nearJitter
        (fun t st => st.errorLast = 0 ∨ st.errorLast = if t % 2 = 0 then 7 / 5 else 8 / 5) ?_
        fuel 0 _ (Or.inl rfl)
      intro t st hG
      have hne : cround st.errorLast ≠ cround (driveQ.error sampleMath 30 0 (nearJitter t)) := by
        rw [nearJitter_error]
        rcases hG with h | h <;> rw [h] <;> by_cases h2 : t % 2 = 0 <;>
          simp [h2, cround_zero, cround_nearJitter.1, cround_nearJitter.2]
      refine ⟨_, rfl, ?_, ?_⟩
      · simp [hne, timeoutUtility]
      · right
        simp only [hne, timeoutUtility, decide_False]
        simp only [nearJitter_error]
        by_cases h2 : t % 2 = 0
        · have h3 : (t + 1) % 2 = 1 := by omega
          simp [h2, h3]
        · have h3 : (t + 1) % 2 = 0 := by omega
          simp [h2, h3]
    rw [hu] at h
    cases h

/-- C24 (amended): in driveQ the near-zero counter counts a tick only when the
rounded distance error equals the rounded error of the previous tick and the
error is within 3 cm; both counters are reset when the rounding changes.  If
for 16 consecutive ticks t .. t + 15 the distance error stays within 3 cm and
its rounding stays equal to the rounding of the error before tick t, the loop
returns by the end of those ticks, whatever its locals were at tick t. -/
theorem driveQ_near_zero_window (M : MathLib) (targetX targetY : ℚ) (backwards : Bool)
    (voltageMax : ℚ) (forceFlip : Bool) (entry : Sensors) (s : Nat → Sensors) (t : Nat)
    (st : DriveQState) (fuel : Nat) (rounded : Int) (hst : cround st.errorLast = rounded)
    (hw : ∀ k, t ≤ k → k ≤ t + 15 →
      |driveQ.error M targetX targetY (s k)| ≤ 3
        ∧ cround (driveQ.error M targetX targetY (s k)) = rounded)
    (hf : 16 ≤ fuel) :
    ∃ T fin, t ≤ T ∧ T ≤ t + 15 ∧ (fin.same0ErrCycles > 15 ∨ fin.sameErrCycles ≥ 20) ∧
      (runLoop (driveQ.body M targetX targetY backwards voltageMax forceFlip entry) s fuel t
        st).outcome = .returned T fin := by
  refine runLoop_returns
    (driveQ.body M targetX targetY backwards voltageMax forceFlip entry) s
    (fun k st => t ≤ k ∧ k ≤ t + 15 ∧ cround st.errorLast = rounded
      ∧ k - t ≤ st.same0ErrCycles)
    (fun fin => fin.same0ErrCycles > 15 ∨ fin.sameErrCycles ≥ 20)
    (fun k _ => t + 15 - k) ?_ 15 t st fuel ⟨le_refl _, by omega, hst, by omega⟩
    (by simp) (by omega)
  intro k st ⟨h1, h2, h3, h4⟩
  obtain ⟨hn, hr⟩ := hw k h1 h2
  refine ⟨_, rfl, ?_, ?_⟩
  · intro hx
    simpa using hx
  · intro hx
    simp only [decide_eq_false_iff_not, not_or, not_lt, not_le, h3, hr, hn, timeoutUtility,
      decide_True, if_true] at hx
    have hx2 : (decide (st.same0ErrCycles + 1 > 15 ∨ st.sameErrCycles + 1 ≥ 20)) = false := by
      simp only [decide_eq_false_iff_not, not_or, not_lt, not_le]
      exact hx
    simp only [h3, hr, hn, timeoutUtility, decide_True, if_true, hx2]
    refine ⟨⟨by omega, by omega, ?_, by omega⟩, by omega⟩
    simpa using hr

theorem driveQ_near_zero_window_witness :
    ∃ T fin, 0 ≤ T ∧ T ≤ 0 + 15 ∧ (fin.same0ErrCycles > 15 ∨ fin.sameErrCycles ≥ 20) ∧
      (runLoop (driveQ.body sampleMath 0 0 false (115 / 127) false (atRest 0)) atRest 16 0
        (driveQ.init 0 0)).outcome = .returned T fin :=
  driveQ_near_zero_window sampleMath 0 0 false (115 / 127) false (atRest 0) atRest 0
    (driveQ.init 0 0) 16 0 cround_zero
    (by
      intro k _ _
      have h : driveQ.error sampleMath 0 0 (atRest k) = 0 := by
        simp [driveQ.error, atRest, poseAt, sampleMath_sqrt_zero]
      rw [h]
      exact ⟨by norm_num, cround_zero⟩)
    (le_refl _)

/-! ## Pose estimator: heading range -/

theorem odom_theta (mPi : ℚ) (state : OdomState) (rot : ℚ) :
    (odomImuSupplement.tick mPi state rot).1.theta = rot * mPi / 180 := by
  simp [odomImuSupplement.tick]

/-- C21 (as stated, refuted): the IMU rotation readings 0 and 720 degrees
publish the headings 0 and 4 M_PI, more than one full turn apart; no range one
full turn wide contains the published heading for every reading. -/
theorem heading_not_normalised :
    (odomImuSupplement.tick mPiDouble (OdomState.mk 0 0 0) 0).1.theta = 0
      ∧ (odomImuSupplement.tick mPiDouble (OdomState.mk 0 0 0) 720).1.theta = 4 * mPiDouble
      ∧ 4 * mPiDouble - 0 > 2 * mPiDouble
      ∧ ¬ ∃ lo : ℚ, ∀ rot : ℚ,
          lo ≤ (odomImuSupplement.tick mPiDouble (OdomState.mk 0 0 0) rot).1.theta
            ∧ (odomImuSupplement.tick mPiDouble (OdomState.mk 0 0 0) rot).1.theta
              ≤ lo + 2 * mPiDouble := by
  have hpos : (0 : ℚ) < mPiDouble := by norm_num [mPiDouble]
  refine ⟨?_, ?_, by linarith, ?_⟩
  · rw [odom_theta]
    norm_num
  · rw [odom_theta]
    ring
  · rintro ⟨lo, h⟩
    have h0 := (h 0).1
    have h1 := (h 720).2
    rw [odom_theta] at h0 h1
    have e0 : (0 : ℚ) * mPiDouble / 180 = 0 := by ring
    have e1 : (720 : ℚ) * mPiDouble / 180 = 4 * mPiDouble := by ring
    rw [e0] at h0
    rw [e1] at h1
    linarith

/-- C21 (amended): after every pose estimator tick the published heading is
the IMU rotation reading times M_PI / 180, without normalisation: it lies in
the range [-M_PI, M_PI] exactly when the reading lies in [-180, 180] degrees. -/
theorem heading_range_iff (mPi : ℚ) (state : OdomState) (rot : ℚ) (hpi : 0 < mPi) :
    |(odomImuSupplement.tick mPi state rot).1.theta| ≤ mPi ↔ |rot| ≤ 180 := by
  rw [odom_theta, abs_div, abs_mul, abs_of_pos hpi, abs_of_pos (by norm_num : (0 : ℚ) < 180),
    div_le_iff₀ (by norm_num : (0 : ℚ) < 180)]
  constructor
  · intro h
    by_contra hc
    have hc2 : 180 < |rot| := not_le.mp hc
    nlinarith
  · intro h
    nlinarith

theorem heading_range_iff_witness :
    (0 : ℚ) < mPiDouble
      ∧ (|(odomImuSupplement.tick mPiDouble (OdomState.mk 0 0 0) 90).1.theta| ≤ mPiDouble
        ↔ |(90 : ℚ)| ≤ 180) :=
  ⟨by norm_num [mPiDouble],
    heading_range_iff mPiDouble (OdomState.mk 0 0 0) 90 (by norm_num [mPiDouble])⟩

/-! ## opcontrol: joystickAvg -/

/-- C26: the value stored in joystickAvg at the end of a tick is
leftY + rightY / 2, not the mean (leftY + rightY) / 2: with the left stick at 1
and the right stick at 0 it is 1, while the mean is 1/2. -/
theorem joystickAvg_not_mean :
    (∀ (st : OpState) (inp : OpInput),
        (opcontrol.tick st inp).1.joystickAvg = inp.leftY + inp.rightY / 2)
      ∧ (opcontrol.tick opcontrol.start stickLeftFull).1.joystickAvg = 1
      ∧ (stickLeftFull.leftY + stickLeftFull.rightY) / 2 = 1 / 2 := by
  refine ⟨fun _ _ => rfl, ?_, ?_⟩
  · show stickLeftFull.leftY + stickLeftFull.rightY / 2 = 1
    norm_num [stickLeftFull, handsOff]
  · norm_num [stickLeftFull, handsOff]

/-! ## turnP: clamp and derivative -/

/-- The voltage of a `turnP` iteration is its PID sum, replaced by
`voltageMax * sign` when the magnitude of the sum exceeds `voltageMax`. -/
theorem turnP_voltage_eq (targetTurn voltageMax sign : Int) (st : TurnPState) (smp : Sensors) :
    turnP.voltage targetTurn voltageMax sign st smp
      = if |turnP.pid targetTurn st smp| > (voltageMax : ℚ) then (voltageMax : ℚ) * sign
        else turnP.pid targetTurn st smp := rfl

theorem ctrunc_of_neg (v : ℚ) (z : Int) (hv : v < 0) (h1 : (z : ℚ) - 1 < v) (h2 : v ≤ z) :
    ctrunc v = z := by
  unfold ctrunc
  rw [if_neg (not_le.mpr hv)]
  exact Int.ceil_eq_iff.mpr ⟨h1, h2⟩

theorem ctrunc_of_nonneg (v : ℚ) (z : Int) (hv : 0 ≤ v) (h1 : (z : ℚ) ≤ v) (h2 : v < z + 1) :
    ctrunc v = z := by
  unfold ctrunc
  rw [if_pos hv]
  exact Int.floor_eq_iff.mpr ⟨h1, h2⟩

theorem ctrunc_overshoot :
    ctrunc (-56) = -56 ∧ ctrunc (-(63 / 4)) = -15 ∧ ctrunc 35 = 35 := by
  refine ⟨ctrunc_of_neg _ _ ?_ ?_ ?_, ctrunc_of_neg _ _ ?_ ?_ ?_, ctrunc_of_nonneg _ _ ?_ ?_ ?_⟩
    <;> norm_num

theorem turnP_overshoot_first_tick :
    turnP.body 45 50 turnP.zeroed (facing 80 0) = some
      { state := { errorLast := 35, errorLastInt := 35, i := 0, sameErrCycles := 0,
                   same0ErrCycles := 0 }
        left := 50 / 127
        right := -50 / 127
        exit := false } := by
  norm_num [turnP.body, turnP.voltage, turnP.zeroed, csign, timeoutUtility, facing,
    poseAt, abs_of_pos, abs_of_neg, ctrunc_overshoot.1, ctrunc_overshoot.2.1,
    ctrunc_overshoot.2.2]

/-- C27: turnP(45, 50) entered with the IMU reading 80 degrees (35 degrees past
the target): the PID sum of the first tick is -71, its magnitude exceeds
voltageMax = 50, and the clamp replaces it by voltageMax * sign(targetTurn) =
+50; the command tank(50/127, -50/127) turns against the PID sum.  In general
the clamped voltage is voltageMax times the sign of targetTurn, whatever the
sign of the PID sum. -/
theorem turnP_clamp_reverses :
    turnP.pid 45 turnP.zeroed (facing 80 0) = -71
      ∧ csign 45 = 1
      ∧ turnP.voltage 45 50 1 turnP.zeroed (facing 80 0) = 50
      ∧ (turnP 45 50 false 0 0 0 (facing 80) 0 1).events = [Event.tank (50 / 127) (-50 / 127)]
      ∧ ∀ (targetTurn voltageMax sign : Int) (st : TurnPState) (smp : Sensors),
          turnP.voltage targetTurn voltageMax sign st smp
            = if |turnP.pid targetTurn st smp| > (voltageMax : ℚ) then (voltageMax : ℚ) * sign
              else turnP.pid targetTurn st smp := by
  have hpid : turnP.pid 45 turnP.zeroed (facing 80 0) = -71 := by
    norm_num [turnP.pid, turnP.d, turnP.zeroed, facing, poseAt, abs_of_pos, abs_of_neg,
      ctrunc_overshoot.1, ctrunc_overshoot.2.1]
  refine ⟨hpid, by norm_num [csign], ?_, ?_, turnP_voltage_eq⟩
  · rw [turnP_voltage_eq, hpid]
    norm_num [abs_of_neg]
  · have h := runLoop_continue 0 turnP_overshoot_first_tick rfl
    have h2 := congrArg Run.events h
    simpa [runLoop] using h2

theorem ctrunc_steady :
    ctrunc (-16) = -16 ∧ ctrunc (-(9 / 2)) = -4 ∧ ctrunc 10 = 10 ∧ ctrunc (-9) = -9 := by
  refine ⟨ctrunc_of_neg _ _ ?_ ?_ ?_, ctrunc_of_neg _ _ ?_ ?_ ?_, ctrunc_of_nonneg _ _ ?_ ?_ ?_,
    ctrunc_of_neg _ _ ?_ ?_ ?_⟩ <;> norm_num

theorem turnP_steady_first_tick :
    turnP.body (-10) 127 turnP.zeroed (atRest 0) = some
      { state := { errorLast := 10, errorLastInt := 10, i := 0, sameErrCycles := 0,
                   same0ErrCycles := 0 }
        left := -20 / 127
        right := 20 / 127
        exit := false } := by
  norm_num [turnP.body, turnP.voltage, turnP.zeroed, csign, timeoutUtility, atRest,
    poseAt, abs_of_pos, abs_of_neg, ctrunc_steady.1, ctrunc_steady.2.1, ctrunc_steady.2.2.1]

theorem turnP_steady_second_tick :
    turnP.body (-10) 127
        { errorLast := 10, errorLastInt := 10, i := 0, sameErrCycles := 0, same0ErrCycles := 0 }
        (atRest 1) = some
      { state := { errorLast := 10, errorLastInt := 10, i := 0, sameErrCycles := 1,
                   same0ErrCycles := 0 }
        left := -25 / 127
        right := 25 / 127
        exit := false } := by
  norm_num [turnP.body, turnP.voltage, csign, timeoutUtility, atRest,
    poseAt, abs_of_pos, abs_of_neg, ctrunc_steady.1, ctrunc_steady.2.2.2, ctrunc_steady.2.2.1]

theorem turnP_errorLast_abs {targetTurn voltageMax : Int} {st : TurnPState} {smp : Sensors}
    {k : Tick TurnPState} (hk : turnP.body targetTurn voltageMax st smp = some k)
    (hx : k.exit = false) : k.state.errorLast = |(targetTurn : ℚ) - smp.rot| := by
  simp only [turnP.body, Option.some.injEq] at hk
  subst hk
  simp only [] at hx ⊢
  rw [if_neg (by rw [hx]; simp)]

/-- C28: turnP(-10) with the IMU reading 0 on every tick has the signed heading
error -10 on both of its first two ticks, yet the derivative term of the second
tick is -9, not 0: the first tick stores errorLast = abs(error) = 10, and the
second computes d from error - errorLast = -20.  The commands are
tank(-20/127, 20/127) and tank(-25/127, 25/127). -/
theorem turnP_derivative_not_zero :
    (turnP.body (-10) 127 turnP.zeroed (atRest 0)).map (fun k => k.state.errorLast) = some 10
      ∧ turnP.d (-10)
          { errorLast := 10, errorLastInt := 10, i := 0, sameErrCycles := 0,
            same0ErrCycles := 0 } (atRest 1) = -9
      ∧ (turnP (-10) 127 false 0 0 0 atRest 0 2).events
        = [Event.tank (-20 / 127) (20 / 127), Event.tank (-25 / 127) (25 / 127)]
      ∧ ∀ (targetTurn voltageMax : Int) (st : TurnPState) (smp : Sensors)
          (k : Tick TurnPState), turnP.body targetTurn voltageMax st smp = some k →
          k.exit = false → k.state.errorLast = |(targetTurn : ℚ) - smp.rot| := by
  refine ⟨?_, ?_, ?_, fun _ _ _ _ _ hk hx => turnP_errorLast_abs hk hx⟩
  · rw [turnP_steady_first_tick]
    rfl
  · norm_num [turnP.d, atRest, poseAt, ctrunc_steady.2.2.2]
  · have h1 := runLoop_continue 1 turnP_steady_first_tick rfl
    have h2 := runLoop_continue 0 turnP_steady_second_tick rfl
    have e1 := congrArg Run.events h1
    have e2 := congrArg Run.events h2
    simp only [] at e1 e2
    have e3 : (turnP (-10) 127 false 0 0 0 atRest 0 2).events
        = Event.tank (-20 / 127) (20 / 127) :: Event.tank (-25 / 127) (25 / 127)
          :: (runLoop (turnP.body (-10) 127) atRest 0 (1 + 1)
            { errorLast := 10, errorLastInt := 10, i := 0, sameErrCycles := 1,
              same0ErrCycles := 0 }).events := by
      rw [← e2]
      exact e1
    rw [e3]
    rfl

/-! ## Entry state of the controllers -/

theorem ctrunc_reset : ctrunc 32 = 32 ∧ ctrunc 9 = 9 ∧ ctrunc 0 = 0 ∧ ctrunc 20 = 20 := by
  refine ⟨ctrunc_of_nonneg _ _ ?_ ?_ ?_, ctrunc_of_nonneg _ _ ?_ ?_ ?_,
    ctrunc_of_nonneg _ _ ?_ ?_ ?_, ctrunc_of_nonneg _ _ ?_ ?_ ?_⟩ <;> norm_num

/-- C25: driveQ and turnP read locals that are not reset at entry.  The same
call driveQ(100 cm, 0 cm) on the same readings commands tank(115/127, 115/127)
when the uninitialised iTurn happens to hold 0 and
tank(115/127 + 3, 115/127 - 3) when it holds 100; the same call turnP(20)
commands tank(41/127, -41/127) when the uninitialised errorLast holds 0 and
tank(32/127, -32/127) when it holds 20. -/
theorem commands_depend_on_stale_locals :
    (driveQ sampleMath 100 0 false 115 false false 0 0 atRest 0 1).events
        = [Event.tank (115 / 127) (115 / 127)]
      ∧ (driveQ sampleMath 100 0 false 115 false false 0 100 atRest 0 1).events
        = [Event.tank (115 / 127 + 3) (115 / 127 - 3)]
      ∧ (turnP 20 127 false 0 0 0 atRest 0 1).events = [Event.tank (41 / 127) (-41 / 127)]
      ∧ (turnP 20 127 false 20 0 0 atRest 0 1).events
        = [Event.tank (32 / 127) (-32 / 127)] := by
  refine ⟨?_, ?_, ?_, ?_⟩
  · norm_num [driveQ, runLoop, driveQ.body, driveQ.init, driveQ.pid, driveQ.clamp,
      driveQ.turnTerm, driveQ.error, driveQ.distanceOrig, driveQ.distanceTotal, targetTheta,
      timeoutUtility, cround, atRest, poseAt, sampleMath_sqrt_10000, sampleMath_sqrt_zero,
      sampleMath_atan2Deg_east]
  · norm_num [driveQ, runLoop, driveQ.body, driveQ.init, driveQ.pid, driveQ.clamp,
      driveQ.turnTerm, driveQ.error, driveQ.distanceOrig, driveQ.distanceTotal, targetTheta,
      timeoutUtility, cround, atRest, poseAt, sampleMath_sqrt_10000, sampleMath_sqrt_zero,
      sampleMath_atan2Deg_east]
  · norm_num [turnP, runLoop, turnP.body, turnP.voltage, csign, timeoutUtility, atRest,
      poseAt, abs_of_pos, ctrunc_reset.1, ctrunc_reset.2.1, ctrunc_reset.2.2.2]
  · norm_num [turnP, runLoop, turnP.body, turnP.voltage, csign, timeoutUtility, atRest,
      poseAt, abs_of_pos, ctrunc_reset.1, ctrunc_reset.2.2.1, ctrunc_reset.2.2.2]

/-! ## The sign idiom -/

theorem driveP_zero_target_tick :
    driveP.body (wrap32 (0 + (atRest 0).encLeft)) (wrap32 (0 + (atRest 0).encRight)) 115
        driveP.init (atRest 0) = some
      { state := { voltageCap := 5, errorCurrent := 0, errorLast := 0, sameErrCycles := 1,
                   same0ErrCycles := 1 }
        left := 0
        right := 0
        exit := true } := by
  have he : driveP.errorCurrent 0 0
      { x := 0, y := 0, rot := 0, encLeft := 0, encRight := 0 } = 0 := by decide
  norm_num [driveP.body, driveP.init, driveP.wheelError, wrap32, csign, atRest, poseAt,
    timeoutUtility, he, ctrunc]

theorem turnP_zero_target_tick :
    turnP.body 0 127 turnP.zeroed (atRest 0) = some
      { state := { errorLast := 0, errorLastInt := 0, i := 0, sameErrCycles := 1,
                   same0ErrCycles := 1 }
        left := 0
        right := 0
        exit := false } := by
  norm_num [turnP.body, turnP.voltage, turnP.zeroed, csign, timeoutUtility, atRest, poseAt,
    ctrunc]

theorem driveP_body_counter {targetLeft targetRight voltageMax : Int} {st : DrivePState}
    {smp : Sensors} {k : Tick DrivePState}
    (hk : driveP.body targetLeft targetRight voltageMax st smp = some k) :
    k.state.sameErrCycles
        = (if st.errorLast = driveP.errorCurrent targetLeft targetRight smp
            then st.sameErrCycles + 1 else 0)
      ∧ (k.exit = true ↔
          (st.errorLast < 5 ∧ driveP.errorCurrent targetLeft targetRight smp < 5)
            ∨ k.state.sameErrCycles ≥ 20) := by
  simp only [driveP.body, Option.some.injEq] at hk
  subst hk
  refine ⟨?_, ?_⟩
  · simp only [timeoutUtility]
    split_ifs <;> simp_all
  · simp

theorem driveP_tracks_init (targetLeft targetRight : Int) (s : Nat → Sensors) (t0 : Nat) :
    driveP.tracks targetLeft targetRight s t0 t0 driveP.init := by
  refine ⟨le_refl _, ?_, ?_, ?_, ?_, ?_, ?_⟩
  · simp [driveP.init, driveP.errorBefore]
  · simp [driveP.init]
  · simp [driveP.init]
  · intro k h1 h2
    simp only [driveP.init] at h1
    omega
  · intro h
    simp only [driveP.init] at h
    omega
  · intro k h1 h2
    omega

theorem driveP_tracks_step {targetLeft targetRight voltageMax : Int} {s : Nat → Sensors}
    {t0 t : Nat} {st : DrivePState} {k : Tick DrivePState}
    (hG : driveP.tracks targetLeft targetRight s t0 t st)
    (hk : driveP.body (wrap32 (targetLeft + (s t0).encLeft))
      (wrap32 (targetRight + (s t0).encRight)) voltageMax st (s t) = some k) :
    (k.exit = true ↔ driveP.returnDue targetLeft targetRight s t0 t)
      ∧ (k.exit = false → driveP.tracks targetLeft targetRight s t0 (t + 1) k.state) := by
  obtain ⟨ht, hE, hc20, hct, hrun, hbrk, hfirst⟩ := hG
  obtain ⟨hc, hx⟩ := driveP_body_counter hk
  have hec : driveP.errorCurrent (wrap32 (targetLeft + (s t0).encLeft))
      (wrap32 (targetRight + (s t0).encRight)) (s t)
      = driveP.errorAt targetLeft targetRight s t0 t := rfl
  rw [hec, hE] at hc hx
  have key : k.exit = true ↔ driveP.returnDue targetLeft targetRight s t0 t := by
    rw [hx]
    unfold driveP.returnDue
    constructor
    · rintro (h | h)
      · exact Or.inl h
      · right
        by_cases hs : driveP.errorBefore targetLeft targetRight s t0 t
            = driveP.errorAt targetLeft targetRight s t0 t
        · rw [if_pos hs] at hc
          refine ⟨by omega, fun j hj1 hj2 => ?_⟩
          rcases Nat.lt_or_ge j t with hlt | hge
          · exact hrun j (by omega) hlt
          · have hjt : j = t := by omega
            subst hjt
            exact hs.symm
        · rw [if_neg hs] at hc
          omega
    · rintro (h | ⟨h19, hall⟩)
      · exact Or.inl h
      · right
        have hs : driveP.errorBefore targetLeft targetRight s t0 t
            = driveP.errorAt targetLeft targetRight s t0 t := (hall t (by omega) (le_refl _)).symm
        rw [if_pos hs] at hc
        by_contra hlt
        exact hbrk (by omega) (hall _ (by omega) (by omega))
  refine ⟨key, fun hxf => ?_⟩
  have hnd : ¬ driveP.returnDue targetLeft targetRight s t0 t := by
    rw [← key, hxf]
    simp
  have hlast : k.state.errorLast = driveP.errorAt targetLeft targetRight s t0 t :=
    (driveP_body_exit hk).2.2 hxf
  have hlt20 : k.state.sameErrCycles < 20 := by
    by_contra h
    have := hx.mpr (Or.inr (by omega))
    rw [hxf] at this
    exact Bool.noConfusion this
  have hfirst1 : ∀ j, t0 ≤ j → j < t + 1 →
      ¬ driveP.returnDue targetLeft targetRight s t0 j := by
    intro j h1 h2
    rcases Nat.lt_or_ge j t with hlt | hge
    · exact hfirst j h1 hlt
    · have hjt : j = t := by omega
      subst hjt
      exact hnd
  have hbefore : k.state.errorLast = driveP.errorBefore targetLeft targetRight s t0 (t + 1) := by
    rw [hlast]
    unfold driveP.errorBefore
    rw [if_neg (by omega)]
    rfl
  by_cases hs : driveP.errorBefore targetLeft targetRight s t0 t
      = driveP.errorAt targetLeft targetRight s t0 t
  · rw [if_pos hs] at hc
    refine ⟨by omega, hbefore, hlt20, by omega, ?_, ?_, hfirst1⟩
    · intro j hj1 hj2
      rcases Nat.lt_or_ge j t with hlt | hge
      · exact hrun j (by omega) hlt
      · have hjt : j = t := by omega
        subst hjt
        exact hs.symm
    · intro h
      have e : t + 1 - k.state.sameErrCycles - 1 = t - st.sameErrCycles - 1 := by omega
      rw [e]
      exact hbrk (by omega)
  · rw [if_neg hs] at hc
    refine ⟨by omega, hbefore, hlt20, by omega, ?_, ?_, hfirst1⟩
    · intro j hj1 hj2
      omega
    · intro _
      have e : t + 1 - k.state.sameErrCycles - 1 = t := by omega
      rw [e]
      exact fun h => hs h.symm

theorem driveP_returned_first_due {targetLeft targetRight voltageMax : Int} {debugLog : Bool}
    {s : Nat → Sensors} {t0 fuel T : Nat} {fin : DrivePState}
    (h : (driveP targetLeft targetRight voltageMax debugLog s t0 fuel).outcome
      = .returned T fin) :
    driveP.returnDue targetLeft targetRight s t0 T
      ∧ ∀ t, t0 ≤ t → t < T → ¬ driveP.returnDue targetLeft targetRight s t0 t := by
  obtain ⟨st1, k, _, hG, hk, hx, _⟩ := runLoop_returned
    (driveP.body (wrap32 (targetLeft + (s t0).encLeft)) (wrap32 (targetRight + (s t0).encRight))
      voltageMax) s
    (driveP.tracks targetLeft targetRight s t0)
    (fun t st k hG hk hx => (driveP_tracks_step hG hk).2 hx) fuel t0 driveP.init
    (driveP_tracks_init targetLeft targetRight s t0) T fin h
  exact ⟨(driveP_tracks_step hG hk).1.mp hx, hG.2.2.2.2.2.2⟩

theorem driveP_returns_by_due {targetLeft targetRight : Int} (voltageMax : Int)
    (debugLog : Bool) {s : Nat → Sensors} {t0 T : Nat} (fuel : Nat) (h0 : t0 ≤ T)
    (hd : driveP.returnDue targetLeft targetRight s t0 T) (hf : T - t0 < fuel) :
    ∃ T1 fin, t0 ≤ T1 ∧ T1 ≤ T ∧
      (driveP targetLeft targetRight voltageMax debugLog s t0 fuel).outcome
        = .returned T1 fin := by
  obtain ⟨T1, fin, h1, h2, _, h4⟩ := runLoop_returns
    (driveP.body (wrap32 (targetLeft + (s t0).encLeft)) (wrap32 (targetRight + (s t0).encRight))
      voltageMax) s
    (fun t st => driveP.tracks targetLeft targetRight s t0 t st ∧ t ≤ T) (fun _ => True)
    (fun t _ => T - t)
    (by
      intro t st hG
      obtain ⟨hG, htT⟩ := hG
      refine ⟨_, rfl, fun _ => trivial, fun hx => ?_⟩
      have hb : driveP.body (wrap32 (targetLeft + (s t0).encLeft))
          (wrap32 (targetRight + (s t0).encRight)) voltageMax st (s t) = some _ := rfl
      obtain ⟨hkey, hnext⟩ := driveP_tracks_step hG hb
      have hne : t ≠ T := by
        intro e
        subst e
        have := hkey.mpr hd
        rw [hx] at this
        exact Bool.noConfusion this
      have hlt : t < T := by omega
      exact ⟨⟨hnext hx, hlt⟩, Nat.sub_lt_sub_left hlt (Nat.lt_succ_self t)⟩)
    (T - t0) t0 driveP.init fuel ⟨driveP_tracks_init targetLeft targetRight s t0, h0⟩
    (le_refl _) hf
  exact ⟨T1, fin, h1, by omega, h4⟩

theorem atRest_errorAt (k : Nat) : driveP.errorAt 100 100 atRest 0 k = 100 :=
  (by decide : driveP.errorAt 100 100 atRest 0 0 = 100)

/-- C29: driveP returns on the first tick T at which the mean wheel error
(the int value (abs(errorRight) + abs(errorLeft)) / 2 the code computes) and
its predecessor (0 before the first tick) are both below 5, or the mean error
has equalled its predecessor on the 20 ticks T - 19 .. T: given more than
T - t0 iterations the call returns on T, after one tank command per tick and a
final stop.  A call whose initial mean error is below 5 returns on its first
tick after exactly one tank command, also when a wheel error is 0
(driveP(0, 0) commands tank(0, 0), stops and returns).  When the encoder
arithmetic does not overflow the mean error is (|errorRight| + |errorLeft|) / 2. -/
theorem driveP_returns_on_first_due_tick (targetLeft targetRight voltageMax : Int)
    (debugLog : Bool) (s : Nat → Sensors) (t0 fuel T : Nat) (h0 : t0 ≤ T)
    (hd : driveP.returnDue targetLeft targetRight s t0 T)
    (hfirst : ∀ t, t0 ≤ t → t < T → ¬ driveP.returnDue targetLeft targetRight s t0 t)
    (hf : T - t0 < fuel) :
    (∃ fin, (driveP targetLeft targetRight voltageMax debugLog s t0 fuel).outcome
        = .returned T fin)
      ∧ (driveP targetLeft targetRight voltageMax debugLog s t0 fuel).events.length
        = T - t0 + 2
      ∧ (driveP targetLeft targetRight voltageMax debugLog s t0 fuel).events.getLast?
        = some .stop
      ∧ (driveP targetLeft targetRight voltageMax debugLog s t0 fuel).events.dropLast.all
        Event.isTank = true
      ∧ (driveP.errorAt targetLeft targetRight s t0 t0 < 5 → T = t0 ∧ ∃ l r,
          (driveP targetLeft targetRight voltageMax debugLog s t0 fuel).events
            = [Event.tank l r, Event.stop])
      ∧ driveP 0 0 115 false atRest 0 1
        = ⟨[Event.tank 0 0, Event.stop], .returned 0 (DrivePState.mk 5 0 0 1 1)⟩
      ∧ (∀ t, |targetLeft + (s t0).encLeft| < 2147483648 →
          |targetRight + (s t0).encRight| < 2147483648 →
          |targetRight + (s t0).encRight - (s t).encRight|
            + |targetLeft + (s t0).encLeft - (s t).encLeft| < 2147483648 →
          driveP.errorAt targetLeft targetRight s t0 t
            = Int.tdiv (|targetRight + (s t0).encRight - (s t).encRight|
                + |targetLeft + (s t0).encLeft - (s t).encLeft|) 2) := by
  obtain ⟨T1, fin, hge, hle, h⟩ := driveP_returns_by_due voltageMax debugLog fuel h0 hd hf
  have hT : T1 = T := by
    by_contra hne
    exact hfirst T1 hge (by omega) (driveP_returned_first_due h).1
  subst hT
  obtain ⟨e1, e2, e3, _⟩ := runLoop_returned_events _ s fuel t0 _ T1 fin h
  refine ⟨⟨fin, h⟩, e3, e1, e2, ?_, runLoop_exit 0 driveP_zero_target_tick rfl,
    fun t hl hr hsum => driveP_errorAt_of_range targetLeft targetRight s t0 t hl hr hsum⟩
  intro he
  have hdue : driveP.returnDue targetLeft targetRight s t0 t0 :=
    Or.inl ⟨by simp [driveP.errorBefore], he⟩
  have hT : T1 = t0 := by
    by_contra hne
    exact hfirst t0 (le_refl _) (by omega) hdue
  subst hT
  refine ⟨rfl, ?_⟩
  obtain ⟨fuel, rfl⟩ : ∃ f, fuel = f + 1 := ⟨fuel - 1, by omega⟩
  have hx : (driveP.body (wrap32 (targetLeft + (s T1).encLeft))
      (wrap32 (targetRight + (s T1).encRight)) voltageMax driveP.init (s T1)) = some _ := rfl
  exact ⟨_, _, congrArg Run.events (runLoop_exit fuel hx
    ((driveP_body_counter hx).2.mpr (Or.inl ⟨by simp [driveP.init], he⟩)))⟩

theorem driveP_returns_on_first_due_tick_witness :
    driveP.returnDue 100 100 atRest 0 20
      ∧ (∀ t, 0 ≤ t → t < 20 → ¬ driveP.returnDue 100 100 atRest 0 t)
      ∧ ∃ fin, (driveP 100 100 115 false atRest 0 21).outcome = .returned 20 fin :=
  have hb : ∀ k, driveP.errorBefore 100 100 atRest 0 k = if k = 0 then 0 else 100 := by
    intro k
    unfold driveP.errorBefore
    split_ifs
    · rfl
    · exact atRest_errorAt _
  have hd : driveP.returnDue 100 100 atRest 0 20 := by
    refine Or.inr ⟨by omega, fun k h1 h2 => ?_⟩
    rw [atRest_errorAt, hb, if_neg (by omega)]
  have hfirst : ∀ t, 0 ≤ t → t < 20 → ¬ driveP.returnDue 100 100 atRest 0 t := by
    rintro t _ ht (⟨_, h⟩ | ⟨h19, h⟩)
    · rw [atRest_errorAt] at h
      omega
    · have h2 := h 0 (by omega) (by omega)
      rw [atRest_errorAt, hb] at h2
      simp at h2
  ⟨hd, hfirst,
    (driveP_returns_on_first_due_tick 100 100 115 false atRest 0 21 20 (by omega) hd hfirst
      (by omega)).1⟩

/-! ## Exit causes -/

/-- A loop that follows the state sequence `f` without exiting up to tick `T`
and exits on tick `T` returns on tick `T`. -/
theorem runLoop_follow {σ : Type} (body : σ → Sensors → Option (Tick σ)) (s : Nat → Sensors)
    (f : Nat → σ) (t0 T : Nat)
    (hstep : ∀ j, t0 ≤ j → j < T →
      ∃ k, body (f j) (s j) = some k ∧ k.exit = false ∧ k.state = f (j + 1))
    (fin : σ) (hlast : ∃ k, body (f T) (s T) = some k ∧ k.exit = true ∧ k.state = fin) :
    ∀ n t fuel, t0 ≤ t → t + n = T → n < fuel →
      (runLoop body s fuel t (f t)).outcome = .returned T fin := by
  obtain ⟨k, hlast, hx, rfl⟩ := hlast
  intro n
  induction n with
  | zero =>
    intro t fuel _ hT hf
    obtain ⟨fuel, rfl⟩ : ∃ g, fuel = g + 1 := ⟨fuel - 1, by omega⟩
    have e : t = T := by omega
    subst e
    rw [runLoop_exit fuel hlast hx]
  | succ n ih =>
    intro t fuel ht hT hf
    obtain ⟨fuel, rfl⟩ : ∃ g, fuel = g + 1 := ⟨fuel - 1, by omega⟩
    obtain ⟨k1, hk1, hx1, hs1⟩ := hstep t ht (by omega)
    rw [runLoop_continue fuel hk1 hx1, hs1]
    exact ih (t + 1) fuel (by omega) (by omega) (by omega)

theorem cround_samples : cround 10 = 10 ∧ cround 2 = 2 := by
  constructor <;> norm_num [cround]

theorem targetTheta_east (x rot : ℚ) (h : x < 100) :
    targetTheta sampleMath 100 0 false false (poseAt x 0 rot) = 0 := by
  have h2 : (0 : ℚ) < 100 - x := by linarith
  simp [targetTheta, poseAt, sampleMath, sampleAtanDeg, h2]

/-- The run of turnQ to (100 cm, 0 cm) with the IMU at -10 degrees throughout:
heading error 10 on every tick, return on tick 15 through the stall counter. -/
theorem turnQ_stall_run :
    (turnQ sampleMath 100 0 false false false 0 (facing (-10)) 0 16).outcome
      = .returned 15 { errorLastTheta := 10, i := 0, sameErrCycles := 15, same0ErrCycles := 0 } := by
  have hth := targetTheta_east 0 (-10) (by norm_num)
  unfold turnQ
  have hfac : ∀ j, facing (-10) j = poseAt 0 0 (-10) := fun _ => rfl
  rw [hfac 0, hth]
  have key := runLoop_follow (turnQ.body 0) (facing (-10))
    (fun j => if j = 0 then turnQ.init 0
      else { errorLastTheta := 10, i := 0, sameErrCycles := j - 1, same0ErrCycles := 0 })
    0 15
    (by
      intro j _ hj
      refine ⟨_, rfl, ?_, ?_⟩
      · rcases Nat.eq_zero_or_pos j with h | h
        · subst h
          norm_num [turnQ.body, turnQ.init, timeoutUtility, facing, poseAt, cround_zero,
            cround_samples.1]
        · have hne : j ≠ 0 := by omega
          have h14 : j - 1 + 1 < 15 := by omega
          norm_num [turnQ.body, timeoutUtility, facing, poseAt, hne, cround_samples.1,
            abs_of_pos, h14]
      · rcases Nat.eq_zero_or_pos j with h | h
        · subst h
          norm_num [turnQ.body, turnQ.init, timeoutUtility, facing, poseAt, cround_zero,
            cround_samples.1]
        · have hne : j ≠ 0 := by omega
          have h14 : j - 1 + 1 < 15 := by omega
          have hj1 : j - 1 + 1 = j := by omega
          norm_num [turnQ.body, timeoutUtility, facing, poseAt, hne, cround_samples.1,
            abs_of_pos, h14, hj1])
    { errorLastTheta := 10, i := 0, sameErrCycles := 15, same0ErrCycles := 0 }
    ⟨_, rfl, by norm_num [turnQ.body, timeoutUtility, facing, poseAt, cround_samples.1,
        abs_of_pos],
      by norm_num [turnQ.body, timeoutUtility, facing, poseAt, cround_samples.1, abs_of_pos]⟩
    15 0 16 (le_refl _) (by omega) (by omega)
  simpa using key

/-- The run of turnQ to (100 cm, 0 cm) with the IMU at -10 degrees for 9 ticks
and at -2 degrees afterwards: return on tick 15 through the near-zero counter. -/
theorem turnQ_near_run :
    (turnQ sampleMath 100 0 false false false 0 turnedThenNear 0 16).outcome
      = .returned 15 { errorLastTheta := 2, i := 0, sameErrCycles := 6, same0ErrCycles := 6 } := by
  have hth := targetTheta_east 0 (-10) (by norm_num)
  unfold turnQ
  have h0 : turnedThenNear 0 = poseAt 0 0 (-10) := by simp [turnedThenNear]
  rw [h0, hth]
  have key := runLoop_follow (turnQ.body 0) turnedThenNear
    (fun j => if j = 0 then turnQ.init 0
      else if j < 10 then
        { errorLastTheta := 10, i := 0, sameErrCycles := j - 1, same0ErrCycles := 0 }
      else { errorLastTheta := 2, i := 0, sameErrCycles := j - 10, same0ErrCycles := j - 10 })
    0 15
    (by
      intro j _ hj
      refine ⟨_, rfl, ?_, ?_⟩
      · rcases Nat.eq_zero_or_pos j with h | h
        · subst h
          norm_num [turnQ.body, turnQ.init, timeoutUtility, turnedThenNear, poseAt, cround_zero,
            cround_samples.1]
        · have hne : j ≠ 0 := by omega
          rcases Nat.lt_or_ge j 9 with h9 | h9
          · have h10 : j < 10 := by omega
            have h14 : j - 1 + 1 < 15 := by omega
            norm_num [turnQ.body, timeoutUtility, turnedThenNear, poseAt, hne, h9, h10,
              cround_samples.1, abs_of_pos, h14]
          · have hn9 : ¬ j < 9 := by omega
            rcases Nat.eq_or_lt_of_le h9 with e | h10
            · subst e
              norm_num [turnQ.body, timeoutUtility, turnedThenNear, poseAt, cround_samples.1,
                cround_samples.2, abs_of_pos]
            · have hn10 : ¬ j < 10 := by omega
              have h5 : j - 10 + 1 ≤ 5 := by omega
              have h14 : j - 10 + 1 < 15 := by omega
              norm_num [turnQ.body, timeoutUtility, turnedThenNear, poseAt, hne, hn9, hn10,
                cround_samples.2, abs_of_pos, h5, h14]
      · rcases Nat.eq_zero_or_pos j with h | h
        · subst h
          norm_num [turnQ.body, turnQ.init, timeoutUtility, turnedThenNear, poseAt, cround_zero,
            cround_samples.1]
        · have hne : j ≠ 0 := by omega
          rcases Nat.lt_or_ge j 9 with h9 | h9
          · have h10 : j < 10 := by omega
            have h11 : j + 1 < 10 := by omega
            have h14 : j - 1 + 1 < 15 := by omega
            have hj1 : j - 1 + 1 = j := by omega
            norm_num [turnQ.body, timeoutUtility, turnedThenNear, poseAt, hne, h9, h10, h11,
              cround_samples.1, abs_of_pos, h14, hj1]
          · have hn9 : ¬ j < 9 := by omega
            rcases Nat.eq_or_lt_of_le h9 with e | h10
            · subst e
              norm_num [turnQ.body, timeoutUtility, turnedThenNear, poseAt, cround_samples.1,
                cround_samples.2, abs_of_pos]
            · have hn10 : ¬ j < 10 := by omega
              have hn11 : ¬ j + 1 < 10 := by omega
              have h5 : j - 10 + 1 ≤ 5 := by omega
              have h14 : j - 10 + 1 < 15 := by omega
              have hj1 : j - 10 + 1 = j + 1 - 10 := by omega
              norm_num [turnQ.body, timeoutUtility, turnedThenNear, poseAt, hne, hn9, hn10,
                hn11, cround_samples.2, abs_of_pos, h5, h14, hj1])
    { errorLastTheta := 2, i := 0, sameErrCycles := 6, same0ErrCycles := 6 }
    ⟨_, rfl, by norm_num [turnQ.body, timeoutUtility, turnedThenNear, poseAt, cround_samples.2,
        abs_of_pos],
      by norm_num [turnQ.body, timeoutUtility, turnedThenNear, poseAt, cround_samples.2,
        abs_of_pos]⟩
    15 0 16 (le_refl _) (by omega) (by omega)
  simpa using key

theorem driveQ_error_axis (x rot : ℚ) :
    driveQ.error sampleMath 100 0 (poseAt x 0 rot) = |100 - x| := by
  have h := sampleMath_sqrt_sq (100 - x)
  simpa [driveQ.error, poseAt] using h

theorem poseAt_rot (x y rot : ℚ) : (poseAt x y rot).rot = rot := rfl

theorem driveQ_error_samples :
    driveQ.error sampleMath 100 0 (poseAt 90 0 0) = 10
      ∧ driveQ.error sampleMath 100 0 (poseAt 98 0 0) = 2 := by
  constructor <;> rw [driveQ_error_axis] <;> norm_num [abs_of_pos]

/-- The run of driveQ to (100 cm, 0 cm) with the pose reading at x = 90 cm
throughout: distance error 10 on every tick, return on tick 20 through the
stall counter. -/
theorem driveQ_stall_run :
    (driveQ sampleMath 100 0 false 115 false false 0 0 standingShort 0 21).outcome
      = .returned 20 (DriveQState.mk 10 0 0 0 20 0) := by
  have hth := targetTheta_east 90 0 (by norm_num)
  have hs : ∀ j, standingShort j = poseAt 90 0 0 := fun _ => rfl
  have he := driveQ_error_samples.1
  unfold driveQ
  have key := runLoop_follow
    (driveQ.body sampleMath 100 0 false (115 / 127) false (standingShort 0)) standingShort
    (fun j => if j = 0 then driveQ.init 0 0 else DriveQState.mk 10 0 0 0 (j - 1) 0)
    0 20
    (by
      intro j _ hj
      refine ⟨_, rfl, ?_, ?_⟩
      · rcases Nat.eq_zero_or_pos j with h | h
        · subst h
          norm_num [driveQ.body, driveQ.init, timeoutUtility, hs, hth, he, poseAt_rot,
            cround_zero, cround_samples.1]
        · have hne : j ≠ 0 := by omega
          have h19 : j - 1 + 1 < 20 := by omega
          norm_num [driveQ.body, timeoutUtility, hs, hth, he, poseAt_rot, hne,
            cround_samples.1, abs_of_pos, h19]
      · rcases Nat.eq_zero_or_pos j with h | h
        · subst h
          norm_num [driveQ.body, driveQ.init, timeoutUtility, hs, hth, he, poseAt_rot,
            cround_zero, cround_samples.1]
        · have hne : j ≠ 0 := by omega
          have h19 : j - 1 + 1 < 20 := by omega
          have hj1 : j - 1 + 1 = j := by omega
          norm_num [driveQ.body, timeoutUtility, hs, hth, he, poseAt_rot, hne,
            cround_samples.1, abs_of_pos, h19, hj1])
    (DriveQState.mk 10 0 0 0 20 0)
    ⟨_, rfl, by norm_num [driveQ.body, timeoutUtility, hs, hth, he, poseAt_rot,
        cround_samples.1, abs_of_pos],
      by norm_num [driveQ.body, timeoutUtility, hs, hth, he, poseAt_rot, cround_samples.1,
        abs_of_pos]⟩
    20 0 21 (le_refl _) (by omega) (by omega)
  simpa using key

/-- The run of driveQ to (100 cm, 0 cm) with the pose reading at x = 90 cm for
4 ticks and at x = 98 cm afterwards: return on tick 20 through the near-zero
counter. -/
theorem driveQ_near_run :
    (driveQ sampleMath 100 0 false 115 false false 0 0 movedThenNear 0 21).outcome
      = .returned 20 (DriveQState.mk 2 0 0 0 16 16) := by
  have hth := targetTheta_east 90 0 (by norm_num)
  have h0 : movedThenNear 0 = poseAt 90 0 0 := by simp [movedThenNear]
  have he := driveQ_error_samples.1
  have he2 := driveQ_error_samples.2
  unfold driveQ
  rw [h0]
  have key := runLoop_follow
    (driveQ.body sampleMath 100 0 false (115 / 127) false (poseAt 90 0 0)) movedThenNear
    (fun j => if j = 0 then driveQ.init 0 0
      else if j < 5 then DriveQState.mk 10 0 0 0 (j - 1) 0
      else DriveQState.mk 2 0 0 0 (j - 5) (j - 5))
    0 20
    (by
      intro j _ hj
      refine ⟨_, rfl, ?_, ?_⟩
      · rcases Nat.eq_zero_or_pos j with h | h
        · subst h
          norm_num [driveQ.body, driveQ.init, timeoutUtility, movedThenNear, hth, he,
            poseAt_rot, cround_zero, cround_samples.1]
        · have hne : j ≠ 0 := by omega
          rcases Nat.lt_or_ge j 4 with h4 | h4
          · have h5 : j < 5 := by omega
            have h19 : j - 1 + 1 < 20 := by omega
            norm_num [driveQ.body, timeoutUtility, movedThenNear, hth, he, poseAt_rot, hne,
              h4, h5, cround_samples.1, abs_of_pos, h19]
          · have hn4 : ¬ j < 4 := by omega
            rcases Nat.eq_or_lt_of_le h4 with e | h5
            · subst e
              norm_num [driveQ.body, timeoutUtility, movedThenNear, hth, he2, poseAt_rot,
                cround_samples.1, cround_samples.2, abs_of_pos]
            · have hn5 : ¬ j < 5 := by omega
              have h15 : j - 5 + 1 ≤ 15 := by omega
              have h19 : j - 5 + 1 < 20 := by omega
              norm_num [driveQ.body, timeoutUtility, movedThenNear, hth, he2, poseAt_rot, hne,
                hn4, hn5, cround_samples.2, abs_of_pos, h15, h19]
      · rcases Nat.eq_zero_or_pos j with h | h
        · subst h
          norm_num [driveQ.body, driveQ.init, timeoutUtility, movedThenNear, hth, he,
            poseAt_rot, cround_zero, cround_samples.1]
        · have hne : j ≠ 0 := by omega
          rcases Nat.lt_or_ge j 4 with h4 | h4
          · have h5 : j < 5 := by omega
            have h6 : j + 1 < 5 := by omega
            have h19 : j - 1 + 1 < 20 := by omega
            have hj1 : j - 1 + 1 = j := by omega
            norm_num [driveQ.body, timeoutUtility, movedThenNear, hth, he, poseAt_rot, hne,
              h4, h5, h6, cround_samples.1, abs_of_pos, h19, hj1]
          · have hn4 : ¬ j < 4 := by omega
            rcases Nat.eq_or_lt_of_le h4 with e | h5
            · subst e
              norm_num [driveQ.body, timeoutUtility, movedThenNear, hth, he2, poseAt_rot,
                cround_samples.1, cround_samples.2, abs_of_pos]
            · have hn5 : ¬ j < 5 := by omega
              have hn6 : ¬ j + 1 < 5 := by omega
              have h15 : j - 5 + 1 ≤ 15 := by omega
              have h19 : j - 5 + 1 < 20 := by omega
              have hj1 : j - 5 + 1 = j + 1 - 5 := by omega
              norm_num [driveQ.body, timeoutUtility, movedThenNear, hth, he2, poseAt_rot, hne,
                hn4, hn5, hn6, cround_samples.2, abs_of_pos, h15, h19, hj1])
    (DriveQState.mk 2 0 0 0 16 16)
    ⟨_, rfl, by norm_num [driveQ.body, timeoutUtility, movedThenNear, hth, he2, poseAt_rot,
        cround_samples.2, abs_of_pos],
      by norm_num [driveQ.body, timeoutUtility, movedThenNear, hth, he2, poseAt_rot,
        cround_samples.2, abs_of_pos]⟩
    20 0 21 (le_refl _) (by omega) (by omega)
  simpa using key

theorem driveP_error_samples :
    driveP.errorCurrent 100 100 (encodersAt 0) = 100
      ∧ driveP.errorCurrent 100 100 (encodersAt 96) = 4
      ∧ driveP.wheelError 100 0 = 100 ∧ driveP.wheelError 100 96 = 4
      ∧ wrap32 (100 + 0) = 100 := by
  decide

theorem ctrunc_caps : ctrunc 5 = 5 ∧ ctrunc 105 = 105 ∧ ctrunc 100 = 100 := by
  have h1 := ctrunc_intCast 5
  have h2 := ctrunc_intCast 105
  have h3 := ctrunc_intCast 100
  push_cast at h1 h2 h3
  exact ⟨h1, h2, h3⟩

/-- The run of driveP(100, 100) with both encoders at 0 throughout: mean wheel
error 100 on every tick, return on tick 20 through the stall counter. -/
theorem driveP_stall_run :
    (driveP 100 100 115 false (fun _ => encodersAt 0) 0 21).outcome
      = .returned 20 (DrivePState.mk 105 100 100 20 0) := by
  obtain ⟨he, _, hw, _, ht⟩ := driveP_error_samples
  unfold driveP
  have h0 : (encodersAt 0).encLeft = 0 ∧ (encodersAt 0).encRight = 0 := ⟨rfl, rfl⟩
  simp only [h0.1, h0.2, ht]
  have key := runLoop_follow (driveP.body 100 100 115) (fun _ => encodersAt 0)
    (fun j => if j = 0 then driveP.init else DrivePState.mk (5 * (j : Int)) 100 100 (j - 1) 0)
    0 20
    (by
      intro j _ hj
      refine ⟨_, rfl, ?_, ?_⟩
      · rcases Nat.eq_zero_or_pos j with h | h
        · subst h
          norm_num [driveP.body, driveP.init, timeoutUtility, he, h0.1, h0.2, hw]
        · have hne : j ≠ 0 := by omega
          have h19 : j - 1 + 1 < 20 := by omega
          norm_num [driveP.body, timeoutUtility, he, h0.1, h0.2, hw, hne, h19]
      · rcases Nat.eq_zero_or_pos j with h | h
        · subst h
          norm_num [driveP.body, driveP.init, timeoutUtility, he, h0.1, h0.2, hw, csign,
            ctrunc_caps.1]
        · have hne : j ≠ 0 := by omega
          have h19 : j - 1 + 1 < 20 := by omega
          have hj1 : j - 1 + 1 = j := by omega
          have hcap : ¬ (5 * (j : Int) + 5 > 115) := by omega
          have hc5 : ctrunc ((5 : ℚ) * (j : ℚ) + 5) = 5 * (j : Int) + 5 := by
            have := ctrunc_add_five (5 * (j : Int))
            push_cast at this
            exact this
          norm_num [driveP.body, timeoutUtility, he, h0.1, h0.2, hw, hne, h19, hj1, csign,
            hc5, hcap]
          ring)
    (DrivePState.mk 105 100 100 20 0)
    ⟨_, rfl, by norm_num [driveP.body, timeoutUtility, he, h0.1, h0.2, hw],
      by norm_num [driveP.body, timeoutUtility, he, h0.1, h0.2, hw, csign, ctrunc_caps.2.1]⟩
    20 0 21 (le_refl _) (by omega) (by omega)
  simpa using key

/-- The run of driveP(100, 100) with both encoders at 0 for 19 ticks and at 96
afterwards: mean wheel error 100, then 4 on ticks 19 and 20, return on tick 20
because the last two errors are below 5. -/
theorem driveP_near_run :
    (driveP 100 100 115 false creptThenNear 0 21).outcome
      = .returned 20 (DrivePState.mk 105 4 4 1 0) := by
  obtain ⟨he, he4, hw, hw4, ht⟩ := driveP_error_samples
  unfold driveP
  have h0 : (creptThenNear 0).encLeft = 0 ∧ (creptThenNear 0).encRight = 0 := ⟨rfl, rfl⟩
  have hl : ∀ e, (encodersAt e).encLeft = e := fun _ => rfl
  have hr : ∀ e, (encodersAt e).encRight = e := fun _ => rfl
  simp only [h0.1, h0.2, ht]
  have key := runLoop_follow (driveP.body 100 100 115) creptThenNear
    (fun j => if j = 0 then driveP.init
      else if j < 20 then DrivePState.mk (5 * (j : Int)) 100 100 (j - 1) 0
      else DrivePState.mk 100 4 4 0 0)
    0 20
    (by
      intro j _ hj
      refine ⟨_, rfl, ?_, ?_⟩
      · rcases Nat.eq_zero_or_pos j with h | h
        · subst h
          norm_num [driveP.body, driveP.init, timeoutUtility, creptThenNear, he, hl, hr, hw]
        · have hne : j ≠ 0 := by omega
          rcases Nat.lt_or_ge j 19 with h19 | h19
          · have h20 : j - 1 + 1 < 20 := by omega
            norm_num [driveP.body, timeoutUtility, creptThenNear, he, hl, hr, hw, hne, h19,
              hj, h20]
          · have e : j = 19 := by omega
            subst e
            norm_num [driveP.body, timeoutUtility, creptThenNear, he4, hl, hr, hw4]
      · rcases Nat.eq_zero_or_pos j with h | h
        · subst h
          norm_num [driveP.body, driveP.init, timeoutUtility, creptThenNear, he, hl, hr, hw,
            csign, ctrunc_caps.1]
        · have hne : j ≠ 0 := by omega
          rcases Nat.lt_or_ge j 19 with h19 | h19
          · have h20 : j - 1 + 1 < 20 := by omega
            have h21 : j + 1 < 20 := by omega
            have hj1 : j - 1 + 1 = j := by omega
            have hcap : ¬ (5 * (j : Int) + 5 > 115) := by omega
            have hc5 : ctrunc ((5 : ℚ) * (j : ℚ) + 5) = 5 * (j : Int) + 5 := by
              have := ctrunc_add_five (5 * (j : Int))
              push_cast at this
              exact this
            norm_num [driveP.body, timeoutUtility, creptThenNear, he, hl, hr, hw, hne, h19,
              hj, h20, h21, hj1, csign, hc5, hcap]
            ring
          · have e : j = 19 := by omega
            subst e
            norm_num [driveP.body, timeoutUtility, creptThenNear, he4, hl, hr, hw4, csign,
              ctrunc_caps.2.2])
    (DrivePState.mk 105 4 4 1 0)
    ⟨_, rfl, by norm_num [driveP.body, timeoutUtility, creptThenNear, he4, hl, hr, hw4],
      by norm_num [driveP.body, timeoutUtility, creptThenNear, he4, hl, hr, hw4, csign,
        ctrunc_caps.2.1]⟩
    20 0 21 (le_refl _) (by omega) (by omega)
  simpa using key

theorem driveQ_returned_cause {M : MathLib} {targetX targetY : ℚ} {backwards : Bool}
    {voltageMax : ℚ} {forceFlip debugLog : Bool} {i0 iTurn0 : ℚ} {s : Nat → Sensors}
    {t0 fuel T : Nat} {fin : DriveQState}
    (h : (driveQ M targetX targetY backwards voltageMax forceFlip debugLog i0 iTurn0 s t0
      fuel).outcome = .returned T fin) :
    fin.same0ErrCycles > 15 ∨ fin.sameErrCycles ≥ 20 := by
  obtain ⟨st1, k, _, _, hk, hx, rfl⟩ := runLoop_returned _ s (fun _ _ => True)
    (fun _ _ _ _ _ _ => trivial) fuel t0 _ trivial T fin h
  simp only [driveQ.body, Option.some.injEq] at hk
  subst hk
  simpa using hx

theorem turnQ_returned_cause {M : MathLib} {targetX targetY : ℚ}
    {backwards forceFlip debugLog : Bool} {i0 : ℚ} {s : Nat → Sensors} {t0 fuel T : Nat}
    {fin : TurnQState}
    (h : (turnQ M targetX targetY backwards forceFlip debugLog i0 s t0 fuel).outcome
      = .returned T fin) :
    fin.same0ErrCycles > 5 ∨ fin.sameErrCycles ≥ 15 := by
  obtain ⟨st1, k, _, _, hk, hx, rfl⟩ := runLoop_returned _ s (fun _ _ => True)
    (fun _ _ _ _ _ _ => trivial) fuel t0 _ trivial T fin h
  simp only [turnQ.body, Option.some.injEq] at hk
  subst hk
  simpa using hx

theorem driveP_returned_cause {targetLeft targetRight voltageMax : Int} {debugLog : Bool}
    {s : Nat → Sensors} {t0 fuel T : Nat} {fin : DrivePState}
    (h : (driveP targetLeft targetRight voltageMax debugLog s t0 fuel).outcome
      = .returned T fin) :
    (fin.errorLast < 5 ∧ fin.errorCurrent < 5) ∨ fin.sameErrCycles ≥ 20 := by
  obtain ⟨st1, k, _, _, hk, hx, rfl⟩ := runLoop_returned _ s (fun _ _ => True)
    (fun _ _ _ _ _ _ => trivial) fuel t0 _ trivial T fin h
  obtain ⟨h3, h4⟩ := (driveP_body_exit hk).2.1 hx
  rw [h3]
  exact h4

theorem returnTick_of_returned {σ : Type} {r : Run σ} {T : Nat} {fin : σ}
    (h : r.outcome = .returned T fin) : r.returnTick = some T := by
  simp [Run.returnTick, h]

/-- C22: whenever driveQ, turnQ or driveP returns, the last chassis command of
the call is stop, preceded by tank commands only, and the return was caused by
the near-zero condition or by the stall condition of that controller.  The
caller receives the return of control and nothing else (the functions are void
and the counters are locals), and that does not tell the two causes apart: for
each of the three controllers there are two calls with equal arguments that
both return on tick 20 (turnQ: tick 15), one through the near-zero condition
alone and the other through the stall condition alone. -/
theorem controllers_exit_with_stop :
    (∀ (M : MathLib) (targetX targetY : ℚ) (backwards : Bool) (voltageMax : ℚ)
        (forceFlip debugLog : Bool) (i0 iTurn0 : ℚ) (s : Nat → Sensors) (t0 fuel T : Nat)
        (fin : DriveQState),
        (driveQ M targetX targetY backwards voltageMax forceFlip debugLog i0 iTurn0 s t0
          fuel).outcome = .returned T fin →
        (driveQ M targetX targetY backwards voltageMax forceFlip debugLog i0 iTurn0 s t0
            fuel).events.getLast? = some .stop
          ∧ (driveQ M targetX targetY backwards voltageMax forceFlip debugLog i0 iTurn0 s t0
            fuel).events.dropLast.all Event.isTank = true
          ∧ (fin.same0ErrCycles > 15 ∨ fin.sameErrCycles ≥ 20)
          ∧ (driveQ M targetX targetY backwards voltageMax forceFlip debugLog i0 iTurn0 s t0
            fuel).returnTick = some T)
      ∧ (∀ (M : MathLib) (targetX targetY : ℚ) (backwards forceFlip debugLog : Bool) (i0 : ℚ)
        (s : Nat → Sensors) (t0 fuel T : Nat) (fin : TurnQState),
        (turnQ M targetX targetY backwards forceFlip debugLog i0 s t0 fuel).outcome
          = .returned T fin →
        (turnQ M targetX targetY backwards forceFlip debugLog i0 s t0 fuel).events.getLast?
            = some .stop
          ∧ (turnQ M targetX targetY backwards forceFlip debugLog i0 s t0
            fuel).events.dropLast.all Event.isTank = true
          ∧ (fin.same0ErrCycles > 5 ∨ fin.sameErrCycles ≥ 15)
          ∧ (turnQ M targetX targetY backwards forceFlip debugLog i0 s t0 fuel).returnTick
            = some T)
      ∧ (∀ (targetLeft targetRight voltageMax : Int) (debugLog : Bool) (s : Nat → Sensors)
        (t0 fuel T : Nat) (fin : DrivePState),
        (driveP targetLeft targetRight voltageMax debugLog s t0 fuel).outcome
          = .returned T fin →
        (driveP targetLeft targetRight voltageMax debugLog s t0 fuel).events.getLast?
            = some .stop
          ∧ (driveP targetLeft targetRight voltageMax debugLog s t0
            fuel).events.dropLast.all Event.isTank = true
          ∧ ((fin.errorLast < 5 ∧ fin.errorCurrent < 5) ∨ fin.sameErrCycles ≥ 20)
          ∧ (driveP targetLeft targetRight voltageMax debugLog s t0 fuel).returnTick
            = some T)
      ∧ (∃ near stall : DriveQState,
          (driveQ sampleMath 100 0 false 115 false false 0 0 movedThenNear 0 21).outcome
            = .returned 20 near
          ∧ (driveQ sampleMath 100 0 false 115 false false 0 0 standingShort 0 21).outcome
            = .returned 20 stall
          ∧ (near.same0ErrCycles > 15 ∧ ¬ near.sameErrCycles ≥ 20)
          ∧ (stall.sameErrCycles ≥ 20 ∧ ¬ stall.same0ErrCycles > 15)
          ∧ (driveQ sampleMath 100 0 false 115 false false 0 0 movedThenNear 0 21).returnTick
            = (driveQ sampleMath 100 0 false 115 false false 0 0 standingShort 0
              21).returnTick)
      ∧ (∃ near stall : TurnQState,
          (turnQ sampleMath 100 0 false false false 0 turnedThenNear 0 16).outcome
            = .returned 15 near
          ∧ (turnQ sampleMath 100 0 false false false 0 (facing (-10)) 0 16).outcome
            = .returned 15 stall
          ∧ (near.same0ErrCycles > 5 ∧ ¬ near.sameErrCycles ≥ 15)
          ∧ (stall.sameErrCycles ≥ 15 ∧ ¬ stall.same0ErrCycles > 5)
          ∧ (turnQ sampleMath 100 0 false false false 0 turnedThenNear 0 16).returnTick
            = (turnQ sampleMath 100 0 false false false 0 (facing (-10)) 0 16).returnTick)
      ∧ (∃ near stall : DrivePState,
          (driveP 100 100 115 false creptThenNear 0 21).outcome = .returned 20 near
          ∧ (driveP 100 100 115 false (fun _ => encodersAt 0) 0 21).outcome
            = .returned 20 stall
          ∧ ((near.errorLast < 5 ∧ near.errorCurrent < 5) ∧ ¬ near.sameErrCycles ≥ 20)
          ∧ (stall.sameErrCycles ≥ 20 ∧ ¬ (stall.errorLast < 5 ∧ stall.errorCurrent < 5))
          ∧ (driveP 100 100 115 false creptThenNear 0 21).returnTick
            = (driveP 100 100 115 false (fun _ => encodersAt 0) 0 21).returnTick) := by
  refine ⟨?_, ?_, ?_, ?_, ?_, ?_⟩
  · intro M targetX targetY backwards voltageMax forceFlip debugLog i0 iTurn0 s t0 fuel T fin h
    obtain ⟨h1, h2, _, _⟩ := runLoop_returned_events _ s fuel t0 _ T fin h
    exact ⟨h1, h2, driveQ_returned_cause h, returnTick_of_returned h⟩
  · intro M targetX targetY backwards forceFlip debugLog i0 s t0 fuel T fin h
    obtain ⟨h1, h2, _, _⟩ := runLoop_returned_events _ s fuel t0 _ T fin h
    exact ⟨h1, h2, turnQ_returned_cause h, returnTick_of_returned h⟩
  · intro targetLeft targetRight voltageMax debugLog s t0 fuel T fin h
    obtain ⟨h1, h2, _, _⟩ := runLoop_returned_events _ s fuel t0 _ T fin h
    exact ⟨h1, h2, driveP_returned_cause h, returnTick_of_returned h⟩
  · refine ⟨_, _, driveQ_near_run, driveQ_stall_run, by decide, by decide, ?_⟩
    rw [returnTick_of_returned driveQ_near_run, returnTick_of_returned driveQ_stall_run]
  · refine ⟨_, _, turnQ_near_run, turnQ_stall_run, by decide, by decide, ?_⟩
    rw [returnTick_of_returned turnQ_near_run, returnTick_of_returned turnQ_stall_run]
  · refine ⟨_, _, driveP_near_run, driveP_stall_run, by decide, by decide, ?_⟩
    rw [returnTick_of_returned driveP_near_run, returnTick_of_returned driveP_stall_run]

theorem controllers_exit_with_stop_witness :
    (driveP 100 100 115 false creptThenNear 0 21).outcome
        = .returned 20 (DrivePState.mk 105 4 4 1 0)
      ∧ (driveP 100 100 115 false creptThenNear 0 21).events.getLast? = some .stop :=
  ⟨driveP_near_run,
    (controllers_exit_with_stop.2.2.1 100 100 115 false creptThenNear 0 21 20 _
      driveP_near_run).1⟩

/-! ## driveTo: dispatch -/

/-- A loop whose iterations are always defined either returns or runs out of fuel. -/
theorem runLoop_defined {σ : Type} (body : σ → Sensors → Option (Tick σ)) (s : Nat → Sensors)
    (hbody : ∀ st smp, ∃ k, body st smp = some k) :
    ∀ fuel t st, (∃ T fin, (runLoop body s fuel t st).outcome = .returned T fin)
      ∨ (runLoop body s fuel t st).outcome = .unfinished := by
  intro fuel
  induction fuel with
  | zero => intro t st; exact Or.inr rfl
  | succ fuel ih =>
    intro t st
    obtain ⟨k, hk⟩ := hbody st (s t)
    cases hx : k.exit with
    | true =>
      rw [runLoop_exit fuel hk hx]
      exact Or.inl ⟨_, _, rfl⟩
    | false =>
      rw [runLoop_continue fuel hk hx]
      exact ih (t + 1) k.state

theorem runLoop_events_ne_nil {σ : Type} (body : σ → Sensors → Option (Tick σ))
    (s : Nat → Sensors) (hbody : ∀ st smp, ∃ k, body st smp = some k) (fuel t : Nat) (st : σ) :
    (runLoop body s (fuel + 1) t st).events ≠ [] := by
  obtain ⟨k, hk⟩ := hbody st (s t)
  cases hx : k.exit with
  | true => simp [runLoop_exit fuel hk hx]
  | false => simp [runLoop_continue fuel hk hx]

/-- C1: driveTo enters turnQ exactly when the absolute difference between the
approach heading it computed and the IMU rotation is strictly above 20
degrees.  When it is not, the call is the driveQ call entered at once, with the
same target, flags and maximum output.  When it is, the commands of turnQ
(at least one) come first; if turnQ returns on tick T the commands of driveQ,
entered on tick T with the same target, flags and maximum output, follow and
the call ends as driveQ ends; as long as turnQ has not returned, driveQ is not
entered.  For the target (100 cm, 0 cm) from pose (0, 0, 0 deg) the heading
error is 0, the rotation is skipped and the call is the driveQ call. -/
theorem driveTo_dispatch (M : MathLib) (targetX targetY : ℚ) (backwards : Bool)
    (voltageMax : Int) (forceFlip debugLog : Bool) (turnI0 i0 iTurn0 : ℚ) (s : Nat → Sensors)
    (t0 fuel : Nat) :
    (¬ (|driveTo.targetTheta M targetX targetY backwards forceFlip (s t0) - (s t0).rot| > 20) →
        driveTo M targetX targetY backwards voltageMax forceFlip debugLog turnI0 i0 iTurn0 s t0
            fuel
          = driveQ M targetX targetY backwards voltageMax forceFlip debugLog i0 iTurn0 s t0 fuel)
      ∧ (|driveTo.targetTheta M targetX targetY backwards forceFlip (s t0) - (s t0).rot| > 20 →
        (∀ T fin, (turnQ M targetX targetY backwards forceFlip debugLog turnI0 s t0
            fuel).outcome = .returned T fin →
          (driveTo M targetX targetY backwards voltageMax forceFlip debugLog turnI0 i0 iTurn0 s
              t0 fuel).events
            = (turnQ M targetX targetY backwards forceFlip debugLog turnI0 s t0 fuel).events
              ++ (driveQ M targetX targetY backwards voltageMax forceFlip debugLog i0 iTurn0 s T
                fuel).events
          ∧ (driveTo M targetX targetY backwards voltageMax forceFlip debugLog turnI0 i0 iTurn0
              s t0 fuel).outcome
            = (driveQ M targetX targetY backwards voltageMax forceFlip debugLog i0 iTurn0 s T
                fuel).outcome)
        ∧ ((turnQ M targetX targetY backwards forceFlip debugLog turnI0 s t0 fuel).outcome
            = .unfinished →
          (driveTo M targetX targetY backwards voltageMax forceFlip debugLog turnI0 i0 iTurn0 s
              t0 fuel).events
            = (turnQ M targetX targetY backwards forceFlip debugLog turnI0 s t0 fuel).events
          ∧ (driveTo M targetX targetY backwards voltageMax forceFlip debugLog turnI0 i0 iTurn0
              s t0 fuel).outcome = .unfinished)
        ∧ ((∃ T fin, (turnQ M targetX targetY backwards forceFlip debugLog turnI0 s t0
              fuel).outcome = .returned T fin)
          ∨ (turnQ M targetX targetY backwards forceFlip debugLog turnI0 s t0 fuel).outcome
            = .unfinished)
        ∧ (0 < fuel →
          (turnQ M targetX targetY backwards forceFlip debugLog turnI0 s t0 fuel).events ≠ []))
      ∧ driveTo.targetTheta sampleMath 100 0 false false (atRest 0) - (atRest 0).rot = 0
      ∧ driveTo sampleMath 100 0 false 115 false debugLog turnI0 i0 iTurn0 atRest 0 fuel
        = driveQ sampleMath 100 0 false 115 false debugLog i0 iTurn0 atRest 0 fuel := by
  refine ⟨?_, ?_, ?_, ?_⟩
  · intro h
    simp [driveTo, driveTo.needsTurn, h]
  · intro h
    have hd : driveTo M targetX targetY backwards voltageMax forceFlip debugLog turnI0 i0 iTurn0
        s t0 fuel
        = (turnQ M targetX targetY backwards forceFlip debugLog turnI0 s t0 fuel).andThen
          fun t => driveQ M targetX targetY backwards voltageMax forceFlip debugLog i0 iTurn0 s
            t fuel := by
      simp [driveTo, driveTo.needsTurn, h]
    refine ⟨?_, ?_, ?_, ?_⟩
    · intro T fin hT
      rw [hd]
      simp [Run.andThen, hT]
    · intro hu
      rw [hd]
      simp [Run.andThen, hu]
    · exact runLoop_defined _ s (fun _ _ => ⟨_, rfl⟩) fuel t0 _
    · intro hf
      obtain ⟨fuel, rfl⟩ : ∃ g, fuel = g + 1 := ⟨fuel - 1, by omega⟩
      exact runLoop_events_ne_nil _ s (fun _ _ => ⟨_, rfl⟩) fuel t0 _
  · norm_num [driveTo.targetTheta, sampleMath, sampleAtanDeg, atRest, poseAt]
  · have h : driveTo.needsTurn sampleMath 100 0 false false (atRest 0) = false := by
      norm_num [driveTo.needsTurn, driveTo.targetTheta, sampleMath, sampleAtanDeg, atRest, poseAt]
    simp [driveTo, h]

theorem driveTo_dispatch_witness :
    |driveTo.targetTheta sampleMath 0 100 false false (atRest 0) - (atRest 0).rot| > 20
      ∧ ∃ T fin, (turnQ sampleMath 0 100 false false false 0 atRest 0 16).outcome
          = .returned T fin
        ∧ (driveTo sampleMath 0 100 false 115 false false 0 0 0 atRest 0 16).events
          = (turnQ sampleMath 0 100 false false false 0 atRest 0 16).events
            ++ (driveQ sampleMath 0 100 false ((115 : Int) : ℚ) false false 0 0 atRest T
              16).events :=
  have h : |driveTo.targetTheta sampleMath 0 100 false false (atRest 0) - (atRest 0).rot| > 20 := by
    norm_num [driveTo.targetTheta, sampleMath, sampleAtanDeg, atRest, poseAt, abs_of_pos]
  have ht := turnQ_returns_once_settled sampleMath 0 100 false false false 0 atRest 0 0 16
    (fun _ _ => rfl) (le_refl _)
  ⟨h, ht.elim fun T hT => hT.elim fun fin hfin => ⟨T, fin, hfin.2.2,
    (((driveTo_dispatch sampleMath 0 100 false 115 false false 0 0 0 atRest 0 16).2.1 h).1 T fin
      hfin.2.2).1⟩⟩

/-! ## driveQ: overshoot -/

theorem driveQ_error_past :
    driveQ.error sampleMath 100 0 (poseAt 0 0 0) = 100
      ∧ driveQ.error sampleMath 100 0 (poseAt 95 0 0) = 5
      ∧ driveQ.error sampleMath 100 0 (poseAt 105 0 0) = 5
      ∧ driveQ.distanceTotal sampleMath 100 0 (poseAt 0 0 0) = 100
      ∧ driveQ.distanceOrig sampleMath (poseAt 0 0 0) (poseAt 0 0 0) = 0
      ∧ driveQ.distanceOrig sampleMath (poseAt 0 0 0) (poseAt 95 0 0) = 95
      ∧ driveQ.distanceOrig sampleMath (poseAt 0 0 0) (poseAt 105 0 0) = 105 := by
  have h105 := sampleMath_sqrt_sq 105
  have h100 := sampleMath_sqrt_sq 100
  have h95 := sampleMath_sqrt_sq 95
  have h5 := sampleMath_sqrt_sq 5
  norm_num [abs_of_pos] at h105 h100 h95 h5
  refine ⟨?_, ?_, ?_, ?_, ?_, ?_, ?_⟩ <;>
    norm_num [driveQ.error, driveQ.distanceTotal, driveQ.distanceOrig, poseAt, h105, h100, h95,
      h5, sampleMath_sqrt_zero]

theorem pastTarget_samples :
    pastTarget 0 = poseAt 0 0 0 ∧ pastTarget 1 = poseAt 95 0 0 ∧ pastTarget 2 = poseAt 95 0 0
      ∧ pastTarget 3 = poseAt 105 0 0 := by
  refine ⟨?_, ?_, ?_, ?_⟩ <;> simp [pastTarget]

theorem cround_five : cround 5 = 5 ∧ cround 100 = 100 := by
  constructor <;> norm_num [cround]

theorem driveQ_past_first_tick :
    driveQ.body sampleMath 100 0 false (115 / 127) false (poseAt 0 0 0) (driveQ.init 0 0)
        (pastTarget 0)
      = some { state := DriveQState.mk 100 0 0 0 0 0, left := 115 / 127, right := 115 / 127,
               exit := false } := by
  obtain ⟨h1, h2, h3, h4, h5, h6, h7⟩ := driveQ_error_past
  have hth := targetTheta_east 0 0 (by norm_num)
  rw [pastTarget_samples.1]
  norm_num [driveQ.body, driveQ.init, driveQ.pid, driveQ.clamp, driveQ.turnTerm,
    timeoutUtility, h1, h4, h5, hth, poseAt_rot, cround_zero, cround_five.2]

theorem driveQ_past_second_tick :
    driveQ.body sampleMath 100 0 false (115 / 127) false (poseAt 0 0 0)
        (DriveQState.mk 100 0 0 0 0 0) (pastTarget 1)
      = some { state := DriveQState.mk 5 0 0 0 0 0, left := -(4721 / 100),
               right := -(4721 / 100), exit := false } := by
  obtain ⟨h1, h2, h3, h4, h5, h6, h7⟩ := driveQ_error_past
  have hth := targetTheta_east 0 0 (by norm_num)
  rw [pastTarget_samples.2.1]
  norm_num [driveQ.body, driveQ.pid, driveQ.clamp, driveQ.turnTerm,
    timeoutUtility, h2, h4, h6, hth, poseAt_rot, cround_five.1, cround_five.2, abs_of_pos]

theorem driveQ_past_third_tick :
    driveQ.body sampleMath 100 0 false (115 / 127) false (poseAt 0 0 0)
        (DriveQState.mk 5 0 0 0 0 0) (pastTarget 2)
      = some { state := DriveQState.mk 5 0 0 0 1 0, left := 29 / 100, right := 29 / 100,
               exit := false } := by
  obtain ⟨h1, h2, h3, h4, h5, h6, h7⟩ := driveQ_error_past
  have hth := targetTheta_east 0 0 (by norm_num)
  rw [pastTarget_samples.2.2.1]
  norm_num [driveQ.body, driveQ.pid, driveQ.clamp, driveQ.turnTerm,
    timeoutUtility, h2, h4, h6, hth, poseAt_rot, cround_five.1, abs_of_pos]

theorem driveQ_past_fourth_tick :
    driveQ.body sampleMath 100 0 false (115 / 127) false (poseAt 0 0 0)
        (DriveQState.mk 5 0 0 0 1 0) (pastTarget 3)
      = some { state := DriveQState.mk 5 0 0 0 2 0, left := -(29 / 100), right := -(29 / 100),
               exit := false } := by
  obtain ⟨h1, h2, h3, h4, h5, h6, h7⟩ := driveQ_error_past
  have hth := targetTheta_east 0 0 (by norm_num)
  rw [pastTarget_samples.2.2.2]
  norm_num [driveQ.body, driveQ.pid, driveQ.clamp, driveQ.turnTerm,
    timeoutUtility, h3, h4, h7, hth, poseAt_rot, cround_five.1, abs_of_pos]

theorem driveQ_past_run :
    (driveQ sampleMath 100 0 false 115 false false 0 0 pastTarget 0 4).events
        = [Event.tank (115 / 127) (115 / 127), Event.tank (-(4721 / 100)) (-(4721 / 100)),
            Event.tank (29 / 100) (29 / 100), Event.tank (-(29 / 100)) (-(29 / 100))] := by
  have e4 := congrArg Run.events (runLoop_continue 0 driveQ_past_fourth_tick rfl)
  have e3 := congrArg Run.events (runLoop_continue 1 driveQ_past_third_tick rfl)
  have e2 := congrArg Run.events (runLoop_continue 2 driveQ_past_second_tick rfl)
  have e1 := congrArg Run.events (runLoop_continue 3 driveQ_past_first_tick rfl)
  simp only [] at e1 e2 e3 e4
  have e0 : ∀ (t : Nat) (st : DriveQState),
      (runLoop (driveQ.body sampleMath 100 0 false (115 / 127) false (poseAt 0 0 0))
        pastTarget 0 t st).events = [] := fun _ _ => rfl
  rw [e0] at e4
  rw [e4] at e3
  rw [e3] at e2
  rw [e2] at e1
  have hd : driveQ sampleMath 100 0 false 115 false false 0 0 pastTarget 0 4
      = runLoop (driveQ.body sampleMath 100 0 false (115 / 127) false (pastTarget 0))
        pastTarget (3 + 1) 0 (driveQ.init 0 0) := rfl
  rw [hd, pastTarget_samples.1]
  exact e1

/-- C4: in driveQ with backwards false, on a tick whose pose reading lies
farther from the pose read at entry than the target does (the distance
sqrt((x - x0)^2 + (y - y0)^2) exceeds sqrt((targetX - x0)^2 + (targetY - y0)^2)),
the forward voltage common to both wheels is the negation of the clamped PID
sum min(p + i + d, voltageMax), and on every other tick it is the clamped PID
sum itself; the left command is the forward voltage plus the heading term and
the right command is the forward voltage minus it.  Driving to (100 cm, 0 cm)
from x = 0 with the pose read at x = 95 cm on ticks 1 and 2 and at x = 105 cm on
tick 3, the PID sum is 29/100 on ticks 2 and 3 and the commands are
tank(29/100, 29/100) on tick 2 and tank(-29/100, -29/100) on tick 3, the first
tick past the target. -/
theorem driveQ_overshoot_inverts (M : MathLib) (targetX targetY voltageMax : ℚ)
    (forceFlip : Bool) (entry : Sensors) (st : DriveQState) (smp : Sensors) :
    (∃ k, driveQ.body M targetX targetY false voltageMax forceFlip entry st smp = some k ∧
      k.left = (k.left + k.right) / 2
        + (st.iTurn + (targetTheta M targetX targetY false forceFlip entry - smp.rot))
          * (3 / 100) ∧
      k.right = (k.left + k.right) / 2
        - (st.iTurn + (targetTheta M targetX targetY false forceFlip entry - smp.rot))
          * (3 / 100) ∧
      (k.left + k.right) / 2 =
        (if M.sqrt ((smp.x - entry.x) ^ 2 + (smp.y - entry.y) ^ 2)
            > M.sqrt ((targetX - entry.x) ^ 2 + (targetY - entry.y) ^ 2)
          then -(min (driveQ.pid st (M.sqrt ((targetX - smp.x) ^ 2 + (targetY - smp.y) ^ 2)))
            voltageMax)
          else min (driveQ.pid st (M.sqrt ((targetX - smp.x) ^ 2 + (targetY - smp.y) ^ 2)))
            voltageMax))
      ∧ (driveQ sampleMath 100 0 false 115 false false 0 0 pastTarget 0 4).events
        = [Event.tank (115 / 127) (115 / 127), Event.tank (-(4721 / 100)) (-(4721 / 100)),
            Event.tank (29 / 100) (29 / 100), Event.tank (-(29 / 100)) (-(29 / 100))]
      ∧ driveQ.pid (DriveQState.mk 5 0 0 0 0 0) 5 = 29 / 100
      ∧ driveQ.pid (DriveQState.mk 5 0 0 0 1 0) 5 = 29 / 100 := by
  refine ⟨⟨_, rfl, ?_, ?_, ?_⟩, driveQ_past_run, ?_, ?_⟩
  · simp only [driveQ.turnTerm]
    ring
  · simp only [driveQ.turnTerm]
    ring
  · simp only [driveQ.distanceOrig, driveQ.distanceTotal, driveQ.error, driveQ.clamp]
    have hm : ∀ a b : ℚ, (if a > b then b else a) = min a b := by
      intro a b
      rw [min_def]
      split_ifs with h1 h2 h2
      · exact le_antisymm (le_of_lt h1) h2
      · rfl
      · rfl
      · exact absurd (le_of_not_lt h1) h2
    simp only [hm, Bool.false_eq_true, if_false]
    by_cases ho : M.sqrt ((smp.x - entry.x) ^ 2 + (smp.y - entry.y) ^ 2)
        > M.sqrt ((targetX - entry.x) ^ 2 + (targetY - entry.y) ^ 2)
    · simp only [ho, if_true]
      ring
    · simp only [ho, if_false]
      ring
  · norm_num [driveQ.pid, abs_of_pos]
  · norm_num [driveQ.pid, abs_of_pos]

/-! ## Termination of driveTo -/

/-- Once the rounded distance error has stayed unchanged for 20 consecutive
ticks, the `driveQ` loop has returned, whatever state it was in. -/
theorem driveQ_loop_steady (M : MathLib) (targetX targetY : ℚ) (backwards : Bool)
    (voltageMax : ℚ) (forceFlip : Bool) (entry : Sensors) (s : Nat → Sensors) (N : Nat)
    (hs : steadyAfter (fun k => driveQ.error M targetX targetY (s k)) N 20)
    (t : Nat) (st : DriveQState) (fuel : Nat) (ht : t ≤ N) (hf : N - t + 20 < fuel) :
    ∃ T fin, t ≤ T ∧ T ≤ N + 20 ∧
      (runLoop (driveQ.body M targetX targetY backwards voltageMax forceFlip entry) s fuel t
        st).outcome = .returned T fin := by
  obtain ⟨T, fin, h1, h2, _, h4⟩ := runLoop_returns
    (driveQ.body M targetX targetY backwards voltageMax forceFlip entry) s
    (fun k st => k ≤ N + 20 ∧ (N < k →
      cround st.errorLast = cround (driveQ.error M targetX targetY (s (k - 1)))
        ∧ k - N - 1 ≤ st.sameErrCycles))
    (fun _ => True) (fun k _ => N + 20 - k)
    (by
      intro k st ⟨hk, hG⟩
      refine ⟨_, rfl, fun _ => trivial, ?_⟩
      intro hx
      simp only [decide_eq_false_iff_not, not_or, not_lt, not_le] at hx
      have hsame : N < k → cround st.errorLast
          = cround (driveQ.error M targetX targetY (s k)) := by
        intro hN
        rw [(hG hN).1]
        exact (hs k hN hk).symm
      have hlt : k < N + 20 := by
        by_contra hge
        have hN : N < k := by omega
        have hc := (hG hN).2
        simp only [hsame hN, timeoutUtility, decide_True, if_true] at hx
        omega
      refine ⟨⟨by omega, ?_⟩, Nat.sub_lt_sub_left hlt (Nat.lt_succ_self k)⟩
      intro hN1
      simp only [decide_eq_true_eq, Nat.add_sub_cancel]
      refine ⟨?_, ?_⟩
      · rw [if_neg (by simpa using hx)]
      · rcases Nat.lt_or_ge N k with hN | hN
        · have hc := (hG hN).2
          simp only [hsame hN, timeoutUtility, decide_True, if_true]
          omega
        · omega)
    (N + 20 - t) t st fuel ⟨by omega, by intro h; omega⟩ (le_refl _) (by omega)
  exact ⟨T, fin, h1, by omega, h4⟩

/-- Once the rounded distance error has stayed unchanged, with the error within
3 cm, for 16 consecutive ticks, the `driveQ` loop has returned. -/
theorem driveQ_loop_near (M : MathLib) (targetX targetY : ℚ) (backwards : Bool)
    (voltageMax : ℚ) (forceFlip : Bool) (entry : Sensors) (s : Nat → Sensors) (N : Nat)
    (hs : nearAfter (fun k => driveQ.error M targetX targetY (s k)) 3 N 16)
    (t : Nat) (st : DriveQState) (fuel : Nat) (ht : t ≤ N) (hf : N - t + 16 < fuel) :
    ∃ T fin, t ≤ T ∧ T ≤ N + 16 ∧
      (runLoop (driveQ.body M targetX targetY backwards voltageMax forceFlip entry) s fuel t
        st).outcome = .returned T fin := by
  obtain ⟨T, fin, h1, h2, _, h4⟩ := runLoop_returns
    (driveQ.body M targetX targetY backwards voltageMax forceFlip entry) s
    (fun k st => k ≤ N + 16 ∧ (N < k →
      cround st.errorLast = cround (driveQ.error M targetX targetY (s (k - 1)))
        ∧ k - N - 1 ≤ st.same0ErrCycles))
    (fun _ => True) (fun k _ => N + 16 - k)
    (by
      intro k st ⟨hk, hG⟩
      refine ⟨_, rfl, fun _ => trivial, ?_⟩
      intro hx
      simp only [decide_eq_false_iff_not, not_or, not_lt, not_le] at hx
      have hsame : N < k → cround st.errorLast
          = cround (driveQ.error M targetX targetY (s k)) := by
        intro hN
        rw [(hG hN).1]
        exact ((hs k hN hk).1).symm
      have hnear : N < k → |driveQ.error M targetX targetY (s k)| ≤ 3 :=
        fun hN => (hs k hN hk).2
      have hlt : k < N + 16 := by
        by_contra hge
        have hN : N < k := by omega
        have hc := (hG hN).2
        simp only [hsame hN, hnear hN, timeoutUtility, decide_True, if_true] at hx
        omega
      refine ⟨⟨by omega, ?_⟩, Nat.sub_lt_sub_left hlt (Nat.lt_succ_self k)⟩
      intro hN1
      simp only [decide_eq_true_eq, Nat.add_sub_cancel]
      refine ⟨?_, ?_⟩
      · rw [if_neg (by simpa using hx)]
      · rcases Nat.lt_or_ge N k with hN | hN
        · have hc := (hG hN).2
          simp only [hsame hN, hnear hN, timeoutUtility, decide_True, if_true]
          omega
        · omega)
    (N + 16 - t) t st fuel ⟨by omega, by intro h; omega⟩ (le_refl _) (by omega)
  exact ⟨T, fin, h1, by omega, h4⟩

/-- Once the rounded heading error has stayed unchanged for 15 consecutive
ticks, the `turnQ` loop has returned, whatever state it was in. -/
theorem turnQ_loop_steady (theta : ℚ) (s : Nat → Sensors) (N : Nat)
    (hs : steadyAfter (fun k => theta - (s k).rot) N 15)
    (t : Nat) (st : TurnQState) (fuel : Nat) (ht : t ≤ N) (hf : N - t + 15 < fuel) :
    ∃ T fin, t ≤ T ∧ T ≤ N + 15 ∧
      (runLoop (turnQ.body theta) s fuel t st).outcome = .returned T fin := by
  obtain ⟨T, fin, h1, h2, _, h4⟩ := runLoop_returns (turnQ.body theta) s
    (fun k st => k ≤ N + 15 ∧ (N < k →
      cround st.errorLastTheta = cround (theta - (s (k - 1)).rot)
        ∧ k - N - 1 ≤ st.sameErrCycles))
    (fun _ => True) (fun k _ => N + 15 - k)
    (by
      intro k st ⟨hk, hG⟩
      refine ⟨_, rfl, fun _ => trivial, ?_⟩
      intro hx
      simp only [decide_eq_false_iff_not, not_or, not_lt, not_le] at hx
      have hsame : N < k → cround st.errorLastTheta = cround (theta - (s k).rot) := by
        intro hN
        rw [(hG hN).1]
        exact (hs k hN hk).symm
      have hlt : k < N + 15 := by
        by_contra hge
        have hN : N < k := by omega
        have hc := (hG hN).2
        simp only [hsame hN, timeoutUtility, decide_True, if_true] at hx
        omega
      refine ⟨⟨by omega, ?_⟩, Nat.sub_lt_sub_left hlt (Nat.lt_succ_self k)⟩
      intro hN1
      simp only [decide_eq_true_eq, Nat.add_sub_cancel]
      refine ⟨?_, ?_⟩
      · rw [if_neg (by simpa using hx)]
      · rcases Nat.lt_or_ge N k with hN | hN
        · have hc := (hG hN).2
          simp only [hsame hN, timeoutUtility, decide_True, if_true]
          omega
        · omega)
    (N + 15 - t) t st fuel ⟨by omega, by intro h; omega⟩ (le_refl _) (by omega)
  exact ⟨T, fin, h1, by omega, h4⟩

/-- Once the rounded heading error has stayed unchanged, with the error within
4 degrees, for 6 consecutive ticks, the `turnQ` loop has returned. -/
theorem turnQ_loop_near (theta : ℚ) (s : Nat → Sensors) (N : Nat)
    (hs : nearAfter (fun k => theta - (s k).rot) 4 N 6)
    (t : Nat) (st : TurnQState) (fuel : Nat) (ht : t ≤ N) (hf : N - t + 6 < fuel) :
    ∃ T fin, t ≤ T ∧ T ≤ N + 6 ∧
      (runLoop (turnQ.body theta) s fuel t st).outcome = .returned T fin := by
  obtain ⟨T, fin, h1, h2, _, h4⟩ := runLoop_returns (turnQ.body theta) s
    (fun k st => k ≤ N + 6 ∧ (N < k →
      cround st.errorLastTheta = cround (theta - (s (k - 1)).rot)
        ∧ k - N - 1 ≤ st.same0ErrCycles))
    (fun _ => True) (fun k _ => N + 6 - k)
    (by
      intro k st ⟨hk, hG⟩
      refine ⟨_, rfl, fun _ => trivial, ?_⟩
      intro hx
      simp only [decide_eq_false_iff_not, not_or, not_lt, not_le] at hx
      have hsame : N < k → cround st.errorLastTheta = cround (theta - (s k).rot) := by
        intro hN
        rw [(hG hN).1]
        exact ((hs k hN hk).1).symm
      have hnear : N < k → |theta - (s k).rot| ≤ 4 := fun hN => (hs k hN hk).2
      have hlt : k < N + 6 := by
        by_contra hge
        have hN : N < k := by omega
        have hc := (hG hN).2
        simp only [hsame hN, hnear hN, timeoutUtility, decide_True, if_true] at hx
        omega
      refine ⟨⟨by omega, ?_⟩, Nat.sub_lt_sub_left hlt (Nat.lt_succ_self k)⟩
      intro hN1
      simp only [decide_eq_true_eq, Nat.add_sub_cancel]
      refine ⟨?_, ?_⟩
      · rw [if_neg (by simpa using hx)]
      · rcases Nat.lt_or_ge N k with hN | hN
        · have hc := (hG hN).2
          simp only [hsame hN, hnear hN, timeoutUtility, decide_True, if_true]
          omega
        · omega)
    (N + 6 - t) t st fuel ⟨by omega, by intro h; omega⟩ (le_refl _) (by omega)
  exact ⟨T, fin, h1, by omega, h4⟩

theorem cround_heading_jitter : cround (223 / 5) = 45 ∧ cround (222 / 5) = 44 := by
  constructor <;> norm_num [cround]

theorem driveQ_oscillating_unfinished (fuel : Nat) :
    (driveTo sampleMath 30 0 false 115 false false 0 0 0 oscillating 0 fuel).outcome
      = .unfinished := by
  have hn : driveTo.needsTurn sampleMath 30 0 false false (oscillating 0) = false := by
    norm_num [driveTo.needsTurn, driveTo.targetTheta, sampleMath, sampleAtanDeg, oscillating,
      poseAt]
  have hu : (driveQ sampleMath 30 0 false ((115 : Int) : ℚ) false false 0 0 oscillating 0
      fuel).outcome = .unfinished := by
    unfold driveQ
    refine runLoop_unfinished _ oscillating
      (fun t st => st.errorLast = 0 ∨ st.errorLast = if t % 2 = 0 then 52 / 5 else 53 / 5) ?_
      fuel 0 _
      (Or.inl rfl)
    intro t st hG
    have hne : cround st.errorLast ≠ cround (driveQ.error sampleMath 30 0 (oscillating t)) := by
      rw [oscillating_error]
      rcases hG with h | h <;> rw [h] <;> by_cases h2 : t % 2 = 0 <;>
        simp [h2, cround_zero, cround_oscillating.1, cround_oscillating.2]
    refine ⟨_, rfl, ?_, ?_⟩
    · simp [hne, timeoutUtility]
    · right
      simp only [hne, timeoutUtility, decide_False]
      simp only [oscillating_error]
      by_cases h2 : t % 2 = 0
      · have h3 : (t + 1) % 2 = 1 := by omega
        simp [h2, h3]
      · have h3 : (t + 1) % 2 = 0 := by omega
        simp [h2, h3]
  simp only [driveTo, hn, Bool.false_eq_true, if_false]
  exact hu

theorem turnQ_jitter_unfinished (fuel : Nat) :
    (driveTo sampleMath 100 100 false 115 false false 0 0 0 headingJitter 0 fuel).outcome
      = .unfinished := by
  have h0 : headingJitter 0 = poseAt 0 0 (2 / 5) := by simp [headingJitter]
  have hn : driveTo.needsTurn sampleMath 100 100 false false (headingJitter 0) = true := by
    rw [h0]
    norm_num [driveTo.needsTurn, driveTo.targetTheta, sampleMath, sampleAtanDeg, poseAt,
      abs_of_pos]
  have hth : targetTheta sampleMath 100 100 false false (headingJitter 0) = 45 := by
    rw [h0]
    norm_num [targetTheta, sampleMath, sampleAtanDeg, poseAt]
  have hu : (turnQ sampleMath 100 100 false false false 0 headingJitter 0 fuel).outcome
      = .unfinished := by
    unfold turnQ
    rw [hth]
    refine runLoop_unfinished _ headingJitter
      (fun t st => st.errorLastTheta = 0
        ∨ st.errorLastTheta = if t % 2 = 0 then 222 / 5 else 223 / 5) ?_
      fuel 0 _ (Or.inl rfl)
    intro t st hG
    have he : 45 - (headingJitter t).rot = if t % 2 = 0 then 223 / 5 else 222 / 5 := by
      by_cases h2 : t % 2 = 0 <;> simp [headingJitter, poseAt, h2] <;> norm_num
    have hne : cround st.errorLastTheta ≠ cround (45 - (headingJitter t).rot) := by
      rw [he]
      rcases hG with h | h <;> rw [h] <;> by_cases h2 : t % 2 = 0 <;>
        simp [h2, cround_zero, cround_heading_jitter.1, cround_heading_jitter.2]
    refine ⟨_, rfl, ?_, ?_⟩
    · simp [turnQ.body, hne, timeoutUtility]
    · right
      simp only [turnQ.body, hne, timeoutUtility, decide_False]
      simp only [he]
      by_cases h2 : t % 2 = 0
      · have h3 : (t + 1) % 2 = 1 := by omega
        simp [h2, h3]
      · have h3 : (t + 1) % 2 = 0 := by omega
        simp [h2, h3]
  simp only [driveTo, hn, if_true, Run.andThen, hu]

/-- C5 (as stated, refuted): with target (30 cm, 0 cm) and a pose reading that
alternates between x = 19.4 cm and x = 19.6 cm, the rounded distance error
changes on every tick, the driveQ loop resets its counters on every tick and
driveTo never returns, whatever the fuel.  With target (100 cm, 100 cm) and an
IMU reading that alternates between 0.4 and 0.6 degrees the same happens in the
turnQ loop. -/
theorem driveTo_never_returns :
    (¬ ∃ fuel T fin, (driveTo sampleMath 30 0 false 115 false false 0 0 0 oscillating 0
        fuel).outcome = .returned T fin)
      ∧ ¬ ∃ fuel T fin, (driveTo sampleMath 100 100 false 115 false false 0 0 0 headingJitter 0
        fuel).outcome = .returned T fin := by
  constructor
  · rintro ⟨fuel, T, fin, h⟩
    rw [driveQ_oscillating_unfinished] at h
    cases h
  · rintro ⟨fuel, T, fin, h⟩
    rw [turnQ_jitter_unfinished] at h
    cases h

/-- C5 (amended): driveTo returns within a bounded number of ticks for every
target and every feedback stream in which the rounded errors come to rest:
when a rotation is needed, the rounded heading error stays unchanged over the
15 ticks after some tick N1 (or over 6 such ticks with the heading error
within 4 degrees), and from a tick N2 at or after the end of that window the
rounded distance error stays unchanged over 20 ticks (or over 16 ticks with the
distance error within 3 cm); when no rotation is needed only the second window
is required.  With at least N2 + 21 iterations of fuel per loop the call has
returned by tick N2 + 20. -/
theorem driveTo_returns_once_steady (M : MathLib) (targetX targetY : ℚ) (backwards : Bool)
    (voltageMax : Int) (forceFlip debugLog : Bool) (turnI0 i0 iTurn0 : ℚ) (s : Nat → Sensors)
    (t0 N1 N2 fuel : Nat) (h1 : t0 ≤ N1) (h2 : t0 ≤ N2)
    (hturn : |driveTo.targetTheta M targetX targetY backwards forceFlip (s t0) - (s t0).rot| > 20 →
      (steadyAfter (fun k => targetTheta M targetX targetY backwards forceFlip (s t0)
          - (s k).rot) N1 15 ∧ N1 + 15 ≤ N2)
        ∨ (nearAfter (fun k => targetTheta M targetX targetY backwards forceFlip (s t0)
          - (s k).rot) 4 N1 6 ∧ N1 + 6 ≤ N2))
    (hdrive : steadyAfter (fun k => driveQ.error M targetX targetY (s k)) N2 20
      ∨ nearAfter (fun k => driveQ.error M targetX targetY (s k)) 3 N2 16)
    (hf : N2 + 21 ≤ fuel) :
    ∃ T fin, (driveTo M targetX targetY backwards voltageMax forceFlip debugLog turnI0 i0
        iTurn0 s t0 fuel).outcome = .returned T fin ∧ t0 ≤ T ∧ T ≤ N2 + 20 := by
  have hq : ∀ t, t ≤ N2 → ∃ T fin, t ≤ T ∧ T ≤ N2 + 20 ∧
      (driveQ M targetX targetY backwards voltageMax forceFlip debugLog i0 iTurn0 s t
        fuel).outcome = .returned T fin := by
    intro t ht
    rcases hdrive with hd | hd
    · exact driveQ_loop_steady M targetX targetY backwards _ forceFlip (s t) s N2 hd t
        (driveQ.init i0 iTurn0) fuel ht (by omega)
    · obtain ⟨T, fin, e1, e2, e3⟩ := driveQ_loop_near M targetX targetY backwards _ forceFlip
        (s t) s N2 hd t (driveQ.init i0 iTurn0) fuel ht (by omega)
      exact ⟨T, fin, e1, by omega, e3⟩
  unfold driveTo driveTo.needsTurn
  by_cases hn : |driveTo.targetTheta M targetX targetY backwards forceFlip (s t0)
      - (s t0).rot| > 20
  · simp only [hn, decide_True, if_true]
    have ht : ∃ T1 fin1, t0 ≤ T1 ∧ T1 ≤ N2 ∧
        (turnQ M targetX targetY backwards forceFlip debugLog turnI0 s t0 fuel).outcome
          = .returned T1 fin1 := by
      rcases hturn hn with ⟨hw, hle⟩ | ⟨hw, hle⟩
      · obtain ⟨T1, fin1, e1, e2, e3⟩ := turnQ_loop_steady _ s N1 hw t0 (turnQ.init turnI0)
          fuel h1 (by omega)
        exact ⟨T1, fin1, e1, by omega, e3⟩
      · obtain ⟨T1, fin1, e1, e2, e3⟩ := turnQ_loop_near _ s N1 hw t0 (turnQ.init turnI0)
          fuel h1 (by omega)
        exact ⟨T1, fin1, e1, by omega, e3⟩
    obtain ⟨T1, fin1, e1, e2, e3⟩ := ht
    obtain ⟨T, fin, e4, e5, e6⟩ := hq T1 e2
    refine ⟨T, fin, ?_, by omega, e5⟩
    simp only [Run.andThen, e3]
    exact e6
  · simp only [hn, decide_False, Bool.false_eq_true, if_false]
    obtain ⟨T, fin, e4, e5, e6⟩ := hq t0 h2
    exact ⟨T, fin, e6, e4, e5⟩

theorem driveTo_returns_once_steady_witness :
    |driveTo.targetTheta sampleMath 0 100 false false (atRest 0) - (atRest 0).rot| > 20
      ∧ steadyAfter (fun k => targetTheta sampleMath 0 100 false false (atRest 0)
          - (atRest k).rot) 0 15
      ∧ steadyAfter (fun k => driveQ.error sampleMath 0 100 (atRest k)) 15 20
      ∧ ∃ T fin, (driveTo sampleMath 0 100 false 115 false false 0 0 0 atRest 0 36).outcome
        = .returned T fin ∧ 0 ≤ T ∧ T ≤ 15 + 20 :=
  have h : |driveTo.targetTheta sampleMath 0 100 false false (atRest 0) - (atRest 0).rot| > 20 := by
    norm_num [driveTo.targetTheta, sampleMath, sampleAtanDeg, atRest, poseAt, abs_of_pos]
  have hw1 : steadyAfter (fun k => targetTheta sampleMath 0 100 false false (atRest 0)
      - (atRest k).rot) 0 15 := fun _ _ _ => rfl
  have hw2 : steadyAfter (fun k => driveQ.error sampleMath 0 100 (atRest k)) 15 20 :=
    fun _ _ _ => rfl
  ⟨h, hw1, hw2,
    driveTo_returns_once_steady sampleMath 0 100 false 115 false false 0 0 0 atRest 0 0 15 36
      (le_refl _) (by omega) (fun _ => Or.inl ⟨hw1, le_refl _⟩) (Or.inl hw2) (by omega)⟩

/-! ## opcontrol: what follows the positioning block -/

theorem filter_nil_of_lastMove {d : Device} {l : List OpCmd} (h : lastMove d l = none) :
    l.filter (OpCmd.moves d) = [] := by
  unfold lastMove at h
  exact List.getLast?_eq_none_iff.mp h

theorem userIntake_filter (trayState : trayStates) (inp : OpInput) :
    (opcontrol.userIntake trayState true inp).filter (OpCmd.moves .intake) = []
      ↔ ¬ (trayState = .returned ∧ inp.shift = false
          ∧ (inp.intakeIn = true ∨ inp.intakeOut = true
            ∨ (inp.intakeShift = true ∧ inp.liftPosition > 700))) := by
  unfold opcontrol.userIntake LIFT_STACKING_HEIGHT
  by_cases hl : inp.liftPosition > 700 <;> cases trayState <;> cases inp.shift <;>
    cases inp.intakeIn <;> cases inp.intakeOut <;> cases inp.intakeShift <;>
    simp [hl, OpCmd.moves]

theorem userIntake_no_idle (trayState : trayStates) (inp : OpInput) :
    OpCmd.moveVoltage .intake 0 ∉ opcontrol.userIntake trayState true inp := by
  unfold opcontrol.userIntake
  split_ifs <;> simp_all

theorem stackingMods_filter (trayState : trayStates) (joystickAvg : ℚ) (inp : OpInput) :
    (opcontrol.stackingMods trayState joystickAvg inp).filter (OpCmd.moves .intake) = []
      ↔ (trayState = .returned
        ∨ (trayState = .extending ∧ (inp.shift = true ∨ inp.shiftReleased = true))) := by
  unfold opcontrol.stackingMods
  cases trayState
  · simp [OpCmd.moves]
  · simp only []
    split_ifs <;> simp [OpCmd.moves]
  · simp only []
    by_cases hs : inp.shift = true
    · simp [hs, OpCmd.moves]
    · by_cases hr : inp.shiftReleased = true
      · simp [hs, hr, OpCmd.moves]
      · simp only [hs, hr, not_false_eq_true, and_self, if_true]
        split_ifs <;> simp_all [OpCmd.moves]

theorem afterAlignment_filter (st : OpState) (inp : OpInput)
    (hp : (opcontrol.alignment st inp).cubesPositioning = true) :
    (opcontrol.afterAlignment st inp).filter (OpCmd.moves .intake)
      = (opcontrol.userIntake st.trayState true inp).filter (OpCmd.moves .intake)
        ++ (opcontrol.stackingMods (opcontrol.tick st inp).1.trayState st.joystickAvg
          inp).filter (OpCmd.moves .intake) := by
  unfold opcontrol.afterAlignment
  rw [hp]
  simp only [List.filter_append,
    filter_nil_of_lastMove (lastMove_trayToggle_intake st.trayState inp),
    filter_nil_of_lastMove (lastMove_trayControl_intake _ inp),
    filter_nil_of_lastMove (lastMove_liftBrake .intake inp)]
  simp [OpCmd.moves]

/-- C19 (amended): on every tick on which the armed positioning block issues
an intake command c, the commands of the tick are those of the lift and
flipout blocks, then c, then the commands of the later blocks, and the idle
zero-voltage command of the operator's intake mapping is not issued.  No later
block issues an intake command, so that c is the last intake command of the
tick, exactly when the operator's intake mapping is silent (the tray state at
the start of the tick is not Returned, or shift is held, or none of intakeIn,
intakeOut and intakeShift with the lift above 700 is active) and the updated
tray state is Returned, or Extending with shift held or just released.
Otherwise the last intake command of the tick comes from a later block: an
operator button, or the intake mapping of the stacking block, including its
idle zero-voltage command. -/
theorem alignment_command_last (st : OpState) (inp : OpInput) (c : OpCmd)
    (hc : (opcontrol.alignment st inp).cmds = [c]) :
    (opcontrol.tick st inp).2
        = opcontrol.liftControl inp ++ (if inp.flipoutBtn then flipout else []) ++ [c]
          ++ opcontrol.afterAlignment st inp
      ∧ OpCmd.moveVoltage .intake 0
        ∉ opcontrol.userIntake st.trayState (opcontrol.alignment st inp).cubesPositioning inp
      ∧ ((opcontrol.afterAlignment st inp).filter (OpCmd.moves .intake) = []
        ↔ ¬ (st.trayState = .returned ∧ inp.shift = false
              ∧ (inp.intakeIn = true ∨ inp.intakeOut = true
                ∨ (inp.intakeShift = true ∧ inp.liftPosition > 700)))
          ∧ ((opcontrol.tick st inp).1.trayState = .returned
            ∨ ((opcontrol.tick st inp).1.trayState = .extending
              ∧ (inp.shift = true ∨ inp.shiftReleased = true))))
      ∧ ((opcontrol.afterAlignment st inp).filter (OpCmd.moves .intake) = [] →
          lastMove .intake (opcontrol.tick st inp).2 = some c)
      ∧ ((opcontrol.afterAlignment st inp).filter (OpCmd.moves .intake) ≠ [] →
          lastMove .intake (opcontrol.tick st inp).2
            = lastMove .intake (opcontrol.afterAlignment st inp)) := by
  obtain ⟨hp, hm⟩ := alignment_cmd st inp c hc
  have htick : (opcontrol.tick st inp).2
      = opcontrol.liftControl inp ++ (if inp.flipoutBtn then flipout else []) ++ [c]
        ++ opcontrol.afterAlignment st inp := by
    rw [tick_cmds, hc]
    simp [opcontrol.afterAlignment]
  have hl : lastMove .intake [c] = some c := by
    simp [lastMove, List.filter, hm]
  refine ⟨htick, ?_, ?_, ?_, ?_⟩
  · rw [hp]
    exact userIntake_no_idle _ _
  · rw [afterAlignment_filter st inp hp, List.append_eq_nil, userIntake_filter,
      stackingMods_filter]
  · intro h
    have hn : lastMove .intake (opcontrol.afterAlignment st inp) = none := by
      unfold lastMove
      rw [h]
      rfl
    rw [htick, lastMove_append, hn, lastMove_append, hl]
    rfl
  · intro h
    have hs : (lastMove .intake (opcontrol.afterAlignment st inp)).isSome = true := by
      unfold lastMove
      cases hf : (opcontrol.afterAlignment st inp).filter (OpCmd.moves .intake) with
      | nil => exact absurd hf h
      | cons a l => simp [List.getLast?_cons_cons, List.getLast?_isSome]
    rw [htick, lastMove_append]
    cases hv : lastMove .intake (opcontrol.afterAlignment st inp) with
    | none => simp [hv] at hs
    | some v => rfl

theorem armedTrayHigh_after :
    opcontrol.afterAlignment opcontrol.start armedTrayHigh
      = [.moveVelocity .intake 0, .setBrakeMode .intake .hold, .setBrakeMode .chassis .coast,
          .setBrakeMode .lift .brake, .tank 0 0] := by
  have hc : ctrunc 0 = 0 := by norm_num [ctrunc]
  have hne : ¬ trayStates.returning = trayStates.returned := by decide
  norm_num [hne, opcontrol.afterAlignment, opcontrol.tick, opcontrol.alignment, opcontrol.arm,
    opcontrol.cubePositioning, opcontrol.userIntake, opcontrol.trayToggle,
    opcontrol.updateTrayState, opcontrol.trayControl, opcontrol.stackingMods,
    opcontrol.liftBrake, opcontrol.start, armedTrayHigh, handsOff, LIFT_STACKING_HEIGHT,
    covered_ne_settingCovered, hc]

theorem alignment_command_last_witness :
    (opcontrol.alignment opcontrol.start { handsOff with cubeReturn := true }).cmds
        = [.moveVelocity .intake (-100)]
      ∧ lastMove .intake (opcontrol.tick opcontrol.start { handsOff with cubeReturn := true }).2
        = some (.moveVelocity .intake (-100))
      ∧ (opcontrol.alignment opcontrol.start armedTrayHigh).cmds
        = [.moveVelocity .intake (-100)]
      ∧ (opcontrol.tick opcontrol.start armedTrayHigh).1.trayState = trayStates.returning
      ∧ lastMove .intake (opcontrol.tick opcontrol.start armedTrayHigh).2
        = some (.moveVelocity .intake 0) :=
  have hc : (opcontrol.alignment opcontrol.start { handsOff with cubeReturn := true }).cmds
      = [.moveVelocity .intake (-100)] := by
    norm_num [opcontrol.alignment, opcontrol.arm, opcontrol.cubePositioning, opcontrol.start,
      handsOff, covered_ne_settingCovered]
  have hret : (opcontrol.tick opcontrol.start { handsOff with cubeReturn := true }).1.trayState
      = trayStates.returned := by
    rw [tick_trayState]
    norm_num [opcontrol.updateTrayState, opcontrol.trayToggle, opcontrol.start, handsOff]
  have hc2 : (opcontrol.alignment opcontrol.start armedTrayHigh).cmds
      = [.moveVelocity .intake (-100)] := by
    norm_num [opcontrol.alignment, opcontrol.arm, opcontrol.cubePositioning, opcontrol.start,
      armedTrayHigh, handsOff, covered_ne_settingCovered]
  have hret2 : (opcontrol.tick opcontrol.start armedTrayHigh).1.trayState
      = trayStates.returning := by
    rw [tick_trayState]
    norm_num [opcontrol.updateTrayState, opcontrol.trayToggle, opcontrol.start, armedTrayHigh,
      handsOff]
  have h1 := alignment_command_last opcontrol.start { handsOff with cubeReturn := true } _ hc
  have h2 := alignment_command_last opcontrol.start armedTrayHigh _ hc2
  ⟨hc, h1.2.2.2.1 (h1.2.2.1.mpr ⟨by simp [handsOff], Or.inl hret⟩), hc2, hret2, by
    rw [h2.2.2.2.2 (by rw [armedTrayHigh_after]; simp [OpCmd.moves]), armedTrayHigh_after]
    simp [lastMove, OpCmd.moves]⟩

/-! ## Rotation controllers: pure rotation -/

/-- C8: every command issued by turnQ and by turnP is a pure rotation: the
right-wheel argument of each tank call is the negation of the left-wheel
argument (the two sum to zero), for every target, every stream of heading
readings and every run length.  Both controllers issue a command on every tick
they run, turnP also when targetTurn is 0: turnP(0) with the IMU at 0 commands
tank(0, 0) on its first tick. -/
theorem turn_commands_pure_rotation (M : MathLib) (targetX targetY : ℚ)
    (backwards forceFlip debugLog : Bool) (i0 : ℚ) (targetTurn voltageMax : Int)
    (errorLast0 : ℚ) (errorLastInt0 : Int) (s : Nat → Sensors) (t0 fuel : Nat) :
    (turnQ M targetX targetY backwards forceFlip debugLog i0 s t0 fuel).events.all
        Event.isPureRotation = true
      ∧ (turnP targetTurn voltageMax debugLog errorLast0 errorLastInt0 i0 s t0 fuel).events.all
        Event.isPureRotation = true
      ∧ (turnQ M targetX targetY backwards forceFlip debugLog i0 s t0 (fuel + 1)).events ≠ []
      ∧ (turnP targetTurn voltageMax debugLog errorLast0 errorLastInt0 i0 s t0
        (fuel + 1)).events ≠ []
      ∧ (∀ (st : TurnPState) (smp : Sensors), ∃ k,
          turnP.body targetTurn voltageMax st smp = some k ∧ k.left + k.right = 0)
      ∧ (∀ (theta : ℚ) (st : TurnQState) (smp : Sensors), ∃ k,
          turnQ.body theta st smp = some k ∧ k.left + k.right = 0)
      ∧ (turnP 0 127 false 0 0 0 atRest 0 1).events = [Event.tank 0 0] := by
  refine ⟨?_, ?_, runLoop_events_ne_nil _ s (fun _ _ => ⟨_, rfl⟩) fuel t0 _,
    runLoop_events_ne_nil _ s (fun _ _ => ⟨_, rfl⟩) fuel t0 _, ?_, ?_, ?_⟩
  · unfold turnQ
    refine runLoop_all _ s _ rfl ?_ fuel t0 _
    intro st smp k hk
    simp only [turnQ.body, Option.some.injEq] at hk
    subst hk
    simp only [Event.isPureRotation, decide_eq_true_eq]
    ring
  · unfold turnP
    refine runLoop_all _ s _ rfl ?_ fuel t0 _
    intro st smp k hk
    simp only [turnP.body, Option.some.injEq] at hk
    subst hk
    simp only [Event.isPureRotation, decide_eq_true_eq]
    ring
  · intro st smp
    refine ⟨_, rfl, ?_⟩
    simp only []
    ring
  · intro theta st smp
    refine ⟨_, rfl, ?_⟩
    simp only []
    ring
  · have h := runLoop_continue 0 turnP_zero_target_tick rfl
    have h2 := congrArg Run.events h
    simpa [runLoop] using h2

end Korvex
